import Mathlib

/-!
# AgroYield front end: the contract hook and the image resolver

A shallow embedding of `frontend/src/hooks/useContracts.js`,
`frontend/src/utils/imageUtils.js`, the registration part of
`frontend/src/contexts/Web3Context.js` and the load effect of
`frontend/src/components/CORSSafeImage.js`.

* The ledger (the three ethers contract bindings) is an external collaborator.
  Every asynchronous call the code awaits is answered by an oracle (`Ledger`),
  and every call that is actually issued is recorded, in order, in the list of
  effects an operation returns.
* The mutable cells of the hook (`projectsCacheRef`, `lastFetchTimeRef`,
  `projectCacheRef`, the `loading` state) are the record `Refs`, passed in and
  returned explicitly.
* `Date.now()` is a parameter of the operation that reads it.
* Library functions that are not part of the repository (`ethers.utils`,
  `parseInt`) are the fields of `Lib`.
* Asynchronous code that other code can interleave with (`fetchUserRole`,
  `ImageLoader.loadImage`, `checkUserRegistration`, the load effect) is a coroutine:
  one function for the stretch up to the first `await`, and one continuation for each
  awaited promise, run on the state as it is when that promise settles.
-/

set_option autoImplicit false

namespace AgroYield

/-! ## JavaScript values -/

/-- The JavaScript values that reach the code as a project id, an amount, a content
address or a category. `num` is an integer small enough to print in plain decimal;
`obj` stands for any object or function (named by a tag). -/
inductive JsVal where
  | undefined
  | null
  | bool (b : Bool)
  | num (n : Int)
  | str (s : String)
  | obj (tag : String)
  deriving DecidableEq, Repr

namespace JsVal

/-- Truthiness, as used by `!v`, `v && ..`, `v || ..` and `if (v)`. -/
def truthy : JsVal → Bool
  | undefined => false
  | null => false
  | bool b => b
  | num n => n != 0
  | str s => s != ""
  | obj _ => true

/-- String conversion of a template literal. -/
def toStr : JsVal → String
  | undefined => "undefined"
  | null => "null"
  | bool true => "true"
  | bool false => "false"
  | num n => toString n
  | str s => s
  | obj tag => tag

/-- The test `typeof v !== 'string'` negated. -/
def isString : JsVal → Bool
  | str _ => true
  | _ => false

end JsVal

/-- A thrown JavaScript error: `message`, and the `reason` ethers attaches to a revert. -/
structure JsError where
  message : String
  reason : Option String := none
  deriving DecidableEq, Repr

/-- The text `error.reason || error.message` shown in a failure toast. -/
def JsError.display (e : JsError) : String :=
  match e.reason with
  | some r => if r != "" then r else e.message
  | none => e.message

/-- The method call `v.toString()`: a TypeError on `undefined` and `null`. -/
def JsVal.toStringMethod : JsVal → Except JsError String
  | .undefined => .error { message := "Cannot read properties of undefined (reading 'toString')" }
  | .null => .error { message := "Cannot read properties of null (reading 'toString')" }
  | v => .ok v.toStr

/-! ## A JavaScript `Map` with string keys -/

/-- A `Map` keyed by strings, entries kept in insertion order. -/
abbrev JsMap (β : Type) := List (String × β)

namespace JsMap

variable {β : Type}

/-- The method `get`, `none` for `undefined`. -/
def get (m : JsMap β) (k : String) : Option β :=
  match m with
  | [] => none
  | (k', v) :: rest => if k' = k then some v else get rest k

/-- The method `has`. -/
def has (m : JsMap β) (k : String) : Bool := (get m k).isSome

/-- The method `set`: overwrite in place, or append a new entry. -/
def set (m : JsMap β) (k : String) (v : β) : JsMap β :=
  match m with
  | [] => [(k, v)]
  | (k', v') :: rest => if k' = k then (k, v) :: rest else (k', v') :: set rest k v

/-- The method `delete`. -/
def delete (m : JsMap β) (k : String) : JsMap β :=
  m.filter (fun e => decide (e.1 ≠ k))

/-- The method `clear`. -/
def clear (_m : JsMap β) : JsMap β := []

end JsMap

/-! ## Data model of `useContracts` -/

/-- A project record as the ledger returns it (big numbers are integers). -/
structure RawProject where
  id : Nat
  farmer : String
  title : String
  description : String
  imageIPFSHash : String
  documentsIPFSHash : String
  targetAmountUSDC : Nat
  currentAmountUSDC : Nat
  durationDays : Nat
  createdAt : Nat
  deadline : Nat
  status : Nat
  location : String
  category : String
  investorCount : Nat
  fundsReleased : Bool
  deriving DecidableEq, Repr

/-- A normalised project, as stored in the caches and handed to callers. -/
structure Project where
  id : String
  farmer : String
  title : String
  description : String
  imageIPFSHash : String
  documentsIPFSHash : String
  targetAmountUSDC : String
  currentAmountUSDC : String
  durationDays : String
  createdAt : String
  deadline : String
  status : Nat
  location : String
  category : String
  investorCount : String
  fundsReleased : Bool
  deriving DecidableEq, Repr

/-- One entry of a confirmed transaction's `events` array. -/
structure LogEvent where
  event : String
  projectId : Option Nat
  deriving DecidableEq, Repr

/-- A transaction receipt; `events` may be missing. -/
structure Receipt where
  hash : String
  events : Option (List LogEvent)
  deriving DecidableEq, Repr

/-- A pending-transaction handle; `waitResult` is what `tx.wait()` resolves or rejects with. -/
structure Tx where
  hash : String
  waitResult : Except JsError Receipt

/-- The arguments `createProject` passes to the ledger. -/
structure CreateArgs where
  title : JsVal
  description : JsVal
  imageIPFSHash : JsVal
  documentsIPFSHash : JsVal
  targetAmount : Int
  durationDays : Option Int
  location : JsVal
  category : JsVal
  deriving DecidableEq, Repr

/-- A call on a contract binding, or the await of a transaction's confirmation. -/
inductive Call where
  | registerUser (name : JsVal) (profileIPFSHash : JsVal)
  | createProject (args : CreateArgs)
  | getAllProjects
  | getProject (projectId : JsVal)
  | balanceOf (account : JsVal)
  | allowance (owner : JsVal) (spender : JsVal)
  | approve (spender : JsVal) (amount : Int)
  | investInProject (projectId : JsVal) (amount : Int)
  | wait (txHash : String)
  deriving DecidableEq, Repr

/-- A toast shown to the user. -/
structure Toast where
  title : String
  description : String
  status : String
  deriving DecidableEq, Repr

/-- An observable effect of a hook operation. -/
inductive Effect where
  | call (c : Call)
  | toast (t : Toast)
  | setLoading (b : Bool)
  deriving DecidableEq, Repr

/-- The ledger as an oracle: what each awaited call resolves (`ok`) or rejects (`error`) with. -/
structure Ledger where
  registerUser : JsVal → JsVal → Except JsError Tx
  createProject : CreateArgs → Except JsError Tx
  getAllProjects : Except JsError (List RawProject)
  getProject : JsVal → Except JsError (Option RawProject)
  balanceOf : JsVal → Except JsError Int
  allowance : JsVal → JsVal → Except JsError Int
  approve : JsVal → Int → Except JsError Tx
  investInProject : JsVal → Int → Except JsError Tx

/-- Library functions used by the hook that live outside the repository. -/
structure Lib where
  parseUnits : String → Nat → Except JsError Int
  formatUnits : Nat → Nat → String
  parseInt : JsVal → Option Int

/-- A contract binding built by the initialisation effect. -/
structure Binding where
  address : JsVal
  signer : Nat
  deriving DecidableEq, Repr

/-- The `contracts` state object. -/
structure Contracts where
  projectFactory : Option Binding
  investmentManager : Option Binding
  usdc : Option Binding
  deriving DecidableEq, Repr

/-- The constant `CONTRACT_ADDRESSES`, read from the environment. -/
structure ContractAddresses where
  projectFactory : JsVal
  investmentManager : JsVal
  usdc : JsVal
  deriving DecidableEq, Repr

/-- The values a callback closes over: hook state and the session of `useWeb3`. -/
structure Ctx where
  contractsReady : Bool
  contracts : Contracts
  isConnected : Bool
  account : JsVal
  addresses : ContractAddresses
  deriving DecidableEq, Repr

/-- An entry of the per-id cache. -/
structure CacheEntry where
  data : Project
  timestamp : Int
  deriving DecidableEq, Repr

/-- The mutable cells of one hook instance. -/
structure Refs where
  loading : Bool
  projectsCache : Option (List Project)
  lastFetchTime : Int
  projectCache : JsMap CacheEntry
  deriving DecidableEq, Repr

/-- The outcome of an operation: the value it resolves with or the error it throws, the
cells afterwards, and the effects it issued, in order. -/
structure Res (α : Type) where
  value : Except JsError α
  refs : Refs
  effects : List Effect

/-- The contract calls among a list of effects. -/
def callsOf : List Effect → List Call
  | [] => []
  | .call c :: es => c :: callsOf es
  | .toast _ :: es => callsOf es
  | .setLoading _ :: es => callsOf es

/-- Is the call the submission of a transaction (a ledger write)? -/
def Call.isTx : Call → Bool
  | .registerUser _ _ => true
  | .createProject _ => true
  | .approve _ _ => true
  | .investInProject _ _ => true
  | _ => false

/-- Is the call the submission of an approval? -/
def Call.isApprove : Call → Bool
  | .approve _ _ => true
  | _ => false

/-- Is the call the submission of an investment? -/
def Call.isInvest : Call → Bool
  | .investInProject _ _ => true
  | _ => false

/-! ## Operations of `useContracts` -/

/-- The error every gated mutation throws when the gate is closed. -/
def notReadyError : JsError := { message := "Wallet not connected or contracts not ready" }

/-- The constant `CACHE_DURATION`: 30 seconds. -/
def CACHE_DURATION : Int := 30000

/-- The callback `clearProjectCache(projectId)`. -/
def clearProjectCache (projectId : JsVal) (r : Refs) : Refs :=
  if projectId.truthy then
    { r with projectCache := r.projectCache.delete ("project_" ++ projectId.toStr) }
  else
    { r with projectCache := r.projectCache.clear, projectsCache := none }

/-- The record built from a ledger project in `getAllProjects` and `getProject`. -/
def processProject (lib : Lib) (project : RawProject) : Project :=
  { id := toString project.id
    farmer := project.farmer
    title := project.title
    description := project.description
    imageIPFSHash := project.imageIPFSHash
    documentsIPFSHash := project.documentsIPFSHash
    targetAmountUSDC := lib.formatUnits project.targetAmountUSDC 6
    currentAmountUSDC := lib.formatUnits project.currentAmountUSDC 6
    durationDays := toString project.durationDays
    createdAt := toString project.createdAt
    deadline := toString project.deadline
    status := project.status
    location := project.location
    category := project.category
    investorCount := toString project.investorCount
    fundsReleased := project.fundsReleased }

/-- The callback `getAllProjects()`; `now` is the value of `Date.now()`. -/
def getAllProjects (lib : Lib) (c : Ctx) (L : Ledger) (now : Int) (r : Refs) :
    Res (List Project) :=
  if !c.contractsReady || c.contracts.projectFactory.isNone then
    ⟨.ok [], r, []⟩
  else
    match r.projectsCache with
    | some cached =>
      if now - r.lastFetchTime < CACHE_DURATION then
        ⟨.ok cached, r, []⟩
      else
        match L.getAllProjects with
        | .ok projects =>
          let processedProjects := projects.map (processProject lib)
          ⟨.ok processedProjects,
            { r with projectsCache := some processedProjects, lastFetchTime := now },
            [.call .getAllProjects]⟩
        | .error _ => ⟨.ok cached, r, [.call .getAllProjects]⟩
    | none =>
      match L.getAllProjects with
      | .ok projects =>
        let processedProjects := projects.map (processProject lib)
        ⟨.ok processedProjects,
          { r with projectsCache := some processedProjects, lastFetchTime := now },
          [.call .getAllProjects]⟩
      | .error _ => ⟨.ok [], r, [.call .getAllProjects]⟩

/-- The fetch part of `getProject`, after the cache check; `storeTime` is the value of
`Date.now()` when the result is stored. -/
def fetchProject (lib : Lib) (L : Ledger) (projectId : JsVal) (cacheKey : String)
    (storeTime : Int) (r : Refs) : Res (Option Project) :=
  match L.getProject projectId with
  | .ok (some project) =>
    if toString project.id = "0" then
      ⟨.ok none, r, [.call (.getProject projectId)]⟩
    else
      let processedProject := processProject lib project
      ⟨.ok (some processedProject),
        { r with projectCache :=
            r.projectCache.set cacheKey { data := processedProject, timestamp := storeTime } },
        [.call (.getProject projectId)]⟩
  | .ok none => ⟨.ok none, r, [.call (.getProject projectId)]⟩
  | .error _ => ⟨.ok none, r, [.call (.getProject projectId)]⟩

/-- The callback `getProject(projectId)`; `now` is `Date.now()` at the cache check and
`storeTime` is `Date.now()` when a fetched project is stored. -/
def getProject (lib : Lib) (c : Ctx) (L : Ledger) (now storeTime : Int) (projectId : JsVal)
    (r : Refs) : Res (Option Project) :=
  if !c.contractsReady || c.contracts.projectFactory.isNone || !projectId.truthy then
    ⟨.ok none, r, []⟩
  else
    let cacheKey := "project_" ++ projectId.toStr
    match r.projectCache.get cacheKey with
    | some cached =>
      if now - cached.timestamp < 60000 then
        ⟨.ok (some cached.data), r, []⟩
      else
        fetchProject lib L projectId cacheKey storeTime r
    | none => fetchProject lib L projectId cacheKey storeTime r

/-- The `catch` and `finally` blocks shared by the three mutations: a failure toast and a
rethrow on error, and `setLoading(false)` in every case. -/
def finishMutation {α : Type} (failTitle : String) (body : Res α) : Res α :=
  match body.value with
  | .ok a =>
    ⟨.ok a, { body.refs with loading := false }, body.effects ++ [.setLoading false]⟩
  | .error e =>
    ⟨.error e, { body.refs with loading := false },
      body.effects ++
        [.toast { title := failTitle, description := e.display, status := "error" },
         .setLoading false]⟩

/-- The `try` block of `registerUser`. -/
def registerUserBody (L : Ledger) (name profileIPFSHash : JsVal) (r : Refs) :
    Res (Tx × Receipt) :=
  let r1 := { r with loading := true }
  match L.registerUser name profileIPFSHash with
  | .error e => ⟨.error e, r1, [.setLoading true, .call (.registerUser name profileIPFSHash)]⟩
  | .ok tx =>
    match tx.waitResult with
    | .error e =>
      ⟨.error e, r1,
        [.setLoading true, .call (.registerUser name profileIPFSHash), .call (.wait tx.hash)]⟩
    | .ok receipt =>
      ⟨.ok (tx, receipt), r1,
        [.setLoading true, .call (.registerUser name profileIPFSHash), .call (.wait tx.hash),
         .toast { title := "Registration Successful",
                  description := "Welcome to AgroYield, " ++ name.toStr ++ "!",
                  status := "success" }]⟩

/-- The callback `registerUser(name, profileIPFSHash = '')`. -/
def registerUser (c : Ctx) (L : Ledger) (name profileIPFSHash : JsVal) (r : Refs) :
    Res (Tx × Receipt) :=
  if !c.contractsReady || c.contracts.projectFactory.isNone || !c.isConnected then
    ⟨.error notReadyError, r, []⟩
  else
    let hash := if profileIPFSHash = .undefined then .str "" else profileIPFSHash
    finishMutation "Registration Failed" (registerUserBody L name hash r)

/-- The argument object of `createProject`. -/
structure ProjectData where
  title : JsVal
  description : JsVal
  imageIPFSHash : JsVal
  documentsIPFSHash : JsVal
  targetAmountUSDC : JsVal
  durationDays : JsVal
  location : JsVal
  category : JsVal
  deriving DecidableEq, Repr

/-- What `createProject` resolves with. -/
structure CreateResult where
  tx : Tx
  receipt : Receipt
  projectId : Option String

/-- The project id read from the `ProjectCreated` event of a receipt, as a string;
`none` is `undefined`. -/
def createdProjectId (receipt : Receipt) : Option String :=
  match receipt.events with
  | none => none
  | some events =>
    match events.find? (fun e => e.event = "ProjectCreated") with
    | none => none
    | some event => event.projectId.map toString

/-- The `try` block of `createProject`. -/
def createProjectBody (lib : Lib) (L : Ledger) (projectData : ProjectData) (r : Refs) :
    Res CreateResult :=
  let r1 := { r with loading := true }
  let documentsIPFSHash :=
    if projectData.documentsIPFSHash = .undefined then .str "" else projectData.documentsIPFSHash
  match projectData.targetAmountUSDC.toStringMethod with
  | .error e => ⟨.error e, r1, [.setLoading true]⟩
  | .ok text =>
    match lib.parseUnits text 6 with
    | .error e => ⟨.error e, r1, [.setLoading true]⟩
    | .ok targetAmount =>
      let args : CreateArgs :=
        { title := projectData.title
          description := projectData.description
          imageIPFSHash := projectData.imageIPFSHash
          documentsIPFSHash := documentsIPFSHash
          targetAmount := targetAmount
          durationDays := lib.parseInt projectData.durationDays
          location := projectData.location
          category := projectData.category }
      match L.createProject args with
      | .error e => ⟨.error e, r1, [.setLoading true, .call (.createProject args)]⟩
      | .ok tx =>
        match tx.waitResult with
        | .error e =>
          ⟨.error e, r1, [.setLoading true, .call (.createProject args), .call (.wait tx.hash)]⟩
        | .ok receipt =>
          let projectId := createdProjectId receipt
          ⟨.ok { tx := tx, receipt := receipt, projectId := projectId },
            clearProjectCache .undefined r1,
            [.setLoading true, .call (.createProject args), .call (.wait tx.hash),
             .toast { title := "Project Created Successfully",
                      description := "Project ID: " ++ projectId.getD "undefined",
                      status := "success" }]⟩

/-- The callback `createProject(projectData)`. -/
def createProject (lib : Lib) (c : Ctx) (L : Ledger) (projectData : ProjectData) (r : Refs) :
    Res CreateResult :=
  if !c.contractsReady || c.contracts.projectFactory.isNone || !c.isConnected then
    ⟨.error notReadyError, r, []⟩
  else
    finishMutation "Project Creation Failed" (createProjectBody lib L projectData r)

/-- The last two steps of `investInProject`: the investment transaction, its confirmation,
and the cache eviction that follows. `pre` are the effects issued so far. -/
def investStep (L : Ledger) (projectId amountUSDC : JsVal) (amount : Int) (r1 : Refs)
    (pre : List Effect) : Res (Tx × Receipt) :=
  match L.investInProject projectId amount with
  | .error e => ⟨.error e, r1, pre ++ [.call (.investInProject projectId amount)]⟩
  | .ok tx =>
    match tx.waitResult with
    | .error e =>
      ⟨.error e, r1, pre ++ [.call (.investInProject projectId amount), .call (.wait tx.hash)]⟩
    | .ok receipt =>
      ⟨.ok (tx, receipt), clearProjectCache projectId r1,
        pre ++ [.call (.investInProject projectId amount), .call (.wait tx.hash),
          .toast { title := "Investment Successful",
                   description :=
                     "Invested " ++ amountUSDC.toStr ++ " USDC in project " ++ projectId.toStr,
                   status := "success" }]⟩

/-- The `try` block of `investInProject`. -/
def investInProjectBody (lib : Lib) (c : Ctx) (L : Ledger) (projectId amountUSDC : JsVal)
    (r : Refs) : Res (Tx × Receipt) :=
  let r1 := { r with loading := true }
  match amountUSDC.toStringMethod with
  | .error e => ⟨.error e, r1, [.setLoading true]⟩
  | .ok text =>
    match lib.parseUnits text 6 with
    | .error e => ⟨.error e, r1, [.setLoading true]⟩
    | .ok amount =>
      match L.balanceOf c.account with
      | .error e => ⟨.error e, r1, [.setLoading true, .call (.balanceOf c.account)]⟩
      | .ok balance =>
        if balance < amount then
          ⟨.error { message := "Insufficient USDC balance" }, r1,
            [.setLoading true, .call (.balanceOf c.account)]⟩
        else
          let spender := c.addresses.investmentManager
          let pre : List Effect :=
            [.setLoading true, .call (.balanceOf c.account), .call (.allowance c.account spender)]
          match L.allowance c.account spender with
          | .error e => ⟨.error e, r1, pre⟩
          | .ok allowance =>
            if allowance < amount then
              match L.approve spender amount with
              | .error e => ⟨.error e, r1, pre ++ [.call (.approve spender amount)]⟩
              | .ok approveTx =>
                match approveTx.waitResult with
                | .error e =>
                  ⟨.error e, r1,
                    pre ++ [.call (.approve spender amount), .call (.wait approveTx.hash)]⟩
                | .ok _ =>
                  investStep L projectId amountUSDC amount r1
                    (pre ++ [.call (.approve spender amount), .call (.wait approveTx.hash),
                      .toast { title := "USDC Approved",
                               description := "USDC spending approved for investment",
                               status := "info" }])
            else
              investStep L projectId amountUSDC amount r1 pre

/-- The callback `investInProject(projectId, amountUSDC)`. -/
def investInProject (lib : Lib) (c : Ctx) (L : Ledger) (projectId amountUSDC : JsVal)
    (r : Refs) : Res (Tx × Receipt) :=
  if !c.contractsReady || c.contracts.investmentManager.isNone || c.contracts.usdc.isNone
      || !c.isConnected then
    ⟨.error notReadyError, r, []⟩
  else
    finishMutation "Investment Failed" (investInProjectBody lib c L projectId amountUSDC r)

/-! ## The image resolver of `imageUtils.js` -/

/-- The constant `CORS_SAFE_GATEWAYS`, most reliable first. -/
def CORS_SAFE_GATEWAYS : List String :=
  ["https://ipfs.io/ipfs/",
   "https://gateway.ipfs.io/ipfs/",
   "https://cloudflare-ipfs.com/ipfs/",
   "https://dweb.link/ipfs/",
   "https://cf-ipfs.com/ipfs/",
   "https://ipfs.infura.io/ipfs/"]

/-- The own properties of the object literal `FALLBACK_IMAGES`. -/
def FALLBACK_IMAGES : List (String × String) :=
  [("Rice Cultivation", "https://images.unsplash.com/photo-1596422846543-75c6fc197f06?ixlib=rb-4.0.3&auto=format&fit=crop&w=800&q=80&cs=tinysrgb"),
   ("Fruit Cultivation", "https://images.unsplash.com/photo-1550258987-190a2d41a8ba?ixlib=rb-4.0.3&auto=format&fit=crop&w=800&q=80&cs=tinysrgb"),
   ("Vegetable Cultivation", "https://images.unsplash.com/photo-1596124579925-2beb6db8621b?ixlib=rb-4.0.3&auto=format&fit=crop&w=800&q=80&cs=tinysrgb"),
   ("Livestock", "https://images.unsplash.com/photo-1534337621606-e3dcc5fdc4b4?ixlib=rb-4.0.3&auto=format&fit=crop&w=800&q=80&cs=tinysrgb"),
   ("Fisheries", "https://images.unsplash.com/photo-1544943910-4c1dc44aab44?ixlib=rb-4.0.3&auto=format&fit=crop&w=800&q=80&cs=tinysrgb"),
   ("Agroforestry", "https://images.unsplash.com/photo-1441974231531-c6227db76b6e?ixlib=rb-4.0.3&auto=format&fit=crop&w=800&q=80&cs=tinysrgb"),
   ("Poultry", "https://images.unsplash.com/photo-1548550023-2bdb3c5beed7?ixlib=rb-4.0.3&auto=format&fit=crop&w=800&q=80&cs=tinysrgb"),
   ("Dairy Farming", "https://images.unsplash.com/photo-1560493676-04071c5f467b?ixlib=rb-4.0.3&auto=format&fit=crop&w=800&q=80&cs=tinysrgb")]

/-- The constant `DEFAULT_FALLBACK`. -/
def DEFAULT_FALLBACK : String :=
  "https://images.unsplash.com/photo-1596422846543-75c6fc197f06?ixlib=rb-4.0.3&auto=format&fit=crop&w=800&q=80&cs=tinysrgb"

/-- The members an object literal inherits from `Object.prototype`; a bracket read with one
of these names finds the inherited function or object, not `undefined`. -/
def objectPrototypeMembers : List String :=
  ["constructor", "__proto__", "hasOwnProperty", "isPrototypeOf", "propertyIsEnumerable",
   "toLocaleString", "toString", "valueOf", "__defineGetter__", "__defineSetter__",
   "__lookupGetter__", "__lookupSetter__"]

/-- The property read `FALLBACK_IMAGES[category]`: the key is the string form of `category`;
own properties first, then the prototype chain, else `undefined`. -/
def fallbackImagesAt (category : JsVal) : JsVal :=
  match FALLBACK_IMAGES.lookup category.toStr with
  | some url => .str url
  | none =>
    if category.toStr ∈ objectPrototypeMembers then
      .obj ("Object.prototype." ++ category.toStr)
    else
      .undefined

/-- The expression `FALLBACK_IMAGES[category] || DEFAULT_FALLBACK`. -/
def categoryFallback (category : JsVal) : JsVal :=
  if (fallbackImagesAt category).truthy then fallbackImagesAt category else .str DEFAULT_FALLBACK

/-- The property `length` of a string: its number of UTF-16 code units. -/
def jsLength (s : String) : Nat :=
  (s.data.map (fun ch => if ch.toNat < 65536 then 1 else 2)).sum

/-- The method `startsWith`, for a search string within the Basic Multilingual Plane. -/
def startsWith (s start : String) : Bool := start.data.isPrefixOf s.data

/-- The function `isValidIPFSHash`. -/
def isValidIPFSHash (ipfsHash : JsVal) : Bool :=
  if !ipfsHash.truthy || !ipfsHash.isString then false
  else if startsWith ipfsHash.toStr "Qm" && decide (jsLength ipfsHash.toStr ≥ 46) then true
  else if startsWith ipfsHash.toStr "b" && decide (jsLength ipfsHash.toStr ≥ 50) then true
  else if startsWith ipfsHash.toStr "f" && decide (jsLength ipfsHash.toStr ≥ 50) then true
  else false

/-- What an image resolution yields: the value returned and the URLs probed with
`testImageLoad`, in order. -/
structure ImageRes where
  url : JsVal
  probes : List String
  deriving DecidableEq, Repr

/-- The gateway loop of `getCORSSafeImageUrl`: `none` when every gateway failed. -/
def probeGateways (testImageLoad : String → Bool) (ipfsHash : String) :
    List String → Option String × List String
  | [] => (none, [])
  | gateway :: rest =>
    let url := gateway ++ ipfsHash
    if testImageLoad url then (some url, [url])
    else ((probeGateways testImageLoad ipfsHash rest).1,
          url :: (probeGateways testImageLoad ipfsHash rest).2)

/-- A parameter with the default `'Rice Cultivation'`. -/
def categoryOrDefault (category : JsVal) : JsVal :=
  if category = .undefined then .str "Rice Cultivation" else category

/-- The function `getCORSSafeImageUrl(ipfsHash, category = 'Rice Cultivation')`;
`testImageLoad` answers each probe. -/
def getCORSSafeImageUrl (testImageLoad : String → Bool) (ipfsHash category : JsVal) :
    ImageRes :=
  if !isValidIPFSHash ipfsHash then
    ⟨categoryFallback (categoryOrDefault category), []⟩
  else
    match probeGateways testImageLoad ipfsHash.toStr CORS_SAFE_GATEWAYS with
    | (some url, probes) => ⟨.str url, probes⟩
    | (none, probes) => ⟨categoryFallback (categoryOrDefault category), probes⟩

/-- The function `getImageUrlSync(ipfsHash, category = 'Rice Cultivation')`. -/
def getImageUrlSync (ipfsHash category : JsVal) : JsVal :=
  if !isValidIPFSHash ipfsHash then
    categoryFallback (categoryOrDefault category)
  else
    .str (CORS_SAFE_GATEWAYS.headD "undefined" ++ ipfsHash.toStr)

end AgroYield

namespace AgroYield

/-! ## Sample data -/

/-- A library whose `parseUnits` reads `"5"` as five units and whose `formatUnits` prints
the raw integer. -/
def sampleLib : Lib :=
  { parseUnits := fun text _ => if text = "5" then .ok 5000000 else .error { message := "invalid decimal value" }
    formatUnits := fun value _ => toString value
    parseInt := fun _ => some 30 }

/-- A receipt carrying one `ProjectCreated` event for project 4. -/
def sampleReceipt : Receipt :=
  { hash := "0xr", events := some [{ event := "ProjectCreated", projectId := some 4 }] }

/-- A transaction that confirms. -/
def sampleTx (hash : String) : Tx := { hash := hash, waitResult := .ok sampleReceipt }

/-- A ledger project with the given id. -/
def sampleRaw (id : Nat) : RawProject :=
  { id := id, farmer := "0xf", title := "t", description := "d", imageIPFSHash := "",
    documentsIPFSHash := "", targetAmountUSDC := 10, currentAmountUSDC := 0, durationDays := 30,
    createdAt := 1, deadline := 2, status := 0, location := "l", category := "Livestock",
    investorCount := 0, fundsReleased := false }

/-- A ledger on which every call succeeds: balance `balance`, allowance `allowance`, and
`n` projects in the registry. -/
def sampleLedger (balance allowance : Int) (n : Nat) : Ledger :=
  { registerUser := fun _ _ => .ok (sampleTx "0xreg")
    createProject := fun _ => .ok (sampleTx "0xcreate")
    getAllProjects := .ok ((List.range n).map (fun i => sampleRaw (i + 1)))
    getProject := fun _ => .ok (some (sampleRaw 1))
    balanceOf := fun _ => .ok balance
    allowance := fun _ _ => .ok allowance
    approve := fun _ _ => .ok (sampleTx "0xapprove")
    investInProject := fun _ _ => .ok (sampleTx "0xinvest") }

/-- A ledger on which every call is rejected. -/
def failingLedger : Ledger :=
  { registerUser := fun _ _ => .error { message := "network error" }
    createProject := fun _ => .error { message := "network error" }
    getAllProjects := .error { message := "network error" }
    getProject := fun _ => .error { message := "network error" }
    balanceOf := fun _ => .error { message := "network error" }
    allowance := fun _ _ => .error { message := "network error" }
    approve := fun _ _ => .error { message := "network error" }
    investInProject := fun _ _ => .error { message := "network error" } }

/-- The three bindings, built. -/
def sampleContracts : Contracts :=
  { projectFactory := some { address := .str "0xfactory", signer := 1 }
    investmentManager := some { address := .str "0xmanager", signer := 1 }
    usdc := some { address := .str "0xusdc", signer := 1 } }

/-- A connected session with ready bindings. -/
def readyCtx : Ctx :=
  { contractsReady := true, contracts := sampleContracts, isConnected := true,
    account := .str "0xabc",
    addresses :=
      { projectFactory := .str "0xfactory", investmentManager := .str "0xmanager",
        usdc := .str "0xusdc" } }

/-- The same session before the bindings are marked ready. -/
def notReadyCtx : Ctx := { readyCtx with contractsReady := false }

/-- The cells of a freshly mounted hook. -/
def emptyRefs : Refs :=
  { loading := false, projectsCache := none, lastFetchTime := 0, projectCache := [] }

/-- The first `n` projects of the sample registry, normalised. -/
def sampleProjects (n : Nat) : List Project :=
  ((List.range n).map (fun i => sampleRaw (i + 1))).map (processProject sampleLib)

/-- A hook whose collection cache holds three projects fetched at time `t0` and whose per-id
cache holds project 1 fetched at `t0`. -/
def warmRefs (t0 : Int) : Refs :=
  { loading := false
    projectsCache := some (sampleProjects 3)
    lastFetchTime := t0
    projectCache := [("project_1", { data := processProject sampleLib (sampleRaw 1), timestamp := t0 })] }

/-- A well-formed argument object of `createProject`. -/
def sampleProjectData : ProjectData :=
  { title := .str "t", description := .str "d", imageIPFSHash := .str "", documentsIPFSHash := .undefined,
    targetAmountUSDC := .str "5", durationDays := .str "30", location := .str "l",
    category := .str "Livestock" }

end AgroYield

namespace AgroYield

/-! ## Off-chain profile resolution: `fetchUserRole` of `Web3Context.js`

`fetchUserRole` is a coroutine: a call runs until its first `await`, and the rest of the
fetch promise runs when the awaited gateway request settles. The two maps `ipfsCache` and
`fetchingPromises`, the fetch promises that are suspended at a gateway request, the promises
already resolved and the log of requested URLs make up `RoleFetcher`. -/

/-- The JavaScript expression `a || b`. -/
def jsOr (a b : JsVal) : JsVal := if a.truthy then a else b

/-- The parsed body of a profile document; a property that is absent is `undefined`. -/
structure ProfileJson where
  role : JsVal
  userType : JsVal
  bio : JsVal
  location : JsVal
  experience : JsVal
  registrationDate : JsVal
  name : JsVal
  deriving DecidableEq, Repr

/-- The role data handed to the profile assembly: the `result` object of `fetchUserRole`, or
the object rebuilt from the held user profile (which has no `registrationDate`). -/
structure RoleData where
  role : JsVal
  bio : JsVal
  location : JsVal
  experience : JsVal
  registrationDate : JsVal
  name : JsVal
  deriving DecidableEq, Repr

/-- The object `result` built from a parsed profile document. -/
def roleResult (profileData : ProfileJson) : RoleData :=
  { role := jsOr (jsOr profileData.role profileData.userType) (.str "investor")
    bio := jsOr profileData.bio (.str "")
    location := jsOr profileData.location (.str "")
    experience := jsOr profileData.experience (.str "")
    registrationDate := profileData.registrationDate
    name := jsOr profileData.name (.str "") }

/-- The gateways `fetchUserRole` tries, in order. -/
def ROLE_GATEWAYS : List String :=
  ["https://gateway.pinata.cloud/ipfs/",
   "https://ipfs.io/ipfs/",
   "https://cloudflare-ipfs.com/ipfs/",
   "https://dweb.link/ipfs/"]

/-- How one gateway attempt ends: `failed` when the request rejects (network error or
timeout abort), the response is not OK, or its body does not parse to an object; `parsed`
with the document otherwise. -/
inductive GatewayOutcome where
  | failed
  | parsed (profileData : ProfileJson)
  deriving DecidableEq, Repr

/-- A fetch promise suspended at a gateway request: its identity, the content address, and
the gateways still to try after the one awaited. -/
structure RoleFetch where
  promise : Nat
  hash : String
  remaining : List String
  deriving DecidableEq, Repr

/-- The state `fetchUserRole` works on. -/
structure RoleFetcher where
  ipfsCache : JsMap RoleData
  fetchingPromises : JsMap Nat
  running : List RoleFetch
  settled : List (Nat × Option RoleData)
  requests : List String
  nextPromise : Nat
  deriving DecidableEq, Repr

/-- How a call of `fetchUserRole` proceeds: it returns a value (`none` is `null`) without
suspending, or it awaits a fetch promise and returns what that promise resolves with. -/
inductive RoleCall where
  | returned (value : Option RoleData)
  | awaiting (promise : Nat)
  deriving DecidableEq, Repr

/-- The state of a freshly mounted provider. -/
def RoleFetcher.init : RoleFetcher :=
  { ipfsCache := [], fetchingPromises := [], running := [], settled := [], requests := [],
    nextPromise := 0 }

/-- What a resolved promise resolved with. -/
def RoleFetcher.valueOf (s : RoleFetcher) (promise : Nat) : Option (Option RoleData) :=
  s.settled.lookup promise

/-- The gateway loop of a fetch promise, entered with the gateways not yet tried: request the
next gateway and suspend, or, with none left, resolve with `null` and run the `finally`
block. -/
def tryGateways (promise : Nat) (hash : String) (gateways : List String) (s : RoleFetcher) :
    RoleFetcher :=
  match gateways with
  | [] =>
    { s with
      running := s.running.filter (fun f => decide (f.promise ≠ promise))
      settled := s.settled ++ [(promise, none)]
      fetchingPromises := s.fetchingPromises.delete hash }
  | gateway :: rest =>
    { s with
      running := s.running.filter (fun f => decide (f.promise ≠ promise))
        ++ [{ promise := promise, hash := hash, remaining := rest }]
      requests := s.requests ++ [gateway ++ hash] }

/-- The callback `fetchUserRole(profileIPFSHash)` up to its first suspension. -/
def fetchUserRole (profileIPFSHash : JsVal) (s : RoleFetcher) : RoleCall × RoleFetcher :=
  if !profileIPFSHash.truthy || !profileIPFSHash.isString then
    (.returned none, s)
  else
    match s.ipfsCache.get profileIPFSHash.toStr with
    | some cached => (.returned (some cached), s)
    | none =>
      match s.fetchingPromises.get profileIPFSHash.toStr with
      | some promise => (.awaiting promise, s)
      | none =>
        let started := tryGateways s.nextPromise profileIPFSHash.toStr ROLE_GATEWAYS
          { s with nextPromise := s.nextPromise + 1 }
        (.awaiting s.nextPromise,
          { started with
            fetchingPromises :=
              started.fetchingPromises.set profileIPFSHash.toStr s.nextPromise })

/-- The continuation of a fetch promise when its awaited gateway request settles. -/
def gatewayResponds (promise : Nat) (outcome : GatewayOutcome) (s : RoleFetcher) :
    RoleFetcher :=
  match s.running.find? (fun f => decide (f.promise = promise)) with
  | none => s
  | some fetch =>
    match outcome with
    | .parsed profileData =>
      { s with
        ipfsCache := s.ipfsCache.set fetch.hash (roleResult profileData)
        running := s.running.filter (fun f => decide (f.promise ≠ promise))
        settled := s.settled ++ [(promise, some (roleResult profileData))]
        fetchingPromises := s.fetchingPromises.delete fetch.hash }
    | .failed => tryGateways promise fetch.hash fetch.remaining s

/-- An event of the resolver: a call of `fetchUserRole`, or a gateway request settling. -/
inductive RoleEvent where
  | call (profileIPFSHash : JsVal)
  | respond (promise : Nat) (outcome : GatewayOutcome)
  deriving DecidableEq, Repr

/-- The state after one event. -/
def RoleFetcher.step (s : RoleFetcher) : RoleEvent → RoleFetcher
  | .call profileIPFSHash => (fetchUserRole profileIPFSHash s).2
  | .respond promise outcome => gatewayResponds promise outcome s

/-- The state after a sequence of events, oldest first. -/
def RoleFetcher.run (s : RoleFetcher) (events : List RoleEvent) : RoleFetcher :=
  events.foldl RoleFetcher.step s

/-- What holds of the resolver in every state reached by calls and gateway responses:
every suspended fetch promise is the one registered in `fetchingPromises` under its content
address, every registered promise is suspended, nothing is cached yet for an address being
fetched, promise identities are not reused, and a suspended promise has not resolved. -/
structure RoleFetcher.Consistent (s : RoleFetcher) : Prop where
  registered : ∀ f ∈ s.running, s.fetchingPromises.get f.hash = some f.promise
  live : ∀ hash promise, s.fetchingPromises.get hash = some promise →
    ∃ f ∈ s.running, f.promise = promise ∧ f.hash = hash
  uncached : ∀ f ∈ s.running, s.ipfsCache.get f.hash = none
  fresh : ∀ f ∈ s.running, f.promise < s.nextPromise
  unique : ∀ f ∈ s.running, ∀ g ∈ s.running, f.promise = g.promise → f = g
  nonempty : ∀ f ∈ s.running, f.hash ≠ ""
  pending : ∀ f ∈ s.running, s.settled.lookup f.promise = none
  unissued : ∀ promise, s.nextPromise ≤ promise → s.settled.lookup promise = none

/-- The states the resolver reaches from a fresh mount by calls and gateway responses. -/
def RoleFetcher.Reachable (s : RoleFetcher) : Prop :=
  ∃ events : List RoleEvent, s = RoleFetcher.init.run events

/-- A profile document of a farmer. -/
def farmerJson : ProfileJson :=
  { role := .str "farmer", userType := .undefined, bio := .str "Rice grower",
    location := .str "Rangpur", experience := .str "5 years", registrationDate := .undefined,
    name := .str "Asha" }

end AgroYield

namespace AgroYield

/-! ## The class `ImageLoader` of `imageUtils.js`

`loadImage` is a coroutine as well: the first call for a key suspends at
`await getCORSSafeImageUrl(...)`, later calls for the key poll the cache every 100 ms. -/

/-- A `loadImage` call suspended at `await getCORSSafeImageUrl(ipfsHash, category)`. -/
structure ImageLoad where
  caller : Nat
  cacheKey : String
  ipfsHash : JsVal
  category : JsVal
  deriving DecidableEq, Repr

/-- A `loadImage` call waiting in the `checkCache` polling loop. -/
structure ImagePoll where
  caller : Nat
  cacheKey : String
  deriving DecidableEq, Repr

/-- The state of an `ImageLoader`: its `cache` and `loading` members, the suspended and the
polling calls, what each finished call returned, and the log of `getCORSSafeImageUrl` calls
(one gateway race each). -/
structure ImageLoaderState where
  cache : JsMap JsVal
  loading : List String
  races : List ImageLoad
  polling : List ImagePoll
  resolved : List (Nat × JsVal)
  started : List (JsVal × JsVal)
  nextCaller : Nat
  deriving DecidableEq, Repr

namespace ImageLoaderState

/-- The loader after its constructor. -/
def init : ImageLoaderState :=
  { cache := [], loading := [], races := [], polling := [], resolved := [], started := [],
    nextCaller := 0 }

/-- The method `loadImage(ipfsHash, category)` up to its first suspension. The call is given
the identity `nextCaller`. -/
def loadImage (ipfsHash category : JsVal) (s : ImageLoaderState) : ImageLoaderState :=
  match s.cache.get (ipfsHash.toStr ++ "-" ++ category.toStr) with
  | some url =>
    { s with resolved := s.resolved ++ [(s.nextCaller, url)], nextCaller := s.nextCaller + 1 }
  | none =>
    if (ipfsHash.toStr ++ "-" ++ category.toStr) ∈ s.loading then
      { s with
        polling := s.polling ++
          [{ caller := s.nextCaller, cacheKey := ipfsHash.toStr ++ "-" ++ category.toStr }]
        nextCaller := s.nextCaller + 1 }
    else
      { s with
        loading := s.loading ++ [ipfsHash.toStr ++ "-" ++ category.toStr]
        races := s.races ++
          [{ caller := s.nextCaller, cacheKey := ipfsHash.toStr ++ "-" ++ category.toStr,
             ipfsHash := ipfsHash, category := category }]
        started := s.started ++ [(ipfsHash, category)]
        nextCaller := s.nextCaller + 1 }

/-- The continuation of a suspended `loadImage` call when its `getCORSSafeImageUrl` promise
settles: cache the URL (the category fallback in the `catch` block), return it, and remove
the key from `loading`. -/
def raceSettles (caller : Nat) (outcome : Except JsError JsVal) (s : ImageLoaderState) :
    ImageLoaderState :=
  match s.races.find? (fun r => decide (r.caller = caller)) with
  | none => s
  | some load =>
    match outcome with
    | .ok url =>
      { s with
        cache := s.cache.set load.cacheKey url
        resolved := s.resolved ++ [(caller, url)]
        loading := s.loading.filter (fun k => decide (k ≠ load.cacheKey))
        races := s.races.filter (fun r => decide (r.caller ≠ caller)) }
    | .error _ =>
      { s with
        cache := s.cache.set load.cacheKey (categoryFallback load.category)
        resolved := s.resolved ++ [(caller, categoryFallback load.category)]
        loading := s.loading.filter (fun k => decide (k ≠ load.cacheKey))
        races := s.races.filter (fun r => decide (r.caller ≠ caller)) }

/-- One run of `checkCache` for a polling call: return the cached URL, or wait another
100 ms. -/
def poll (caller : Nat) (s : ImageLoaderState) : ImageLoaderState :=
  match s.polling.find? (fun p => decide (p.caller = caller)) with
  | none => s
  | some waiting =>
    match s.cache.get waiting.cacheKey with
    | some url =>
      { s with
        resolved := s.resolved ++ [(caller, url)]
        polling := s.polling.filter (fun p => decide (p.caller ≠ caller)) }
    | none => s

/-- The method `clearCache()`. -/
def clearCache (s : ImageLoaderState) : ImageLoaderState := { s with cache := [] }

end ImageLoaderState

/-- An event of the loader: a `loadImage` call, a gateway race settling, or a timer tick of
a polling call. -/
inductive ImageEvent where
  | load (ipfsHash category : JsVal)
  | settle (caller : Nat) (url : JsVal)
  | tick (caller : Nat)
  deriving DecidableEq, Repr

/-- The loader after one event. -/
def ImageLoaderState.step (s : ImageLoaderState) : ImageEvent → ImageLoaderState
  | .load ipfsHash category => s.loadImage ipfsHash category
  | .settle caller url => s.raceSettles caller (.ok url)
  | .tick caller => s.poll caller

/-- The loader after a sequence of events, oldest first. -/
def ImageLoaderState.run (s : ImageLoaderState) (events : List ImageEvent) :
    ImageLoaderState :=
  events.foldl ImageLoaderState.step s

/-- The states a loader reaches from its constructor. -/
def ImageLoaderState.Reachable (s : ImageLoaderState) : Prop :=
  ∃ events : List ImageEvent, s = ImageLoaderState.init.run events

/-- The polling entries of `n` consecutive calls for one key, the first with identity
`caller`. -/
def pollsFrom (caller : Nat) (cacheKey : String) : Nat → List ImagePoll
  | 0 => []
  | n + 1 => { caller := caller, cacheKey := cacheKey } :: pollsFrom (caller + 1) cacheKey n

/-- Call identities are handed out in increasing order: every call the loader knows of is
older than `nextCaller`. -/
structure ImageLoaderState.Fresh (s : ImageLoaderState) : Prop where
  races : ∀ r ∈ s.races, r.caller < s.nextCaller
  polling : ∀ p ∈ s.polling, p.caller < s.nextCaller
  resolved : ∀ caller, s.nextCaller ≤ caller → s.resolved.lookup caller = none

/-! ## The load effect of the component `CORSSafeImage` -/

/-- The props the load effect reads. -/
structure ImageProps where
  ipfsHash : JsVal
  category : JsVal
  fallbackSrc : JsVal
  deriving DecidableEq, Repr

/-- The state and refs of one mounted `CORSSafeImage`. -/
structure ImageComponent where
  imageSrc : JsVal
  isLoading : Bool
  hasError : Bool
  loadingRef : Bool
  lastHashRef : JsVal
  deriving DecidableEq, Repr

/-- A component right after its first render. -/
def ImageComponent.fresh : ImageComponent :=
  { imageSrc := .null, isLoading := true, hasError := false, loadingRef := false,
    lastHashRef := .null }

/-- The function `getFallbackUrl()`; `category` has the default `'Rice Cultivation'`. -/
def getFallbackUrl (props : ImageProps) : JsVal :=
  jsOr (jsOr props.fallbackSrc (fallbackImagesAt (categoryOrDefault props.category)))
    (.str DEFAULT_FALLBACK)

/-- How a run of the load effect proceeds: it returns at the guard, it finishes without
suspending, or it suspends at `await getCORSSafeImageUrl(ipfsHash, category)`, which starts
a gateway race. -/
inductive EffectStatus where
  | skipped
  | finished
  | racing (syncUrl : JsVal)
  deriving DecidableEq, Repr

/-- The outcome of the synchronous part of a run of the load effect. -/
structure EffectStep where
  status : EffectStatus
  component : ImageComponent
  deriving DecidableEq, Repr

/-- The load effect of `CORSSafeImage` up to its first suspension. -/
def loadEffect (props : ImageProps) (c : ImageComponent) : EffectStep :=
  if c.loadingRef || c.lastHashRef = props.ipfsHash then
    ⟨.skipped, c⟩
  else if !isValidIPFSHash props.ipfsHash then
    ⟨.finished,
      { c with
        hasError := false
        imageSrc := getFallbackUrl props
        isLoading := false
        lastHashRef := props.ipfsHash
        loadingRef := false }⟩
  else if c.lastHashRef ≠ props.ipfsHash then
    ⟨.racing (getImageUrlSync props.ipfsHash (categoryOrDefault props.category)),
      { c with
        loadingRef := true
        isLoading := true
        hasError := false
        imageSrc := getImageUrlSync props.ipfsHash (categoryOrDefault props.category) }⟩
  else
    ⟨.finished,
      { c with
        hasError := false
        imageSrc := getImageUrlSync props.ipfsHash (categoryOrDefault props.category)
        isLoading := false
        lastHashRef := props.ipfsHash
        loadingRef := false }⟩

/-- The continuation of the load effect when the race settles; `isMounted` is the flag of
that run of the effect, false once its cleanup has run. -/
def afterRace (props : ImageProps) (isMounted : Bool) (syncUrl : JsVal)
    (outcome : Except JsError JsVal) (c : ImageComponent) : ImageComponent :=
  { c with
    imageSrc :=
      match outcome with
      | .ok corsUrl => if isMounted && decide (corsUrl ≠ syncUrl) then corsUrl else c.imageSrc
      | .error _ => c.imageSrc
    lastHashRef := props.ipfsHash
    isLoading := if isMounted then false else c.isLoading
    loadingRef := false }

/-- The number of gateway races started when each of the given components runs its load
effect with the same props. -/
def racesStarted (props : ImageProps) (components : List ImageComponent) : Nat :=
  (components.filter
    (fun c => match (loadEffect props c).status with
      | .racing _ => true
      | _ => false)).length

end AgroYield

namespace AgroYield

/-! ## The registration check: `checkUserRegistration` of `Web3Context.js`

The check is a coroutine with three suspension points: the `isUserRegistered` read, the
`getUserProfile` read and the `fetchUserRole` call. Each continuation runs on the provider
state as it is when the awaited promise settles. -/

/-- The record `getUserProfile` resolves with; a numeric field that is missing is `none`. -/
structure OnChainProfile where
  name : String
  profileIPFSHash : String
  registeredAt : Option Nat
  projectCount : Option Nat
  totalInvested : Option Nat
  totalRaised : Option Nat
  deriving DecidableEq, Repr

/-- The object kept in the `userProfile` state. -/
structure UserProfile where
  name : String
  profileIPFSHash : String
  registeredAt : String
  projectCount : String
  totalInvested : String
  totalRaised : String
  role : JsVal
  bio : JsVal
  location : JsVal
  experience : JsVal
  deriving DecidableEq, Repr

/-- The registration state and the refs of the provider. -/
structure Web3State where
  isRegistered : Bool
  userProfile : Option UserProfile
  checkingRegistration : Bool
  profileFetching : Bool
  lastCheckedAccount : JsVal
  lastProfileHash : JsVal
  mounted : Bool
  deriving DecidableEq, Repr

/-- The provider after its first render and mount effect. -/
def Web3State.init : Web3State :=
  { isRegistered := false, userProfile := none, checkingRegistration := false,
    profileFetching := false, lastCheckedAccount := .null, lastProfileHash := .null,
    mounted := true }

/-- The arguments of a `checkUserRegistration` call and the `userProfile` its callback
closed over. -/
structure CheckCall where
  address : JsVal
  contracts : Option Contracts
  userProfile : Option UserProfile
  deriving DecidableEq, Repr

/-- The asynchronous calls a check issues. -/
inductive CheckEffect where
  | isUserRegistered (address : JsVal)
  | getUserProfile (address : JsVal)
  | fetchUserRole (profileIPFSHash : String)
  deriving DecidableEq, Repr

/-- Where a check stands: returned (the promise of the call resolved; it never rejects,
every throw is caught), or suspended at one of its three awaits. -/
inductive CheckStatus where
  | done
  | awaitRegistered
  | awaitProfile
  | awaitRole (profile : OnChainProfile)
  deriving DecidableEq, Repr

/-- The outcome of one stretch of a check between two suspensions. -/
structure CheckStep where
  status : CheckStatus
  state : Web3State
  effects : List CheckEffect
  deriving DecidableEq, Repr

/-- The `finally` block of `checkUserRegistration`. -/
def finallyBlock (s : Web3State) : Web3State :=
  { s with
    checkingRegistration := if s.mounted then false else s.checkingRegistration
    profileFetching := false }

/-- The `catch` block of `checkUserRegistration`, followed by the `finally` block. -/
def catchBlock (s : Web3State) : Web3State :=
  finallyBlock
    { s with
      isRegistered := if s.mounted then false else s.isRegistered
      userProfile := if s.mounted then none else s.userProfile }

/-- The role data rebuilt from the held profile in the branch `else if (userProfile?.role)`;
`none` leaves `roleData` at `null`. -/
def heldRoleData (userProfile : Option UserProfile) : Option RoleData :=
  match userProfile with
  | none => none
  | some held =>
    if held.role.truthy then
      some { role := held.role, bio := held.bio, location := held.location,
             experience := held.experience, registrationDate := .undefined,
             name := .str held.name }
    else none

/-- The expression `roleData?.field`. -/
def roleField (roleData : Option RoleData) (field : RoleData → JsVal) : JsVal :=
  match roleData with
  | none => .undefined
  | some data => field data

/-- The object `newProfile`; a missing numeric field makes its conversion throw. -/
def assembleProfile (lib : Lib) (profile : OnChainProfile) (roleData : Option RoleData) :
    Except JsError UserProfile :=
  match profile.registeredAt with
  | none => .error { message := "Cannot read properties of undefined (reading 'toString')" }
  | some registeredAt =>
    match profile.projectCount with
    | none => .error { message := "Cannot read properties of undefined (reading 'toString')" }
    | some projectCount =>
      match profile.totalInvested with
      | none => .error { message := "invalid BigNumber value" }
      | some totalInvested =>
        match profile.totalRaised with
        | none => .error { message := "invalid BigNumber value" }
        | some totalRaised =>
          .ok { name := profile.name
                profileIPFSHash := profile.profileIPFSHash
                registeredAt := toString registeredAt
                projectCount := toString projectCount
                totalInvested := lib.formatUnits totalInvested 6
                totalRaised := lib.formatUnits totalRaised 6
                role := jsOr (roleField roleData (fun d => d.role)) (.str "investor")
                bio := jsOr (roleField roleData (fun d => d.bio)) (.str "")
                location := jsOr (roleField roleData (fun d => d.location)) (.str "")
                experience := jsOr (roleField roleData (fun d => d.experience)) (.str "") }

/-- The end of the registered branch: the liveness check, the assembly of `newProfile`,
`setUserProfile`, and the `finally` block. -/
def completeCheck (lib : Lib) (profile : OnChainProfile) (roleData : Option RoleData)
    (s : Web3State) : CheckStep :=
  if !s.mounted then
    ⟨.done, finallyBlock s, []⟩
  else
    match assembleProfile lib profile roleData with
    | .ok newProfile => ⟨.done, finallyBlock { s with userProfile := some newProfile }, []⟩
    | .error _ => ⟨.done, catchBlock s, []⟩

/-- The callback `checkUserRegistration(address, contracts)` up to its first suspension. -/
def checkUserRegistration (call : CheckCall) (s : Web3State) : CheckStep :=
  if !call.address.truthy
      || (match call.contracts with
          | none => true
          | some contracts => contracts.projectFactory.isNone)
      || !s.mounted then
    ⟨.done, s, []⟩
  else if s.profileFetching || s.lastCheckedAccount = call.address then
    ⟨.done, s, []⟩
  else if !call.address.isString then
    ⟨.done, catchBlock { s with profileFetching := true, checkingRegistration := true }, []⟩
  else
    ⟨.awaitRegistered, { s with profileFetching := true, checkingRegistration := true },
      [.isUserRegistered call.address]⟩

/-- The continuation of a check when `isUserRegistered` settles. -/
def afterRegistered (call : CheckCall) (response : Except JsError Bool) (s : Web3State) :
    CheckStep :=
  match response with
  | .error _ => ⟨.done, catchBlock s, []⟩
  | .ok registered =>
    if !s.mounted then
      ⟨.done, finallyBlock s, []⟩
    else if registered then
      ⟨.awaitProfile, { s with isRegistered := true, lastCheckedAccount := call.address },
        [.getUserProfile call.address]⟩
    else
      ⟨.done,
        finallyBlock
          { s with isRegistered := false, lastCheckedAccount := call.address,
                   userProfile := none },
        []⟩

/-- The continuation of a check when `getUserProfile` settles. -/
def afterProfile (lib : Lib) (call : CheckCall) (response : Except JsError OnChainProfile)
    (s : Web3State) : CheckStep :=
  match response with
  | .error _ => ⟨.done, catchBlock s, []⟩
  | .ok profile =>
    if !s.mounted then
      ⟨.done, finallyBlock s, []⟩
    else if profile.profileIPFSHash ≠ "" ∧ JsVal.str profile.profileIPFSHash ≠ s.lastProfileHash
    then
      ⟨.awaitRole profile, s, [.fetchUserRole profile.profileIPFSHash]⟩
    else
      completeCheck lib profile (heldRoleData call.userProfile) s

/-- The continuation of a check when `fetchUserRole` resolves (it never rejects). -/
def afterRole (lib : Lib) (profile : OnChainProfile) (roleData : Option RoleData)
    (s : Web3State) : CheckStep :=
  completeCheck lib profile roleData { s with lastProfileHash := .str profile.profileIPFSHash }

/-- The cleanup of the mount effect of the provider, as far as the registration state goes. -/
def unmountProvider (s : Web3State) : Web3State :=
  { s with mounted := false, profileFetching := false }

/-- The state and the effects after the given calls are made one after the other, none of
the checks they start being resumed in between. -/
def checkAll (calls : List CheckCall) (s : Web3State) : Web3State × List CheckEffect :=
  calls.foldl
    (fun acc call =>
      ((checkUserRegistration call acc.1).state,
       acc.2 ++ (checkUserRegistration call acc.1).effects))
    (s, [])

/-- A registered account on the ledger whose profile points at `hash`. -/
def sampleOnChain (hash : String) : OnChainProfile :=
  { name := "Asha", profileIPFSHash := hash, registeredAt := some 1700000000,
    projectCount := some 2, totalInvested := some 0, totalRaised := some 5000000 }

/-- A call for the account `address` with the bindings built and no profile held. -/
def sampleCheck (address : String) : CheckCall :=
  { address := .str address,
    contracts := some { projectFactory := some { address := .str "0xfactory", signer := 1 },
                        investmentManager := none, usdc := none },
    userProfile := none }

end AgroYield

namespace AgroYield

/-- A well-formed version-0 content address: 46 characters starting with `Qm`. -/
def sampleHash : String := "QmYwAPJzv5CZsnA625s3Xf2nemtYgPpHdWEz79ojWnPbdG"

/-- The provider while a first check of the registered account `0xabc`, whose profile
points at `sampleHash`, is suspended at `fetchUserRole`. -/
def awaitingRole : Web3State :=
  (afterProfile sampleLib (sampleCheck "0xabc") (.ok (sampleOnChain sampleHash))
    (afterRegistered (sampleCheck "0xabc") (.ok true)
      (checkUserRegistration (sampleCheck "0xabc") Web3State.init).state).state).state

/-- The provider after that check has completed with the farmer's document. -/
def farmerChecked : Web3State :=
  (afterRole sampleLib (sampleOnChain sampleHash) (some (roleResult farmerJson))
    awaitingRole).state

/-- A profile document without `role` and `userType` but with the other attributes. -/
def bioOnlyJson : ProfileJson := { farmerJson with role := .undefined }

end AgroYield

namespace AgroYield

/-! ## The wallet session of `Web3Context.js`

`connectWallet` is run against the answers the wallet agent `window.ethereum` gives to the
requests of one attempt; the requests and state updates it issues are logged in order. -/

/-- The value a wallet request rejects with, or an `Error` thrown by the provider code
(which carries no `code`). -/
structure WalletError where
  code : Option Int
  message : String
  deriving DecidableEq, Repr

/-- The wallet connection state of the provider. -/
structure WalletState where
  account : String
  chainId : String
  isConnected : Bool
  isConnecting : Bool
  provider : Option Nat
  signer : Option Nat
  deriving DecidableEq, Repr

/-- The wallet state after the first render. -/
def WalletState.init : WalletState :=
  { account := "", chainId := "", isConnected := false, isConnecting := false,
    provider := none, signer := none }

/-- The answers of the wallet agent during one connection attempt: the four requests, the
construction of the `Web3Provider` (its identity, or the error thrown), the signer it hands
out, and the `getNetwork` read (the chain id as a number). -/
structure Agent where
  requestAccounts : Except WalletError (Option (List String))
  chainId : Except WalletError String
  switchChain : Except WalletError Unit
  addChain : Except WalletError Unit
  web3Provider : Except WalletError Nat
  signer : Nat
  network : Except WalletError Nat

/-- An observable step of a connection attempt. -/
inductive WalletEffect where
  | setIsConnecting (value : Bool)
  | request (method : String)
  | newProvider
  | getNetwork
  | setIsConnected (value : Bool)
  | toast (t : Toast)
  deriving DecidableEq, Repr

/-- Is the step a request sent to the wallet agent? -/
def WalletEffect.isRequest : WalletEffect → Bool
  | .request _ => true
  | _ => false

/-- The constant `EXPECTED_CHAIN_ID` (Polygon Amoy). -/
def EXPECTED_CHAIN_ID : String := "0x13882"

/-- Does the character list contain `search` as a contiguous run? -/
def includesChars : List Char → List Char → Bool
  | [], search => search.isEmpty
  | ch :: rest, search => search.isPrefixOf (ch :: rest) || includesChars rest search

/-- The method `includes` of a string. -/
def includes (s search : String) : Bool := includesChars s.data search.data

/-- The method `substring(start, stop)`, for a string within the Basic Multilingual Plane;
without `stop` it runs to the end. -/
def substring (s : String) (start : Nat) (stop : Option Nat) : String :=
  match stop with
  | none => String.mk (s.data.drop start)
  | some stop => String.mk ((s.data.drop start).take (stop - start))

/-- The text an address is shown with in a toast. -/
def shortAddress (address : String) : String :=
  substring address 0 (some 6) ++ "..." ++ substring address 38 none

/-- The outcome of `switchToAmoyNetwork` and the requests it sent. -/
structure SwitchStep where
  value : Except WalletError Unit
  effects : List WalletEffect

/-- The callback `switchToAmoyNetwork()`. -/
def switchToAmoyNetwork (agent : Agent) : SwitchStep :=
  match agent.switchChain with
  | .ok _ => ⟨.ok (), [.request "wallet_switchEthereumChain"]⟩
  | .error switchError =>
    if switchError.code = some 4902 then
      match agent.addChain with
      | .ok _ =>
        ⟨.ok (), [.request "wallet_switchEthereumChain", .request "wallet_addEthereumChain"]⟩
      | .error _ =>
        ⟨.error { code := none, message := "Failed to add Amoy network to MetaMask" },
          [.request "wallet_switchEthereumChain", .request "wallet_addEthereumChain"]⟩
    else
      ⟨.error switchError, [.request "wallet_switchEthereumChain"]⟩

/-- The outcome of the `try` block of `connectWallet`. -/
structure ConnectStep where
  value : Except WalletError String
  state : WalletState
  effects : List WalletEffect

/-- The end of the `try` block of `connectWallet`: provider and signer are created, the
network is read, the state is updated and the success toast shown. `pre` are the steps
issued so far. -/
def finishConnect (agent : Agent) (first : String) (s1 : WalletState)
    (pre : List WalletEffect) : ConnectStep :=
  match agent.web3Provider with
  | .error e => ⟨.error e, s1, pre ++ [.newProvider]⟩
  | .ok web3Provider =>
    match agent.network with
    | .error e => ⟨.error e, s1, pre ++ [.newProvider, .getNetwork]⟩
    | .ok networkChainId =>
      ⟨.ok first,
        { s1 with
          provider := some web3Provider
          signer := some agent.signer
          account := first
          chainId := toString networkChainId
          isConnected := true },
        pre ++ [.newProvider, .getNetwork, .setIsConnected true,
          .toast { title := "Wallet Connected",
                   description := "Connected to " ++ shortAddress first,
                   status := "success" }]⟩

/-- The `try` block of `connectWallet`; `ethereum` is `window.ethereum`. -/
def connectWalletBody (ethereum : Option Agent) (s : WalletState) : ConnectStep :=
  let s1 := { s with isConnecting := true }
  match ethereum with
  | none =>
    ⟨.error { code := none, message := "Please install MetaMask to use this application" }, s1,
      [.setIsConnecting true]⟩
  | some agent =>
    match agent.requestAccounts with
    | .error e => ⟨.error e, s1, [.setIsConnecting true, .request "eth_requestAccounts"]⟩
    | .ok none =>
      ⟨.error { code := none,
                message := "No accounts found. Please make sure MetaMask is unlocked." }, s1,
        [.setIsConnecting true, .request "eth_requestAccounts"]⟩
    | .ok (some []) =>
      ⟨.error { code := none,
                message := "No accounts found. Please make sure MetaMask is unlocked." }, s1,
        [.setIsConnecting true, .request "eth_requestAccounts"]⟩
    | .ok (some (first :: _)) =>
      match agent.chainId with
      | .error e =>
        ⟨.error e, s1,
          [.setIsConnecting true, .request "eth_requestAccounts", .request "eth_chainId"]⟩
      | .ok currentChainId =>
        if currentChainId ≠ EXPECTED_CHAIN_ID then
          match (switchToAmoyNetwork agent).value with
          | .error e =>
            ⟨.error e, s1,
              [.setIsConnecting true, .request "eth_requestAccounts", .request "eth_chainId"]
                ++ (switchToAmoyNetwork agent).effects⟩
          | .ok _ =>
            finishConnect agent first s1
              ([.setIsConnecting true, .request "eth_requestAccounts", .request "eth_chainId"]
                ++ (switchToAmoyNetwork agent).effects)
        else
          finishConnect agent first s1
            [.setIsConnecting true, .request "eth_requestAccounts", .request "eth_chainId"]

/-- The message computed in the `catch` block of `connectWallet`. -/
def connectErrorMessage (error : WalletError) : String :=
  if error.code = some 4001 then "Connection rejected by user"
  else if includes error.message "MetaMask" then error.message
  else if error.code = some (-32002) then
    "Connection request already pending. Please check MetaMask."
  else "Failed to connect wallet"

/-- The outcome of `connectWallet`: the account it resolves with (`none` for `undefined`)
or the error it throws, the wallet state afterwards, and the steps issued. -/
structure ConnectRes where
  value : Except JsError (Option String)
  state : WalletState
  effects : List WalletEffect

/-- The callback `connectWallet()`; `s.isConnecting` is the value its closure holds. -/
def connectWallet (ethereum : Option Agent) (s : WalletState) : ConnectRes :=
  if s.isConnecting then ⟨.ok none, s, []⟩
  else
    match (connectWalletBody ethereum s).value with
    | .ok account =>
      ⟨.ok (some account), { (connectWalletBody ethereum s).state with isConnecting := false },
        (connectWalletBody ethereum s).effects ++ [.setIsConnecting false]⟩
    | .error error =>
      ⟨.error { message := connectErrorMessage error },
        { (connectWalletBody ethereum s).state with isConnecting := false },
        (connectWalletBody ethereum s).effects ++
          [.toast { title := "Connection Failed", description := connectErrorMessage error,
                    status := "error" },
           .setIsConnecting false]⟩

/-- The whole state of the provider: the wallet session and the registration state. -/
structure ProviderState where
  wallet : WalletState
  registration : Web3State
  deriving DecidableEq, Repr

/-- The outcome of an event handler of the provider. -/
structure HandlerStep where
  state : ProviderState
  toasts : List Toast
  deriving DecidableEq, Repr

/-- The callback `disconnectWallet()`; its toast has a title only, the empty description
stands for the missing one. -/
def disconnectWallet (p : ProviderState) : HandlerStep :=
  ⟨{ wallet :=
       { p.wallet with
         account := "", chainId := "", isConnected := false, provider := none, signer := none }
     registration :=
       { p.registration with
         isRegistered := false, userProfile := none, lastCheckedAccount := .null,
         lastProfileHash := .null, profileFetching := false } },
    [{ title := "Wallet Disconnected", description := "", status := "info" }]⟩

/-- The listener `handleAccountsChanged(accounts)`; `account` is the value its closure
holds. -/
def handleAccountsChanged (account : String) (accounts : List String) (p : ProviderState) :
    HandlerStep :=
  match accounts with
  | [] => disconnectWallet p
  | first :: _ =>
    if first ≠ account then
      ⟨{ wallet := { p.wallet with account := first }
         registration :=
           { p.registration with
             isRegistered := false, userProfile := none, lastCheckedAccount := .null,
             lastProfileHash := .null } },
        [{ title := "Account Changed", description := "Switched to " ++ shortAddress first,
           status := "info" }]⟩
    else ⟨p, []⟩

/-! ## The registration effect of `App.js` -/

/-- The dependency array of the registration effect of `AppContent`. The identity of the
callback `checkUserRegistration` is given by the dependencies of its `useCallback`, the five
attributes of the held profile (`fetchUserRole` is memoised once). -/
structure AppDeps where
  isConnected : Bool
  account : String
  projectFactory : Option Binding
  callback : List JsVal
  deriving DecidableEq, Repr

/-- The expression `userProfile?.field`. -/
def heldField (userProfile : Option UserProfile) (field : UserProfile → JsVal) : JsVal :=
  match userProfile with
  | none => .undefined
  | some held => field held

/-- The dependency array as a render computes it. -/
def appDeps (contracts : Contracts) (p : ProviderState) : AppDeps :=
  { isConnected := p.wallet.isConnected
    account := p.wallet.account
    projectFactory := contracts.projectFactory
    callback :=
      [heldField p.registration.userProfile (fun u => u.role),
       heldField p.registration.userProfile (fun u => u.bio),
       heldField p.registration.userProfile (fun u => u.location),
       heldField p.registration.userProfile (fun u => u.experience),
       heldField p.registration.userProfile (fun u => .str u.name)] }

/-- The body of the registration effect: the check is requested for the active account with
the callback of the current render. -/
def appEffectBody (contracts : Contracts) (p : ProviderState) : CheckStep :=
  if p.wallet.isConnected && p.wallet.account != "" && contracts.projectFactory.isSome then
    checkUserRegistration
      { address := .str p.wallet.account, contracts := some contracts,
        userProfile := p.registration.userProfile }
      p.registration
  else ⟨.done, p.registration, []⟩

/-- The registration effect after a render: it runs when a dependency differs from the
previous render (`previous` is `none` at mount). -/
def appEffect (previous : Option AppDeps) (contracts : Contracts) (p : ProviderState) :
    CheckStep :=
  if previous = some (appDeps contracts p) then ⟨.done, p.registration, []⟩
  else appEffectBody contracts p

end AgroYield

namespace AgroYield

/-! ## The binding initialisation of `useContracts.js`

The initialisation effect is run against an oracle for the constructor `ethers.Contract`;
the timers it schedules are counted, and firing one is a step of its own. -/

/-- The state and refs of the hook that the initialisation effect touches; `timers` counts
the pending `setTimeout` callbacks, each of which sets readiness true when it fires. -/
structure BindingState where
  contracts : Contracts
  contractsReady : Bool
  initializing : Bool
  lastProvider : Option Nat
  lastSigner : Option Nat
  timers : Nat
  deriving DecidableEq, Repr

/-- The hook after its first render: `contracts` is the empty object. -/
def BindingState.init : BindingState :=
  { contracts := { projectFactory := none, investmentManager := none, usdc := none }
    contractsReady := false, initializing := false, lastProvider := none, lastSigner := none,
    timers := 0 }

/-- The configured addresses and the constructor `new ethers.Contract(address, abi, signer)`,
told by the name of the binding which interface is passed: `some e` when it throws `e`. -/
structure BindingEnv where
  addresses : ContractAddresses
  construct : String → JsVal → Nat → Option JsError

/-- The three constructions of the `try` block, in order, and the object `newContracts`. -/
def buildContracts (env : BindingEnv) (signer : Nat) : Except JsError Contracts :=
  match env.construct "projectFactory" env.addresses.projectFactory signer with
  | some e => .error e
  | none =>
    match env.construct "investmentManager" env.addresses.investmentManager signer with
    | some e => .error e
    | none =>
      match env.construct "usdc" env.addresses.usdc signer with
      | some e => .error e
      | none =>
        .ok { projectFactory := some { address := env.addresses.projectFactory, signer := signer }
              investmentManager :=
                some { address := env.addresses.investmentManager, signer := signer }
              usdc := some { address := env.addresses.usdc, signer := signer } }

/-- The outcome of one run of the initialisation effect. -/
structure InitStep where
  state : BindingState
  toasts : List Toast
  deriving DecidableEq, Repr

/-- The `else` branch of the initialisation effect. -/
def clearBindings (h : BindingState) : BindingState :=
  { h with
    contracts := { projectFactory := none, investmentManager := none, usdc := none }
    contractsReady := false
    lastProvider := none
    lastSigner := none }

/-- One run of the initialisation effect with the `provider` and `signer` of the render
(object identities, `none` for `null`). -/
def initEffect (env : BindingEnv) (provider signer : Option Nat) (h : BindingState) :
    InitStep :=
  if h.initializing then ⟨h, []⟩
  else if h.lastProvider = provider ∧ h.lastSigner = signer then ⟨h, []⟩
  else
    match provider, signer with
    | some web3Provider, some web3Signer =>
      if env.addresses.projectFactory.truthy then
        match buildContracts env web3Signer with
        | .ok newContracts =>
          ⟨{ h with
             contractsReady := false
             contracts := newContracts
             lastProvider := some web3Provider
             lastSigner := some web3Signer
             timers := h.timers + 1
             initializing := false }, []⟩
        | .error _ =>
          ⟨{ h with contractsReady := false, initializing := false },
            [{ title := "Contract Initialization Failed",
               description := "Please check your network connection and try again.",
               status := "error" }]⟩
      else ⟨clearBindings h, []⟩
    | _, _ => ⟨clearBindings h, []⟩

/-- A pending timer of the initialisation effect fires, 100 ms after it was scheduled. -/
def settleTimer (h : BindingState) : BindingState :=
  if h.timers = 0 then h else { h with contractsReady := true, timers := h.timers - 1 }

/-- The hook across renders: its state, the `provider` and `signer` of the previous render
(`none` before the first one), and the toasts shown. -/
structure BindingHook where
  state : BindingState
  deps : Option (Option Nat × Option Nat)
  toasts : List Toast
  deriving DecidableEq, Repr

/-- A newly mounted hook, before its first effect run. -/
def BindingHook.init : BindingHook := { state := BindingState.init, deps := none, toasts := [] }

/-- A render with the given `provider` and `signer`: the initialisation effect runs when one
of them differs from the previous render (the third dependency, `toast`, keeps its
identity). -/
def BindingHook.render (env : BindingEnv) (provider signer : Option Nat) (hook : BindingHook) :
    BindingHook :=
  if hook.deps = some (provider, signer) then hook
  else
    { state := (initEffect env provider signer hook.state).state
      deps := some (provider, signer)
      toasts := hook.toasts ++ (initEffect env provider signer hook.state).toasts }

/-- A pending timer fires. -/
def BindingHook.timer (hook : BindingHook) : BindingHook :=
  { hook with state := settleTimer hook.state }

/-- The addresses of the sample deployment and a constructor that throws for the signer 2
only. -/
def sampleEnv : BindingEnv :=
  { addresses :=
      { projectFactory := .str "0xfactory", investmentManager := .str "0xmanager",
        usdc := .str "0xusdc" }
    construct := fun _ _ signer =>
      if signer = 2 then some { message := "invalid signer or provider" } else none }

/-- A second well-formed version-0 content address. -/
def otherHash : String := "QmT78zSuBmuS4z925WZfrqQ1qHaJ56DQaTfyMUF7F8ff5o"

/-- The props of an image of the category `Livestock` with the given content address. -/
def sampleImage (ipfsHash : String) : ImageProps :=
  { ipfsHash := .str ipfsHash, category := .str "Livestock", fallbackSrc := .undefined }

/-- A connected session of the given account on a mounted provider, nothing checked yet. -/
def connectedAs (account : String) : ProviderState :=
  { wallet :=
      { account := account, chainId := "80002", isConnected := true, isConnecting := false,
        provider := some 1, signer := some 1 }
    registration := Web3State.init }

/-- A wallet agent on the chain `chain` that knows the account `0xabc`; the switch request
fails with `switchCode` when one is given, every other step succeeds. -/
def sampleAgent (chain : String) (switchCode : Option Int) : Agent :=
  { requestAccounts := .ok (some ["0xabc"])
    chainId := .ok chain
    switchChain :=
      match switchCode with
      | none => .ok ()
      | some code => .error { code := some code, message := "Unrecognized chain ID" }
    addChain := .ok ()
    web3Provider := .ok 1
    signer := 1
    network := .ok 80002 }

end AgroYield

namespace AgroYield

/-! ## Sample runs of the provider -/

/-- The check of `0xabc` that the registration effect requests at mount. -/
def firstCall : CheckCall :=
  { address := .str "0xabc", contracts := some sampleContracts, userProfile := none }

/-- The provider, connected as `0xabc`, while the check requested by the registration effect
at mount is suspended at its `isUserRegistered` read. -/
def checkingFirst : ProviderState :=
  { connectedAs "0xabc" with
    registration := (appEffect none sampleContracts (connectedAs "0xabc")).state }

/-- The provider after the wallet switched to `0xdef` while that check is suspended. -/
def switchedMidCheck : ProviderState :=
  (handleAccountsChanged "0xabc" ["0xdef"] checkingFirst).state

/-- The provider after the suspended `isUserRegistered` read of `0xabc` then resolved. -/
def firstCheckSettled (registered : Bool) : CheckStep :=
  afterRegistered firstCall (.ok registered) switchedMidCheck.registration

/-- The provider after the check of the registered account `0xabc` ran to its end, the
switch to `0xdef` having happened during its first read. -/
def firstCheckDone : Web3State :=
  (afterRole sampleLib (sampleOnChain sampleHash) (some (roleResult farmerJson))
    (afterProfile sampleLib firstCall (.ok (sampleOnChain sampleHash))
      (firstCheckSettled true).state).state).state

end AgroYield

namespace AgroYield

/-! ## Sample runs: a disconnect during a check -/

/-- The provider after the wallet disconnects and the user connects again through `agent`. -/
def reconnect (agent : Agent) (p : ProviderState) : ProviderState :=
  { (disconnectWallet p).state with
    wallet := (connectWallet (some agent) (disconnectWallet p).state.wallet).state }

/-- The registration effect of the render that follows such a reconnect, once the bindings
are built again; the render before it was the disconnected one, with no binding in the
`contracts` object. -/
def effectAfterReconnect (agent : Agent) (p : ProviderState) : CheckStep :=
  appEffect (some (appDeps BindingState.init.contracts (disconnectWallet p).state))
    sampleContracts (reconnect agent p)

/-- The provider, connected as `0xabc`, while the first check of that registered account is
suspended at `fetchUserRole`. -/
def fetchingRole : ProviderState :=
  { connectedAs "0xabc" with registration := awaitingRole }

/-- The second check of `0xabc`, requested after the wallet disconnected and connected again
as `0xabc` on the expected chain while the first check is still suspended at
`fetchUserRole`. -/
def secondCheckStarted : CheckStep :=
  effectAfterReconnect (sampleAgent EXPECTED_CHAIN_ID none) fetchingRole

/-- The second check after its `isUserRegistered` read resolved `true`: it is suspended at
its `getUserProfile` read. -/
def secondCheckRegistered : CheckStep :=
  afterRegistered firstCall (.ok true) secondCheckStarted.state

/-- The provider after the role fetch of the first check then resolved with the farmer's
document. -/
def firstRoleResolved : Web3State :=
  (afterRole sampleLib (sampleOnChain sampleHash) (some (roleResult farmerJson))
    secondCheckRegistered.state).state

/-- The second check after its `getUserProfile` read then resolved with the record of
`0xabc`, whose profile points at `sampleHash`. -/
def secondCheckDone : CheckStep :=
  afterProfile sampleLib firstCall (.ok (sampleOnChain sampleHash)) firstRoleResolved

end AgroYield

/-! ## Helper lemmas -/

namespace AgroYield

theorem callsOf_append (xs ys : List Effect) : callsOf (xs ++ ys) = callsOf xs ++ callsOf ys := by
  induction xs with
  | nil => rfl
  | cons x xs ih => cases x <;> simp [callsOf, ih]

theorem finishMutation_effects_calls {α : Type} (title : String) (body : Res α) :
    callsOf (finishMutation title body).effects = callsOf body.effects := by
  unfold finishMutation
  cases h : body.value <;> simp [callsOf_append, callsOf]

theorem finishMutation_value {α : Type} (title : String) (body : Res α) :
    (finishMutation title body).value = body.value := by
  unfold finishMutation
  cases h : body.value <;> simp

theorem finishMutation_refs {α : Type} (title : String) (body : Res α) :
    (finishMutation title body).refs = { body.refs with loading := false } := by
  unfold finishMutation
  cases h : body.value <;> simp

/-! ## The mutation gate -/

/-- C3: when the gate of a mutation is closed (bindings not ready, a needed binding absent,
or the session not connected), `registerUser`, `createProject` and `investInProject` throw
the not-ready error at once, issue no effect at all (no ledger read or write) and leave
every cell, the caches included, as it was. -/
theorem mutations_gated (lib : Lib) (c : Ctx) (L : Ledger) (r : Refs) :
    ((c.contractsReady = false ∨ c.contracts.projectFactory = none ∨ c.isConnected = false) →
      (∀ name hash, registerUser c L name hash r = ⟨.error notReadyError, r, []⟩) ∧
      (∀ projectData, createProject lib c L projectData r = ⟨.error notReadyError, r, []⟩)) ∧
    ((c.contractsReady = false ∨ c.contracts.investmentManager = none ∨
        c.contracts.usdc = none ∨ c.isConnected = false) →
      ∀ projectId amountUSDC,
        investInProject lib c L projectId amountUSDC r = ⟨.error notReadyError, r, []⟩) ∧
    notReadyError.message = "Wallet not connected or contracts not ready" := by
  refine ⟨?_, ?_, rfl⟩
  · intro h
    have hg : (!c.contractsReady || c.contracts.projectFactory.isNone || !c.isConnected) = true := by
      rcases h with h | h | h <;> simp [h]
    constructor
    · intro name hash
      simp only [registerUser, hg, if_true]
    · intro projectData
      simp only [createProject, hg, if_true]
  · intro h projectId amountUSDC
    have hg : (!c.contractsReady || c.contracts.investmentManager.isNone ||
        c.contracts.usdc.isNone || !c.isConnected) = true := by
      rcases h with h | h | h | h <;> simp [h]
    simp only [investInProject, hg, if_true]

/-- C3, at a concrete input: with `contractsReady` false the three mutations fail with the
not-ready error, without effects and without touching the warm caches. -/
theorem mutations_gated_witness :
    registerUser notReadyCtx failingLedger (.str "Asha") .undefined (warmRefs 0)
        = ⟨.error notReadyError, warmRefs 0, []⟩ ∧
    createProject sampleLib notReadyCtx failingLedger sampleProjectData (warmRefs 0)
        = ⟨.error notReadyError, warmRefs 0, []⟩ ∧
    investInProject sampleLib notReadyCtx failingLedger (.str "1") (.str "5") (warmRefs 0)
        = ⟨.error notReadyError, warmRefs 0, []⟩ :=
  have h := mutations_gated sampleLib notReadyCtx failingLedger (warmRefs 0)
  ⟨(h.1 (Or.inl rfl)).1 _ _, (h.1 (Or.inl rfl)).2 _, h.2.1 (Or.inl rfl) _ _⟩

/-! ## The investment pipeline -/

/-- C2: with the gate open and the amount parsed, a balance read below the amount makes
`investInProject` throw `Insufficient USDC balance`; the only contract call issued is the
balance read, so no transaction of any kind is submitted and the allowance is not read;
the caches are untouched. -/
theorem invest_insufficient_balance (lib : Lib) (c : Ctx) (L : Ledger)
    (projectId amountUSDC : JsVal) (r : Refs) (text : String) (amount balance : Int)
    (hready : c.contractsReady = true) (hmgr : c.contracts.investmentManager.isSome = true)
    (husdc : c.contracts.usdc.isSome = true) (hconn : c.isConnected = true)
    (htext : amountUSDC.toStringMethod = .ok text) (hparse : lib.parseUnits text 6 = .ok amount)
    (hbal : L.balanceOf c.account = .ok balance) (hlt : balance < amount) :
    (investInProject lib c L projectId amountUSDC r).value
        = .error { message := "Insufficient USDC balance" } ∧
    callsOf (investInProject lib c L projectId amountUSDC r).effects
        = [.balanceOf c.account] ∧
    (callsOf (investInProject lib c L projectId amountUSDC r).effects).filter Call.isTx = [] ∧
    (investInProject lib c L projectId amountUSDC r).refs.projectsCache = r.projectsCache ∧
    (investInProject lib c L projectId amountUSDC r).refs.projectCache = r.projectCache := by
  have hm : c.contracts.investmentManager.isNone = false := by
    cases h : c.contracts.investmentManager <;> simp_all
  have hu : c.contracts.usdc.isNone = false := by
    cases h : c.contracts.usdc <;> simp_all
  have hbody : investInProjectBody lib c L projectId amountUSDC r
      = ⟨.error { message := "Insufficient USDC balance" }, { r with loading := true },
          [.setLoading true, .call (.balanceOf c.account)]⟩ := by
    simp [investInProjectBody, htext, hparse, hbal, hlt]
  have hinv : investInProject lib c L projectId amountUSDC r
      = finishMutation "Investment Failed" (investInProjectBody lib c L projectId amountUSDC r) := by
    simp [investInProject, hready, hm, hu, hconn]
  rw [hinv]
  refine ⟨?_, ?_, ?_, ?_, ?_⟩
  · rw [finishMutation_value, hbody]
  · rw [finishMutation_effects_calls, hbody]; rfl
  · rw [finishMutation_effects_calls, hbody]; rfl
  · rw [finishMutation_refs, hbody]
  · rw [finishMutation_refs, hbody]

/-- C2, at a concrete input: balance 1 USDC against a request of 5 USDC. -/
theorem invest_insufficient_balance_witness :
    (investInProject sampleLib readyCtx (sampleLedger 1000000 0 3) (.str "1") (.str "5")
        (warmRefs 0)).value = .error { message := "Insufficient USDC balance" } ∧
    callsOf (investInProject sampleLib readyCtx (sampleLedger 1000000 0 3) (.str "1") (.str "5")
        (warmRefs 0)).effects = [.balanceOf (.str "0xabc")] :=
  have h := invest_insufficient_balance sampleLib readyCtx (sampleLedger 1000000 0 3) (.str "1")
    (.str "5") (warmRefs 0) "5" 5000000 1000000 rfl rfl rfl rfl rfl rfl rfl (by decide)
  ⟨h.1, h.2.1⟩

theorem investStep_calls (L : Ledger) (projectId amountUSDC : JsVal) (amount : Int) (r1 : Refs)
    (pre : List Effect) :
    ∃ rest, callsOf (investStep L projectId amountUSDC amount r1 pre).effects
        = callsOf pre ++ Call.investInProject projectId amount :: rest ∧
      rest.filter Call.isTx = [] := by
  cases h1 : L.investInProject projectId amount with
  | error e => exact ⟨[], by simp [investStep, h1, callsOf_append, callsOf], rfl⟩
  | ok tx =>
    cases h2 : tx.waitResult with
    | error e =>
      exact ⟨[.wait tx.hash], by simp [investStep, h1, h2, callsOf_append, callsOf], rfl⟩
    | ok receipt =>
      exact ⟨[.wait tx.hash], by simp [investStep, h1, h2, callsOf_append, callsOf], rfl⟩

/-- C1: with the gate open, the amount parsed, a balance of at least the amount and an
allowance read that returns a value: if the allowance is below the amount, exactly one
approval is submitted, and the investment is submitted only after that approval was accepted
and its confirmation awaited successfully (a rejected or unconfirmed approval ends the call
with no investment); if the allowance covers the amount, no approval is submitted and the
investment transaction directly follows the two reads. -/
theorem invest_approval_sequence (lib : Lib) (c : Ctx) (L : Ledger)
    (projectId amountUSDC : JsVal) (r : Refs) (text : String) (amount balance allowance : Int)
    (hready : c.contractsReady = true) (hmgr : c.contracts.investmentManager.isSome = true)
    (husdc : c.contracts.usdc.isSome = true) (hconn : c.isConnected = true)
    (htext : amountUSDC.toStringMethod = .ok text) (hparse : lib.parseUnits text 6 = .ok amount)
    (hbal : L.balanceOf c.account = .ok balance) (hle : amount ≤ balance)
    (hallow : L.allowance c.account c.addresses.investmentManager = .ok allowance) :
    (allowance < amount →
      (callsOf (investInProject lib c L projectId amountUSDC r).effects).filter Call.isApprove
          = [.approve c.addresses.investmentManager amount] ∧
      (∀ e, L.approve c.addresses.investmentManager amount = .error e →
        callsOf (investInProject lib c L projectId amountUSDC r).effects
          = [.balanceOf c.account, .allowance c.account c.addresses.investmentManager,
             .approve c.addresses.investmentManager amount]) ∧
      (∀ tx e, L.approve c.addresses.investmentManager amount = .ok tx →
        tx.waitResult = .error e →
        callsOf (investInProject lib c L projectId amountUSDC r).effects
          = [.balanceOf c.account, .allowance c.account c.addresses.investmentManager,
             .approve c.addresses.investmentManager amount, .wait tx.hash]) ∧
      (∀ tx receipt, L.approve c.addresses.investmentManager amount = .ok tx →
        tx.waitResult = .ok receipt →
        ∃ rest, callsOf (investInProject lib c L projectId amountUSDC r).effects
          = [.balanceOf c.account, .allowance c.account c.addresses.investmentManager,
             .approve c.addresses.investmentManager amount, .wait tx.hash,
             .investInProject projectId amount] ++ rest ∧
          rest.filter Call.isTx = [])) ∧
    (amount ≤ allowance →
      (callsOf (investInProject lib c L projectId amountUSDC r).effects).filter Call.isApprove
          = [] ∧
      ∃ rest, callsOf (investInProject lib c L projectId amountUSDC r).effects
          = [.balanceOf c.account, .allowance c.account c.addresses.investmentManager,
             .investInProject projectId amount] ++ rest ∧
        rest.filter Call.isTx = []) := by
  have hm : c.contracts.investmentManager.isNone = false := by
    cases h : c.contracts.investmentManager <;> simp_all
  have hu : c.contracts.usdc.isNone = false := by
    cases h : c.contracts.usdc <;> simp_all
  have hinv : investInProject lib c L projectId amountUSDC r
      = finishMutation "Investment Failed" (investInProjectBody lib c L projectId amountUSDC r) := by
    simp [investInProject, hready, hm, hu, hconn]
  have hnlt : ¬ balance < amount := not_lt.mpr hle
  rw [hinv, finishMutation_effects_calls]
  have hfilter : ∀ rest : List Call, rest.filter Call.isTx = [] →
      rest.filter Call.isApprove = [] := by
    intro rest h
    rw [List.filter_eq_nil_iff] at h ⊢
    intro a ha
    have := h a ha
    cases a <;> simp_all [Call.isTx, Call.isApprove]
  constructor
  · intro hlt
    have key : (∀ e, L.approve c.addresses.investmentManager amount = .error e →
        callsOf (investInProjectBody lib c L projectId amountUSDC r).effects
          = [.balanceOf c.account, .allowance c.account c.addresses.investmentManager,
             .approve c.addresses.investmentManager amount]) ∧
      (∀ tx e, L.approve c.addresses.investmentManager amount = .ok tx →
        tx.waitResult = .error e →
        callsOf (investInProjectBody lib c L projectId amountUSDC r).effects
          = [.balanceOf c.account, .allowance c.account c.addresses.investmentManager,
             .approve c.addresses.investmentManager amount, .wait tx.hash]) ∧
      (∀ tx receipt, L.approve c.addresses.investmentManager amount = .ok tx →
        tx.waitResult = .ok receipt →
        ∃ rest, callsOf (investInProjectBody lib c L projectId amountUSDC r).effects
          = [.balanceOf c.account, .allowance c.account c.addresses.investmentManager,
             .approve c.addresses.investmentManager amount, .wait tx.hash,
             .investInProject projectId amount] ++ rest ∧
          rest.filter Call.isTx = []) := by
      refine ⟨?_, ?_, ?_⟩
      · intro e he
        simp [investInProjectBody, htext, hparse, hbal, hnlt, hallow, hlt, he, callsOf]
      · intro tx e he hw
        simp [investInProjectBody, htext, hparse, hbal, hnlt, hallow, hlt, he, hw, callsOf]
      · intro tx receipt he hw
        obtain ⟨rest, h1, h2⟩ := investStep_calls L projectId amountUSDC amount
          { r with loading := true }
          ([.setLoading true, .call (.balanceOf c.account),
            .call (.allowance c.account c.addresses.investmentManager)] ++
           [.call (.approve c.addresses.investmentManager amount), .call (.wait tx.hash),
            .toast { title := "USDC Approved",
                     description := "USDC spending approved for investment",
                     status := "info" }])
        refine ⟨rest, ?_, h2⟩
        simp only [investInProjectBody, htext, hparse, hbal, hnlt, hallow, hlt, he, hw,
          if_true, if_false]
        rw [h1]
        simp [callsOf]
    refine ⟨?_, key.1, key.2.1, key.2.2⟩
    cases he : L.approve c.addresses.investmentManager amount with
    | error e => rw [key.1 e he]; simp [Call.isApprove]
    | ok tx =>
      cases hw : tx.waitResult with
      | error e => rw [key.2.1 tx e he hw]; simp [Call.isApprove]
      | ok receipt =>
        obtain ⟨rest, h1, h2⟩ := key.2.2 tx receipt he hw
        rw [h1, List.filter_append, hfilter rest h2]
        simp [Call.isApprove]
  · intro hge
    have hnlt2 : ¬ allowance < amount := not_lt.mpr hge
    obtain ⟨rest, h1, h2⟩ := investStep_calls L projectId amountUSDC amount
      { r with loading := true }
      [.setLoading true, .call (.balanceOf c.account),
        .call (.allowance c.account c.addresses.investmentManager)]
    have hbody : callsOf (investInProjectBody lib c L projectId amountUSDC r).effects
          = [.balanceOf c.account, .allowance c.account c.addresses.investmentManager,
             .investInProject projectId amount] ++ rest := by
      simp only [investInProjectBody, htext, hparse, hbal, hnlt, hallow, hnlt2, if_false]
      rw [h1]
      simp [callsOf]
    refine ⟨?_, rest, hbody, h2⟩
    rw [hbody, List.filter_append, hfilter rest h2]
    simp [Call.isApprove]

/-- C1, at concrete inputs: a request of 5 USDC with allowance 0 submits one approval, and
with allowance 5 USDC submits none. -/
theorem invest_approval_sequence_witness :
    (callsOf (investInProject sampleLib readyCtx (sampleLedger 10000000 0 3) (.str "1")
        (.str "5") (warmRefs 0)).effects).filter Call.isApprove
      = [.approve (.str "0xmanager") 5000000] ∧
    (callsOf (investInProject sampleLib readyCtx (sampleLedger 10000000 5000000 3) (.str "1")
        (.str "5") (warmRefs 0)).effects).filter Call.isApprove = [] :=
  have h1 := invest_approval_sequence sampleLib readyCtx (sampleLedger 10000000 0 3) (.str "1")
    (.str "5") (warmRefs 0) "5" 5000000 10000000 0 rfl rfl rfl rfl rfl rfl rfl (by decide) rfl
  have h2 := invest_approval_sequence sampleLib readyCtx (sampleLedger 10000000 5000000 3)
    (.str "1") (.str "5") (warmRefs 0) "5" 5000000 10000000 5000000 rfl rfl rfl rfl rfl rfl rfl
    (by decide) rfl
  ⟨(h1.1 (by decide)).1, (h2.2 (by decide)).1⟩

/-! ## Cache eviction by mutations -/

theorem JsMap.get_delete_self {β : Type} (m : JsMap β) (k : String) :
    (m.delete k).get k = none := by
  induction m with
  | nil => rfl
  | cons e rest ih =>
    obtain ⟨k', v⟩ := e
    by_cases hk : k' = k
    · simpa [JsMap.delete, List.filter, hk] using ih
    · simpa [JsMap.delete, List.filter, hk, JsMap.get] using ih

theorem JsMap.get_set_self {β : Type} (m : JsMap β) (k : String) (v : β) :
    (m.set k v).get k = some v := by
  induction m with
  | nil => simp [JsMap.set, JsMap.get]
  | cons e rest ih =>
    obtain ⟨k', v'⟩ := e
    by_cases hk : k' = k
    · simp [JsMap.set, JsMap.get, hk]
    · simpa [JsMap.set, JsMap.get, hk] using ih

theorem investStep_ok_refs (L : Ledger) (projectId amountUSDC : JsVal) (amount : Int) (r1 : Refs)
    (pre : List Effect) (v : Tx × Receipt)
    (h : (investStep L projectId amountUSDC amount r1 pre).value = .ok v) :
    (investStep L projectId amountUSDC amount r1 pre).refs = clearProjectCache projectId r1 := by
  cases h1 : L.investInProject projectId amount with
  | error e => simp [investStep, h1] at h
  | ok tx =>
    cases h2 : tx.waitResult with
    | error e => simp [investStep, h1, h2] at h
    | ok receipt => simp [investStep, h1, h2]

theorem investInProjectBody_ok_refs (lib : Lib) (c : Ctx) (L : Ledger)
    (projectId amountUSDC : JsVal) (r : Refs) (v : Tx × Receipt)
    (h : (investInProjectBody lib c L projectId amountUSDC r).value = .ok v) :
    (investInProjectBody lib c L projectId amountUSDC r).refs
      = clearProjectCache projectId { r with loading := true } := by
  cases h1 : amountUSDC.toStringMethod with
  | error e => simp [investInProjectBody, h1] at h
  | ok text =>
    cases h2 : lib.parseUnits text 6 with
    | error e => simp [investInProjectBody, h1, h2] at h
    | ok amount =>
      cases h3 : L.balanceOf c.account with
      | error e => simp [investInProjectBody, h1, h2, h3] at h
      | ok balance =>
        by_cases h4 : balance < amount
        · simp [investInProjectBody, h1, h2, h3, h4] at h
        · cases h5 : L.allowance c.account c.addresses.investmentManager with
          | error e => simp [investInProjectBody, h1, h2, h3, h4, h5] at h
          | ok allowance =>
            by_cases h6 : allowance < amount
            · cases h7 : L.approve c.addresses.investmentManager amount with
              | error e => simp [investInProjectBody, h1, h2, h3, h4, h5, h6, h7] at h
              | ok approveTx =>
                cases h8 : approveTx.waitResult with
                | error e => simp [investInProjectBody, h1, h2, h3, h4, h5, h6, h7, h8] at h
                | ok receipt =>
                  simp only [investInProjectBody, h1, h2, h3, h4, h5, h6, h7, h8, if_true,
                    if_false] at h ⊢
                  exact investStep_ok_refs _ _ _ _ _ _ v h
            · simp only [investInProjectBody, h1, h2, h3, h4, h5, h6, if_false] at h ⊢
              exact investStep_ok_refs _ _ _ _ _ _ v h

theorem investInProject_ok_refs (lib : Lib) (c : Ctx) (L : Ledger)
    (projectId amountUSDC : JsVal) (r : Refs) (v : Tx × Receipt)
    (h : (investInProject lib c L projectId amountUSDC r).value = .ok v) :
    (investInProject lib c L projectId amountUSDC r).refs
      = { clearProjectCache projectId { r with loading := true } with loading := false } := by
  unfold investInProject at h ⊢
  split at h
  · simp at h
  · rename_i hg
    rw [if_neg hg, finishMutation_refs]
    rw [finishMutation_value] at h
    rw [investInProjectBody_ok_refs lib c L projectId amountUSDC r v h]

theorem fetchProject_calls (lib : Lib) (L : Ledger) (projectId : JsVal) (cacheKey : String)
    (storeTime : Int) (r : Refs) :
    callsOf (fetchProject lib L projectId cacheKey storeTime r).effects
      = [.getProject projectId] := by
  unfold fetchProject
  split
  · split <;> rfl
  · rfl
  · rfl

theorem getProject_miss (lib : Lib) (c : Ctx) (L : Ledger) (now storeTime : Int)
    (projectId : JsVal) (r : Refs)
    (hready : c.contractsReady = true) (hfac : c.contracts.projectFactory.isSome = true)
    (hid : projectId.truthy = true)
    (hmiss : r.projectCache.get ("project_" ++ projectId.toStr) = none) :
    getProject lib c L now storeTime projectId r
      = fetchProject lib L projectId ("project_" ++ projectId.toStr) storeTime r := by
  have hf : c.contracts.projectFactory.isNone = false := by
    cases h : c.contracts.projectFactory <;> simp_all
  simp [getProject, hready, hf, hid, hmiss]

/-- C4 as the code has it: a successful `investInProject(projectId, amount)` evicts the
per-id cache entry of that project, so the next `getProject(projectId)` (bindings ready,
id truthy) issues a fresh ledger call whatever the age of the previous fetch; for a truthy
project id the whole-collection cache and its timestamp are left as they were, so a
`getAllProjects()` within the 30 s of the last fetch still returns the cached collection
without any ledger call. -/
theorem invest_evicts_project_entry (lib : Lib) (c : Ctx) (L : Ledger)
    (projectId amountUSDC : JsVal) (r : Refs) (v : Tx × Receipt)
    (h : (investInProject lib c L projectId amountUSDC r).value = .ok v) :
    (investInProject lib c L projectId amountUSDC r).refs.projectCache.get
        ("project_" ++ projectId.toStr) = none ∧
    (∀ (c' : Ctx) (L' : Ledger) (now storeTime : Int),
      c'.contractsReady = true → c'.contracts.projectFactory.isSome = true →
      projectId.truthy = true →
      callsOf (getProject lib c' L' now storeTime projectId
          (investInProject lib c L projectId amountUSDC r).refs).effects
        = [.getProject projectId]) ∧
    (projectId.truthy = true →
      (investInProject lib c L projectId amountUSDC r).refs.projectsCache = r.projectsCache ∧
      (investInProject lib c L projectId amountUSDC r).refs.lastFetchTime = r.lastFetchTime ∧
      ∀ (c' : Ctx) (L' : Ledger) (now : Int) (cached : List Project),
        c'.contractsReady = true → c'.contracts.projectFactory.isSome = true →
        r.projectsCache = some cached → now - r.lastFetchTime < CACHE_DURATION →
        getAllProjects lib c' L' now (investInProject lib c L projectId amountUSDC r).refs
          = ⟨.ok cached, (investInProject lib c L projectId amountUSDC r).refs, []⟩) := by
  have hrefs := investInProject_ok_refs lib c L projectId amountUSDC r v h
  have hget : (investInProject lib c L projectId amountUSDC r).refs.projectCache.get
        ("project_" ++ projectId.toStr) = none := by
    rw [hrefs]
    unfold clearProjectCache
    split
    · exact JsMap.get_delete_self _ _
    · rfl
  refine ⟨hget, ?_, ?_⟩
  · intro c' L' now storeTime hready hfac hid
    rw [getProject_miss lib c' L' now storeTime projectId _ hready hfac hid hget]
    exact fetchProject_calls _ _ _ _ _ _
  · intro hid
    have hc : (investInProject lib c L projectId amountUSDC r).refs.projectsCache
        = r.projectsCache := by
      rw [hrefs]; simp [clearProjectCache, hid]
    have ht : (investInProject lib c L projectId amountUSDC r).refs.lastFetchTime
        = r.lastFetchTime := by
      rw [hrefs]; simp [clearProjectCache, hid]
    refine ⟨hc, ht, ?_⟩
    intro c' L' now cached hready hfac hcache hfresh
    have hf : c'.contracts.projectFactory.isNone = false := by
      cases h : c'.contracts.projectFactory <;> simp_all
    unfold getAllProjects
    simp only [hready, hf, hc, hcache, ht, hfresh, Bool.not_true, Bool.or_self, if_true]
    simp

/-- C4, at a concrete input: investing in project 1 from the warm caches. -/
theorem invest_evicts_project_entry_witness :
    (investInProject sampleLib readyCtx (sampleLedger 10000000 5000000 4) (.str "1") (.str "5")
        (warmRefs 0)).refs.projectCache.get ("project_" ++ (JsVal.str "1").toStr) = none :=
  (invest_evicts_project_entry sampleLib readyCtx (sampleLedger 10000000 5000000 4) (.str "1")
    (.str "5") (warmRefs 0) (sampleTx "0xinvest", sampleReceipt) rfl).1

/-- C4 as stated fails: after a successful investment in project 1, made while the
collection cache holds three projects fetched at time 0, a `getAllProjects()` at time 5000
issues no ledger call and returns the three cached projects, although the ledger now
reports four. -/
theorem invest_keeps_collection_cache :
    (investInProject sampleLib readyCtx (sampleLedger 10000000 5000000 4) (.str "1") (.str "5")
        (warmRefs 0)).value.isOk = true ∧
    (getAllProjects sampleLib readyCtx (sampleLedger 10000000 5000000 4) 5000
        (investInProject sampleLib readyCtx (sampleLedger 10000000 5000000 4) (.str "1")
          (.str "5") (warmRefs 0)).refs).effects = [] ∧
    (getAllProjects sampleLib readyCtx (sampleLedger 10000000 5000000 4) 5000
        (investInProject sampleLib readyCtx (sampleLedger 10000000 5000000 4) (.str "1")
          (.str "5") (warmRefs 0)).refs).value = .ok (sampleProjects 3) ∧
    (sampleLedger 10000000 5000000 4).getAllProjects.map List.length = .ok 4 := by
  refine ⟨rfl, rfl, rfl, rfl⟩

/-! ## The whole-collection cache -/

/-- C5: with bindings ready, a `getAllProjects()` whose `Date.now()` is less than 30 s after
the recorded fetch time, the cache not having been invalidated, returns the cached
collection with no effect at all; a call 30 s or more after it, and any call after
`clearProjectCache()` without an id, issues exactly the ledger call `getAllProjects`.
The recorded fetch time is that of the last successful fetch: a fetching call that the
ledger answers stores the normalised answer and its own `Date.now()`. -/
theorem getAllProjects_cache_window (lib : Lib) (c : Ctx) (L : Ledger) (now : Int) (r : Refs)
    (hready : c.contractsReady = true) (hfac : c.contracts.projectFactory.isSome = true) :
    (∀ cached, r.projectsCache = some cached → now - r.lastFetchTime < 30000 →
      getAllProjects lib c L now r = ⟨.ok cached, r, []⟩) ∧
    (30000 ≤ now - r.lastFetchTime →
      (getAllProjects lib c L now r).effects = [.call .getAllProjects]) ∧
    (getAllProjects lib c L now (clearProjectCache .undefined r)).effects
      = [.call .getAllProjects] ∧
    (∀ raw, L.getAllProjects = .ok raw →
      (getAllProjects lib c L now r).effects = [.call .getAllProjects] →
      (getAllProjects lib c L now r).value = .ok (raw.map (processProject lib)) ∧
      (getAllProjects lib c L now r).refs.projectsCache = some (raw.map (processProject lib)) ∧
      (getAllProjects lib c L now r).refs.lastFetchTime = now) := by
  have hf : c.contracts.projectFactory.isNone = false := by
    cases h : c.contracts.projectFactory <;> simp_all
  refine ⟨?_, ?_, ?_, ?_⟩
  · intro cached hc hfresh
    simp [getAllProjects, hready, hf, hc, CACHE_DURATION, hfresh]
  · intro hold
    have hn : ¬ now - r.lastFetchTime < 30000 := not_lt.mpr hold
    cases hc : r.projectsCache <;> cases hl : L.getAllProjects <;>
      simp [getAllProjects, hready, hf, hc, hl, CACHE_DURATION, hn]
  · cases hl : L.getAllProjects <;>
      simp [getAllProjects, hready, hf, hl, clearProjectCache, JsVal.truthy]
  · intro raw hl
    cases hc : r.projectsCache with
    | none => simp [getAllProjects, hready, hf, hc, hl]
    | some cached =>
      by_cases hfresh : now - r.lastFetchTime < 30000
      · simp [getAllProjects, hready, hf, hc, hl, CACHE_DURATION, hfresh]
      · simp [getAllProjects, hready, hf, hc, hl, CACHE_DURATION, hfresh]

/-- C5, at a concrete input: three projects cached at time 0; a read at 29999 is served from
the cache, a read at 30001 goes to the ledger. -/
theorem getAllProjects_cache_window_witness :
    getAllProjects sampleLib readyCtx (sampleLedger 0 0 4) 29999 (warmRefs 0)
      = ⟨.ok (sampleProjects 3), warmRefs 0, []⟩ ∧
    (getAllProjects sampleLib readyCtx (sampleLedger 0 0 4) 30001 (warmRefs 0)).effects
      = [.call .getAllProjects] :=
  ⟨(getAllProjects_cache_window sampleLib readyCtx (sampleLedger 0 0 4) 29999 (warmRefs 0)
      rfl rfl).1 (sampleProjects 3) rfl (by decide),
   (getAllProjects_cache_window sampleLib readyCtx (sampleLedger 0 0 4) 30001 (warmRefs 0)
      rfl rfl).2.1 (by decide)⟩

theorem createProjectBody_ok_refs (lib : Lib) (L : Ledger) (projectData : ProjectData)
    (r : Refs) (res : CreateResult)
    (h : (createProjectBody lib L projectData r).value = .ok res) :
    (createProjectBody lib L projectData r).refs
      = clearProjectCache .undefined { r with loading := true } := by
  cases h1 : projectData.targetAmountUSDC.toStringMethod with
  | error e => simp [createProjectBody, h1] at h
  | ok text =>
    cases h2 : lib.parseUnits text 6 with
    | error e => simp [createProjectBody, h1, h2] at h
    | ok targetAmount =>
      generalize hargs : ({ title := projectData.title
                            description := projectData.description
                            imageIPFSHash := projectData.imageIPFSHash
                            documentsIPFSHash :=
                              if projectData.documentsIPFSHash = .undefined then .str ""
                              else projectData.documentsIPFSHash
                            targetAmount := targetAmount
                            durationDays := lib.parseInt projectData.durationDays
                            location := projectData.location
                            category := projectData.category } : CreateArgs) = args
      cases h3 : L.createProject args with
      | error e => simp [createProjectBody, h1, h2, hargs, h3] at h
      | ok tx =>
        cases h4 : tx.waitResult with
        | error e => simp [createProjectBody, h1, h2, hargs, h3, h4] at h
        | ok receipt => simp [createProjectBody, h1, h2, hargs, h3, h4]

theorem createProject_ok_refs (lib : Lib) (c : Ctx) (L : Ledger) (projectData : ProjectData)
    (r : Refs) (res : CreateResult)
    (h : (createProject lib c L projectData r).value = .ok res) :
    (createProject lib c L projectData r).refs
      = { clearProjectCache .undefined { r with loading := true } with loading := false } := by
  unfold createProject at h ⊢
  split at h
  · simp at h
  · rename_i hg
    rw [if_neg hg, finishMutation_refs]
    rw [finishMutation_value] at h
    rw [createProjectBody_ok_refs lib L projectData r res h]

/-- C6: once `createProject` has confirmed, the collection cache is empty, so the next
`getAllProjects()` (bindings ready), at any time and in particular within 30 s of the
earlier fetch, does not serve the cached value: it issues exactly the ledger call
`getAllProjects`, returns the normalised answer of that call and caches it (and returns
the empty list if that call fails). -/
theorem createProject_then_getAllProjects (lib : Lib) (c : Ctx) (L : Ledger)
    (projectData : ProjectData) (r : Refs) (res : CreateResult)
    (hok : (createProject lib c L projectData r).value = .ok res) :
    (createProject lib c L projectData r).refs.projectsCache = none ∧
    ∀ (c' : Ctx) (L' : Ledger) (now : Int),
      c'.contractsReady = true → c'.contracts.projectFactory.isSome = true →
      (getAllProjects lib c' L' now (createProject lib c L projectData r).refs).effects
        = [.call .getAllProjects] ∧
      (∀ raw, L'.getAllProjects = .ok raw →
        (getAllProjects lib c' L' now (createProject lib c L projectData r).refs).value
          = .ok (raw.map (processProject lib)) ∧
        (getAllProjects lib c' L' now
            (createProject lib c L projectData r).refs).refs.projectsCache
          = some (raw.map (processProject lib))) ∧
      (∀ e, L'.getAllProjects = .error e →
        (getAllProjects lib c' L' now (createProject lib c L projectData r).refs).value
          = .ok []) := by
  have hrefs := createProject_ok_refs lib c L projectData r res hok
  have hnone : (createProject lib c L projectData r).refs.projectsCache = none := by
    rw [hrefs]; simp [clearProjectCache, JsVal.truthy]
  refine ⟨hnone, ?_⟩
  intro c' L' now hready hfac
  have hf : c'.contracts.projectFactory.isNone = false := by
    cases h : c'.contracts.projectFactory <;> simp_all
  refine ⟨?_, ?_, ?_⟩
  · cases hl : L'.getAllProjects <;> simp [getAllProjects, hready, hf, hnone, hl]
  · intro raw hl
    simp [getAllProjects, hready, hf, hnone, hl]
  · intro e hl
    simp [getAllProjects, hready, hf, hnone, hl]

/-- C6, at the scenario of the claim: three projects cached at time 0, `createProject`
confirms, and a read at time 5000 returns the four projects the ledger now reports. -/
theorem createProject_then_getAllProjects_witness :
    (getAllProjects sampleLib readyCtx (sampleLedger 0 0 4) 5000
        (createProject sampleLib readyCtx (sampleLedger 0 0 3) sampleProjectData
          (warmRefs 0)).refs).value = .ok (sampleProjects 4) ∧
    (warmRefs 0).projectsCache = some (sampleProjects 3) ∧
    (sampleProjects 4).length = 4 :=
  ⟨((createProject_then_getAllProjects sampleLib readyCtx (sampleLedger 0 0 3) sampleProjectData
      (warmRefs 0) ⟨sampleTx "0xcreate", sampleReceipt, some "4"⟩ rfl).2 readyCtx
      (sampleLedger 0 0 4) 5000 rfl rfl).2.1 _ rfl |>.1, rfl, rfl⟩

/-- C7: with bindings ready, when the ledger call inside `getAllProjects` fails the call
does not throw: it returns the cached collection if there is one, however old, and the
empty list otherwise, and it leaves every cell (cached value and timestamp included) as it
was. -/
theorem getAllProjects_fetch_failure (lib : Lib) (c : Ctx) (L : Ledger) (now : Int) (r : Refs)
    (e : JsError)
    (hready : c.contractsReady = true) (hfac : c.contracts.projectFactory.isSome = true)
    (hfail : L.getAllProjects = .error e) :
    (getAllProjects lib c L now r).value = .ok (r.projectsCache.getD []) ∧
    (getAllProjects lib c L now r).refs = r := by
  have hf : c.contracts.projectFactory.isNone = false := by
    cases h : c.contracts.projectFactory <;> simp_all
  cases hc : r.projectsCache with
  | none => simp [getAllProjects, hready, hf, hc, hfail]
  | some cached =>
    by_cases hfresh : now - r.lastFetchTime < CACHE_DURATION
    · simp [getAllProjects, hready, hf, hc, hfail, hfresh]
    · simp [getAllProjects, hready, hf, hc, hfail, hfresh]

/-- C7, at concrete inputs: a failing ledger, a cache 100 s old, and then no cache. -/
theorem getAllProjects_fetch_failure_witness :
    (getAllProjects sampleLib readyCtx failingLedger 100000 (warmRefs 0)).value
      = .ok (sampleProjects 3) ∧
    (getAllProjects sampleLib readyCtx failingLedger 100000 (warmRefs 0)).refs = warmRefs 0 ∧
    (getAllProjects sampleLib readyCtx failingLedger 100000 emptyRefs).value = .ok [] :=
  ⟨(getAllProjects_fetch_failure sampleLib readyCtx failingLedger 100000 (warmRefs 0)
      { message := "network error" } rfl rfl rfl).1,
   (getAllProjects_fetch_failure sampleLib readyCtx failingLedger 100000 (warmRefs 0)
      { message := "network error" } rfl rfl rfl).2,
   (getAllProjects_fetch_failure sampleLib readyCtx failingLedger 100000 emptyRefs
      { message := "network error" } rfl rfl rfl).1⟩

/-! ## The per-id cache -/

/-- C8, the code at the failing input: project 1 is cached (fetched at time 0); at time
100000 the ledger call fails, and `getProject` returns `null` instead of the cached
project. -/
theorem getProject_failure_ignores_cache :
    (warmRefs 0).projectCache.get "project_1"
      = some { data := processProject sampleLib (sampleRaw 1), timestamp := 0 } ∧
    (getProject sampleLib readyCtx failingLedger 100000 100000 (.str "1") (warmRefs 0)).effects
      = [.call (.getProject (.str "1"))] ∧
    (getProject sampleLib readyCtx failingLedger 100000 100000 (.str "1") (warmRefs 0)).value
      = .ok none := by
  refine ⟨rfl, rfl, rfl⟩

/-- C9 as stated fails: project 1 was cached at time 0, and a `getProject` at time 60000
exactly issues a ledger call instead of serving the cache. -/
theorem getProject_refetches_at_60000 :
    (warmRefs 0).projectCache.get "project_1"
      = some { data := processProject sampleLib (sampleRaw 1), timestamp := 0 } ∧
    callsOf (getProject sampleLib readyCtx (sampleLedger 0 0 3) 60000 60000 (.str "1")
        (warmRefs 0)).effects = [.getProject (.str "1")] := by
  refine ⟨rfl, rfl⟩

/-- C9 as the code has it: an entry fetched at `t` is served exactly while
`now - t < 60000`. With bindings ready and a truthy id, `getProject(id)` called with
`now - t < 60000` returns the cached project with no effect at all; called with
`now - t >= 60000` (exactly 60000 included) it issues one ledger call `getProject`, and when
the ledger answers with a project whose id is not 0 it returns the normalised project and
stores it under the id's key with the timestamp of the store. -/
theorem getProject_cache_window (lib : Lib) (c : Ctx) (L : Ledger) (now storeTime : Int)
    (projectId : JsVal) (r : Refs) (cached : CacheEntry)
    (hready : c.contractsReady = true) (hfac : c.contracts.projectFactory.isSome = true)
    (hid : projectId.truthy = true)
    (hentry : r.projectCache.get ("project_" ++ projectId.toStr) = some cached) :
    (now - cached.timestamp < 60000 →
      getProject lib c L now storeTime projectId r = ⟨.ok (some cached.data), r, []⟩) ∧
    (60000 ≤ now - cached.timestamp →
      callsOf (getProject lib c L now storeTime projectId r).effects
        = [.getProject projectId] ∧
      ∀ raw, L.getProject projectId = .ok (some raw) → toString raw.id ≠ "0" →
        (getProject lib c L now storeTime projectId r).value
          = .ok (some (processProject lib raw)) ∧
        (getProject lib c L now storeTime projectId r).refs.projectCache.get
            ("project_" ++ projectId.toStr)
          = some { data := processProject lib raw, timestamp := storeTime }) := by
  have hf : c.contracts.projectFactory.isNone = false := by
    cases h : c.contracts.projectFactory <;> simp_all
  constructor
  · intro hfresh
    simp [getProject, hready, hf, hid, hentry, hfresh]
  · intro hold
    have hn : ¬ now - cached.timestamp < 60000 := not_lt.mpr hold
    have hget : getProject lib c L now storeTime projectId r
        = fetchProject lib L projectId ("project_" ++ projectId.toStr) storeTime r := by
      simp [getProject, hready, hf, hid, hentry, hn]
    rw [hget]
    refine ⟨fetchProject_calls _ _ _ _ _ _, ?_⟩
    intro raw hl hne
    simp [fetchProject, hl, hne, JsMap.get_set_self]

/-- C9, at concrete inputs: project 1 cached at time 0, read at 59999 and at 60000. -/
theorem getProject_cache_window_witness :
    getProject sampleLib readyCtx (sampleLedger 0 0 3) 59999 59999 (.str "1") (warmRefs 0)
      = ⟨.ok (some (processProject sampleLib (sampleRaw 1))), warmRefs 0, []⟩ ∧
    (getProject sampleLib readyCtx (sampleLedger 0 0 3) 60000 60007 (.str "1")
        (warmRefs 0)).refs.projectCache.get "project_1"
      = some { data := processProject sampleLib (sampleRaw 1), timestamp := 60007 } :=
  ⟨(getProject_cache_window sampleLib readyCtx (sampleLedger 0 0 3) 59999 59999 (.str "1")
      (warmRefs 0) { data := processProject sampleLib (sampleRaw 1), timestamp := 0 }
      rfl rfl rfl rfl).1 (by decide),
   ((getProject_cache_window sampleLib readyCtx (sampleLedger 0 0 3) 60000 60007 (.str "1")
      (warmRefs 0) { data := processProject sampleLib (sampleRaw 1), timestamp := 0 }
      rfl rfl rfl rfl).2 (by decide)).2 (sampleRaw 1) rfl (by decide) |>.2⟩

/-! ## The image resolver: shape check and fallback -/

theorem isValidIPFSHash_eq_true_iff (ipfsHash : JsVal) :
    isValidIPFSHash ipfsHash = true ↔
      ∃ s, ipfsHash = .str s ∧
        ((startsWith s "Qm" = true ∧ 46 ≤ jsLength s) ∨
         (startsWith s "b" = true ∧ 50 ≤ jsLength s) ∨
         (startsWith s "f" = true ∧ 50 ≤ jsLength s)) := by
  cases ipfsHash with
  | str s =>
    by_cases hs : s = ""
    · subst hs
      simp [isValidIPFSHash, JsVal.truthy, JsVal.isString, startsWith]
    · simp only [isValidIPFSHash, JsVal.truthy, JsVal.isString, JsVal.toStr]
      simp only [JsVal.str.injEq, exists_eq_left']
      by_cases h1 : startsWith s "Qm" = true ∧ 46 ≤ jsLength s
      · simp [hs, h1]
      · by_cases h2 : startsWith s "b" = true ∧ 50 ≤ jsLength s
        · simp [hs, h2]
        · by_cases h3 : startsWith s "f" = true ∧ 50 ≤ jsLength s
          · simp [hs, h3]
          · have h1' : (startsWith s "Qm" && decide (jsLength s ≥ 46)) = false := by
              simpa using h1
            have h2' : (startsWith s "b" && decide (jsLength s ≥ 50)) = false := by
              simpa using h2
            have h3' : (startsWith s "f" && decide (jsLength s ≥ 50)) = false := by
              simpa using h3
            simp [hs, h1, h2, h3, h1', h2', h3']
  | _ => simp [isValidIPFSHash, JsVal.truthy, JsVal.isString]

theorem invalid_hash_short_circuits (testImageLoad : String → Bool) (ipfsHash category : JsVal)
    (hinvalid : isValidIPFSHash ipfsHash = false) :
    getCORSSafeImageUrl testImageLoad ipfsHash category
      = ⟨categoryFallback (categoryOrDefault category), []⟩ ∧
    getImageUrlSync ipfsHash category = categoryFallback (categoryOrDefault category) := by
  simp [getCORSSafeImageUrl, getImageUrlSync, hinvalid]

theorem categoryFallback_of_own_key (category : JsVal) (url : String)
    (h : FALLBACK_IMAGES.lookup category.toStr = some url) :
    categoryFallback category = .str url := by
  have hne : url ≠ "" := by
    intro hu
    subst hu
    simp only [FALLBACK_IMAGES, List.lookup] at h
    repeat' split at h
    all_goals simp at h
  simp [categoryFallback, fallbackImagesAt, h, JsVal.truthy, hne]

theorem categoryFallback_of_unknown (category : JsVal)
    (h : FALLBACK_IMAGES.lookup category.toStr = none)
    (hproto : category.toStr ∉ objectPrototypeMembers) :
    categoryFallback category = .str DEFAULT_FALLBACK := by
  simp [categoryFallback, fallbackImagesAt, h, hproto, JsVal.truthy]

theorem startsWith_Qm_not_b_f (s : String) (h : startsWith s "Qm" = true) :
    startsWith s "b" = false ∧ startsWith s "f" = false := by
  unfold startsWith at *
  cases hd : s.data with
  | nil => simp [hd] at h
  | cons ch rest =>
    rw [hd] at h
    have hq : ch = 'Q' := by
      have : ("Qm".data) = ['Q', 'm'] := rfl
      rw [this] at h
      simp [List.isPrefixOf] at h
      exact h.1.symm
    subst hq
    constructor
    · have : ("b".data) = ['b'] := rfl
      rw [this]; simp [List.isPrefixOf]
    · have : ("f".data) = ['f'] := rfl
      rw [this]; simp [List.isPrefixOf]

theorem qm_threshold (s : String) (h : startsWith s "Qm" = true) :
    (jsLength s = 45 → isValidIPFSHash (.str s) = false) ∧
    (jsLength s = 46 → isValidIPFSHash (.str s) = true) := by
  obtain ⟨hb, hf⟩ := startsWith_Qm_not_b_f s h
  constructor
  · intro hlen
    cases hv : isValidIPFSHash (.str s) with
    | false => rfl
    | true =>
      obtain ⟨s', hs', hcase⟩ := (isValidIPFSHash_eq_true_iff _).mp hv
      cases hs'
      rcases hcase with ⟨_, h46⟩ | ⟨hb', _⟩ | ⟨hf', _⟩
      · omega
      · simp [hb] at hb'
      · simp [hf] at hf'
  · intro hlen
    exact (isValidIPFSHash_eq_true_iff _).mpr ⟨s, rfl, Or.inl ⟨h, by omega⟩⟩

/-- C10, the code at the failing input: for the empty address and the category
`constructor`, which has no fallback image, both `getImageUrlSync` and
`getCORSSafeImageUrl` skip the gateways but return the function that the object literal
`FALLBACK_IMAGES` inherits under that name, not the default fallback image. -/
theorem fallback_for_inherited_category :
    isValidIPFSHash (.str "") = false ∧
    FALLBACK_IMAGES.lookup "constructor" = none ∧
    getImageUrlSync (.str "") (.str "constructor") = .obj "Object.prototype.constructor" ∧
    getCORSSafeImageUrl (fun _ => true) (.str "") (.str "constructor")
      = ⟨.obj "Object.prototype.constructor", []⟩ ∧
    JsVal.obj "Object.prototype.constructor" ≠ .str DEFAULT_FALLBACK := by
  refine ⟨by decide, by decide, by decide, by decide, by decide⟩

/-! ## The image resolver: the gateway race -/

theorem probeGateways_all_fail (testImageLoad : String → Bool) (ipfsHash : String)
    (gateways : List String)
    (hfail : ∀ g ∈ gateways, testImageLoad (g ++ ipfsHash) = false) :
    probeGateways testImageLoad ipfsHash gateways
      = (none, gateways.map (fun g => g ++ ipfsHash)) := by
  induction gateways with
  | nil => rfl
  | cons g rest ih =>
    have hg : testImageLoad (g ++ ipfsHash) = false := hfail g (List.mem_cons_self _ _)
    have hrest := ih (fun g' hg' => hfail g' (List.mem_cons_of_mem _ hg'))
    simp [probeGateways, hg, hrest]

theorem probeGateways_first_success (testImageLoad : String → Bool) (ipfsHash : String)
    (before : List String) (gateway : String) (after : List String)
    (hbefore : ∀ g ∈ before, testImageLoad (g ++ ipfsHash) = false)
    (hgateway : testImageLoad (gateway ++ ipfsHash) = true) :
    probeGateways testImageLoad ipfsHash (before ++ gateway :: after)
      = (some (gateway ++ ipfsHash), (before ++ [gateway]).map (fun g => g ++ ipfsHash)) := by
  induction before with
  | nil => simp [probeGateways, hgateway]
  | cons g rest ih =>
    have hg : testImageLoad (g ++ ipfsHash) = false := hbefore g (List.mem_cons_self _ _)
    have hrest := ih (fun g' hg' => hbefore g' (List.mem_cons_of_mem _ hg'))
    simp [probeGateways, hg, hrest]

theorem getCORSSafeImageUrl_first_success (testImageLoad : String → Bool)
    (ipfsHash category : JsVal) (before : List String) (gateway : String) (after : List String)
    (hvalid : isValidIPFSHash ipfsHash = true)
    (hsplit : CORS_SAFE_GATEWAYS = before ++ gateway :: after)
    (hbefore : ∀ g ∈ before, testImageLoad (g ++ ipfsHash.toStr) = false)
    (hgateway : testImageLoad (gateway ++ ipfsHash.toStr) = true) :
    getCORSSafeImageUrl testImageLoad ipfsHash category
      = ⟨.str (gateway ++ ipfsHash.toStr),
         (before ++ [gateway]).map (fun g => g ++ ipfsHash.toStr)⟩ := by
  unfold getCORSSafeImageUrl
  rw [hsplit, probeGateways_first_success _ _ _ _ _ hbefore hgateway]
  simp [hvalid]

theorem getCORSSafeImageUrl_all_fail (testImageLoad : String → Bool)
    (ipfsHash category : JsVal)
    (hvalid : isValidIPFSHash ipfsHash = true)
    (hfail : ∀ g ∈ CORS_SAFE_GATEWAYS, testImageLoad (g ++ ipfsHash.toStr) = false) :
    getCORSSafeImageUrl testImageLoad ipfsHash category
      = ⟨categoryFallback (categoryOrDefault category),
         CORS_SAFE_GATEWAYS.map (fun g => g ++ ipfsHash.toStr)⟩ := by
  unfold getCORSSafeImageUrl
  rw [probeGateways_all_fail _ _ _ hfail]
  simp [hvalid]

theorem getImageUrlSync_valid (ipfsHash category : JsVal)
    (hvalid : isValidIPFSHash ipfsHash = true) :
    getImageUrlSync ipfsHash category = .str ("https://ipfs.io/ipfs/" ++ ipfsHash.toStr) := by
  simp [getImageUrlSync, hvalid, CORS_SAFE_GATEWAYS]

/-- C11, the code at the failing input: for a valid address and the category `constructor`,
which has no fallback image, `getCORSSafeImageUrl` probes the six gateways in list order and,
when every probe fails, returns the function that the object literal `FALLBACK_IMAGES`
inherits under that name instead of the default fallback image. (The same defect as in
C10.) -/
theorem exhausted_race_for_inherited_category :
    isValidIPFSHash (.str sampleHash) = true ∧
    FALLBACK_IMAGES.lookup "constructor" = none ∧
    getCORSSafeImageUrl (fun _ => false) (.str sampleHash) (.str "constructor")
      = ⟨.obj "Object.prototype.constructor",
         CORS_SAFE_GATEWAYS.map (fun g => g ++ sampleHash)⟩ ∧
    JsVal.obj "Object.prototype.constructor" ≠ .str DEFAULT_FALLBACK := by
  refine ⟨by decide, by decide, ?_, by decide⟩
  rw [getCORSSafeImageUrl_all_fail _ _ _ (by decide) (fun _ _ => rfl)]
  decide

/-! ## Off-chain profile resolution: consistency of the resolver state -/

theorem JsMap.get_set_of_ne {β : Type} (m : JsMap β) (k k' : String) (v : β) (h : k' ≠ k) :
    (m.set k v).get k' = m.get k' := by
  induction m with
  | nil => simp [JsMap.set, JsMap.get, Ne.symm h]
  | cons e rest ih =>
    obtain ⟨k0, v0⟩ := e
    by_cases hk : k0 = k
    · subst hk
      simp [JsMap.set, JsMap.get, Ne.symm h]
    · by_cases hk' : k0 = k'
      · subst hk'
        simp [JsMap.set, JsMap.get, hk]
      · simp [JsMap.set, JsMap.get, hk, hk', ih]

theorem JsMap.get_delete_of_ne {β : Type} (m : JsMap β) (k k' : String) (h : k' ≠ k) :
    (m.delete k).get k' = m.get k' := by
  induction m with
  | nil => rfl
  | cons e rest ih =>
    obtain ⟨k0, v0⟩ := e
    by_cases hk : k0 = k
    · subst hk
      have hne : ¬ k0 = k' := fun h' => h h'.symm
      simpa [JsMap.delete, List.filter, JsMap.get, hne] using ih
    · by_cases hk' : k0 = k'
      · subst hk'
        simp [JsMap.delete, List.filter, JsMap.get, hk]
      · simpa [JsMap.delete, List.filter, JsMap.get, hk, hk'] using ih

theorem RoleFetcher.consistent_init : RoleFetcher.init.Consistent := by
  constructor <;> simp [RoleFetcher.init, JsMap.get]

theorem RoleFetcher.hash_ne_of_promise_ne (s : RoleFetcher) (hs : s.Consistent)
    (f g : RoleFetch) (hf : f ∈ s.running) (hg : g ∈ s.running) (hne : f.promise ≠ g.promise) :
    f.hash ≠ g.hash := by
  intro heq
  have h1 := hs.registered f hf
  have h2 := hs.registered g hg
  rw [heq, h2] at h1
  exact hne (Option.some.inj h1).symm

theorem RoleFetcher.consistent_remove (s : RoleFetcher) (hs : s.Consistent)
    (fetch : RoleFetch) (hmem : fetch ∈ s.running) (cache : JsMap RoleData)
    (value : Option RoleData)
    (hcache : ∀ k, k ≠ fetch.hash → cache.get k = s.ipfsCache.get k) :
    RoleFetcher.Consistent
      { s with
        ipfsCache := cache
        running := s.running.filter (fun f => decide (f.promise ≠ fetch.promise))
        settled := s.settled ++ [(fetch.promise, value)]
        fetchingPromises := s.fetchingPromises.delete fetch.hash } := by
  have hkeep : ∀ f, f ∈ s.running.filter (fun f => decide (f.promise ≠ fetch.promise)) →
      f ∈ s.running ∧ f.promise ≠ fetch.promise := by
    intro f hf
    simpa [List.mem_filter] using hf
  constructor
  · intro f hf
    obtain ⟨hf1, hf2⟩ := hkeep f hf
    have hne := RoleFetcher.hash_ne_of_promise_ne s hs f fetch hf1 hmem hf2
    simpa [JsMap.get_delete_of_ne _ _ _ hne] using hs.registered f hf1
  · intro hash promise hget
    have hne : hash ≠ fetch.hash := by
      intro heq
      subst heq
      simp [JsMap.get_delete_self] at hget
    simp only [JsMap.get_delete_of_ne _ _ _ hne] at hget
    obtain ⟨f, hf, hp, hh⟩ := hs.live hash promise hget
    refine ⟨f, ?_, hp, hh⟩
    have hpne : f.promise ≠ fetch.promise := by
      intro heq
      have := hs.unique f hf fetch hmem heq
      exact hne (by rw [← hh, this])
    simpa [List.mem_filter] using ⟨hf, hpne⟩
  · intro f hf
    obtain ⟨hf1, hf2⟩ := hkeep f hf
    have hne := RoleFetcher.hash_ne_of_promise_ne s hs f fetch hf1 hmem hf2
    simpa [hcache _ hne] using hs.uncached f hf1
  · intro f hf
    exact hs.fresh f (hkeep f hf).1
  · intro f hf g hg heq
    exact hs.unique f (hkeep f hf).1 g (hkeep g hg).1 heq
  · intro f hf
    exact hs.nonempty f (hkeep f hf).1
  · intro f hf
    obtain ⟨hf1, hf2⟩ := hkeep f hf
    have hbeq : (f.promise == fetch.promise) = false := by simpa using hf2
    simp [List.lookup_append, hs.pending f hf1, List.lookup, hbeq]
  · intro promise hle
    have hlt := hs.fresh fetch hmem
    have hle' : s.nextPromise ≤ promise := hle
    have hne : promise ≠ fetch.promise := by omega
    have hbeq : (promise == fetch.promise) = false := by simpa using hne
    simp [List.lookup_append, hs.unissued promise hle', List.lookup, hbeq]

theorem RoleFetcher.consistent_replace (s : RoleFetcher) (hs : s.Consistent)
    (fetch : RoleFetch) (hmem : fetch ∈ s.running) (rest : List String)
    (requests : List String) :
    RoleFetcher.Consistent
      { s with
        running := s.running.filter (fun f => decide (f.promise ≠ fetch.promise))
          ++ [{ promise := fetch.promise, hash := fetch.hash, remaining := rest }]
        requests := requests } := by
  have hcases : ∀ f, f ∈ s.running.filter (fun f => decide (f.promise ≠ fetch.promise))
        ++ [{ promise := fetch.promise, hash := fetch.hash, remaining := rest }] →
      (f ∈ s.running ∧ f.promise ≠ fetch.promise) ∨
      f = { promise := fetch.promise, hash := fetch.hash, remaining := rest } := by
    intro f hf
    simpa [List.mem_append, List.mem_filter] using hf
  constructor
  · intro f hf
    rcases hcases f hf with ⟨hf1, _⟩ | hf1
    · exact hs.registered f hf1
    · subst hf1; exact hs.registered fetch hmem
  · intro hash promise hget
    obtain ⟨f, hf, hp, hh⟩ := hs.live hash promise hget
    by_cases hpe : f.promise = fetch.promise
    · have hfe := hs.unique f hf fetch hmem hpe
      refine ⟨{ promise := fetch.promise, hash := fetch.hash, remaining := rest }, ?_, ?_, ?_⟩
      · simp [List.mem_append]
      · rw [← hp, hpe]
      · rw [← hh, hfe]
    · refine ⟨f, ?_, hp, hh⟩
      simp [List.mem_append, List.mem_filter, hf, hpe]
  · intro f hf
    rcases hcases f hf with ⟨hf1, _⟩ | hf1
    · exact hs.uncached f hf1
    · subst hf1; exact hs.uncached fetch hmem
  · intro f hf
    rcases hcases f hf with ⟨hf1, _⟩ | hf1
    · exact hs.fresh f hf1
    · subst hf1; exact hs.fresh fetch hmem
  · intro f hf g hg heq
    rcases hcases f hf with ⟨hf1, hf2⟩ | hf1 <;> rcases hcases g hg with ⟨hg1, hg2⟩ | hg1
    · exact hs.unique f hf1 g hg1 heq
    · subst hg1; exact absurd heq hf2
    · subst hf1; exact absurd heq.symm hg2
    · rw [hf1, hg1]
  · intro f hf
    rcases hcases f hf with ⟨hf1, _⟩ | hf1
    · exact hs.nonempty f hf1
    · subst hf1; exact hs.nonempty fetch hmem
  · intro f hf
    rcases hcases f hf with ⟨hf1, _⟩ | hf1
    · exact hs.pending f hf1
    · subst hf1; exact hs.pending fetch hmem
  · exact hs.unissued

theorem RoleFetcher.consistent_start (s : RoleFetcher) (hs : s.Consistent)
    (hash : String) (rest : List String) (requests : List String) (hne : hash ≠ "")
    (hcache : s.ipfsCache.get hash = none) (hflight : s.fetchingPromises.get hash = none) :
    RoleFetcher.Consistent
      { s with
        fetchingPromises := s.fetchingPromises.set hash s.nextPromise
        running := s.running.filter (fun f => decide (f.promise ≠ s.nextPromise))
          ++ [{ promise := s.nextPromise, hash := hash, remaining := rest }]
        requests := requests
        nextPromise := s.nextPromise + 1 } := by
  have hcases : ∀ f, f ∈ s.running.filter (fun f => decide (f.promise ≠ s.nextPromise))
        ++ [{ promise := s.nextPromise, hash := hash, remaining := rest }] →
      (f ∈ s.running ∧ f.promise ≠ s.nextPromise) ∨
      f = { promise := s.nextPromise, hash := hash, remaining := rest } := by
    intro f hf
    simpa [List.mem_append, List.mem_filter] using hf
  have hold : ∀ f ∈ s.running, f.hash ≠ hash := by
    intro f hf heq
    have := hs.registered f hf
    rw [heq, hflight] at this
    exact Option.noConfusion this
  constructor
  · intro f hf
    rcases hcases f hf with ⟨hf1, _⟩ | hf1
    · simpa [JsMap.get_set_of_ne _ _ _ _ (hold f hf1)] using hs.registered f hf1
    · subst hf1; exact JsMap.get_set_self _ _ _
  · intro key promise hget
    by_cases hk : key = hash
    · subst hk
      rw [JsMap.get_set_self] at hget
      refine ⟨{ promise := s.nextPromise, hash := key, remaining := rest }, ?_, ?_, rfl⟩
      · simp [List.mem_append]
      · exact Option.some.inj hget
    · simp only [JsMap.get_set_of_ne _ _ _ _ hk] at hget
      obtain ⟨f, hf, hp, hh⟩ := hs.live key promise hget
      refine ⟨f, ?_, hp, hh⟩
      have := hs.fresh f hf
      have hpne : f.promise ≠ s.nextPromise := by omega
      simp [List.mem_append, List.mem_filter, hf, hpne]
  · intro f hf
    rcases hcases f hf with ⟨hf1, _⟩ | hf1
    · exact hs.uncached f hf1
    · subst hf1; exact hcache
  · intro f hf
    rcases hcases f hf with ⟨hf1, _⟩ | hf1
    · exact Nat.lt_succ_of_lt (hs.fresh f hf1)
    · subst hf1; exact Nat.lt_succ_self _
  · intro f hf g hg heq
    rcases hcases f hf with ⟨hf1, hf2⟩ | hf1 <;> rcases hcases g hg with ⟨hg1, hg2⟩ | hg1
    · exact hs.unique f hf1 g hg1 heq
    · subst hg1; exact absurd heq hf2
    · subst hf1; exact absurd heq.symm hg2
    · rw [hf1, hg1]
  · intro f hf
    rcases hcases f hf with ⟨hf1, _⟩ | hf1
    · exact hs.nonempty f hf1
    · subst hf1; exact hne
  · intro f hf
    rcases hcases f hf with ⟨hf1, _⟩ | hf1
    · exact hs.pending f hf1
    · subst hf1; exact hs.unissued _ (Nat.le_refl _)
  · intro promise hle
    have hle' : s.nextPromise + 1 ≤ promise := hle
    exact hs.unissued promise (by omega)

theorem fetchUserRole_start (s : RoleFetcher) (hash : String) (hne : hash ≠ "")
    (hcache : s.ipfsCache.get hash = none) (hflight : s.fetchingPromises.get hash = none) :
    fetchUserRole (.str hash) s
      = (.awaiting s.nextPromise,
          { s with
            fetchingPromises := s.fetchingPromises.set hash s.nextPromise
            running := s.running.filter (fun f => decide (f.promise ≠ s.nextPromise))
              ++ [{ promise := s.nextPromise, hash := hash,
                    remaining := ["https://ipfs.io/ipfs/", "https://cloudflare-ipfs.com/ipfs/",
                                  "https://dweb.link/ipfs/"] }]
            requests := s.requests ++ ["https://gateway.pinata.cloud/ipfs/" ++ hash]
            nextPromise := s.nextPromise + 1 }) := by
  simp [fetchUserRole, JsVal.truthy, JsVal.isString, JsVal.toStr, hne, hcache, hflight,
    tryGateways, ROLE_GATEWAYS]

theorem fetchUserRole_join (s : RoleFetcher) (hs : s.Consistent) (f : RoleFetch)
    (hf : f ∈ s.running) :
    fetchUserRole (.str f.hash) s = (.awaiting f.promise, s) := by
  simp [fetchUserRole, JsVal.truthy, JsVal.isString, JsVal.toStr, hs.nonempty f hf,
    hs.uncached f hf, hs.registered f hf]

theorem fetchUserRole_cached (s : RoleFetcher) (hash : String) (hne : hash ≠ "")
    (value : RoleData) (hcache : s.ipfsCache.get hash = some value) :
    fetchUserRole (.str hash) s = (.returned (some value), s) := by
  simp [fetchUserRole, JsVal.truthy, JsVal.isString, JsVal.toStr, hne, hcache]

theorem fetchUserRole_consistent (s : RoleFetcher) (hs : s.Consistent)
    (profileIPFSHash : JsVal) : (fetchUserRole profileIPFSHash s).2.Consistent := by
  by_cases hvalid : (!profileIPFSHash.truthy || !profileIPFSHash.isString) = true
  · simpa [fetchUserRole, hvalid] using hs
  · cases profileIPFSHash with
    | str hash =>
      have hne : hash ≠ "" := by
        intro h
        simp [JsVal.truthy, JsVal.isString, h] at hvalid
      cases hcache : s.ipfsCache.get hash with
      | some cached => rw [fetchUserRole_cached s hash hne cached hcache]; exact hs
      | none =>
        cases hflight : s.fetchingPromises.get hash with
        | some promise =>
          have : fetchUserRole (.str hash) s = (.awaiting promise, s) := by
            simp [fetchUserRole, JsVal.truthy, JsVal.isString, JsVal.toStr, hne, hcache,
              hflight]
          rw [this]; exact hs
        | none =>
          rw [fetchUserRole_start s hash hne hcache hflight]
          exact RoleFetcher.consistent_start s hs hash _ _ hne hcache hflight
    | _ => simp [JsVal.truthy, JsVal.isString] at hvalid

theorem gatewayResponds_consistent (s : RoleFetcher) (hs : s.Consistent) (promise : Nat)
    (outcome : GatewayOutcome) : (gatewayResponds promise outcome s).Consistent := by
  unfold gatewayResponds
  cases hfind : s.running.find? (fun f => decide (f.promise = promise)) with
  | none => exact hs
  | some fetch =>
    have hmem : fetch ∈ s.running := List.mem_of_find?_eq_some hfind
    have hp : fetch.promise = promise := by
      simpa using List.find?_some hfind
    subst hp
    cases outcome with
    | parsed profileData =>
      exact RoleFetcher.consistent_remove s hs fetch hmem _ _
        (fun k hk => JsMap.get_set_of_ne _ _ _ _ hk)
    | failed =>
      cases hrem : fetch.remaining with
      | nil =>
        simp only [tryGateways, hrem]
        exact RoleFetcher.consistent_remove s hs fetch hmem _ _ (fun _ _ => rfl)
      | cons gateway rest =>
        simp only [tryGateways, hrem]
        exact RoleFetcher.consistent_replace s hs fetch hmem rest _

theorem RoleFetcher.consistent_step (s : RoleFetcher) (hs : s.Consistent) (event : RoleEvent) :
    (s.step event).Consistent := by
  cases event with
  | call profileIPFSHash => exact fetchUserRole_consistent s hs profileIPFSHash
  | respond promise outcome => exact gatewayResponds_consistent s hs promise outcome

theorem RoleFetcher.consistent_run (events : List RoleEvent) (s : RoleFetcher)
    (hs : s.Consistent) : (s.run events).Consistent := by
  induction events generalizing s with
  | nil => exact hs
  | cons event rest ih => exact ih (s.step event) (RoleFetcher.consistent_step s hs event)

theorem RoleFetcher.find_running (s : RoleFetcher) (hs : s.Consistent) (fetch : RoleFetch)
    (hmem : fetch ∈ s.running) :
    s.running.find? (fun f => decide (f.promise = fetch.promise)) = some fetch := by
  cases hfind : s.running.find? (fun f => decide (f.promise = fetch.promise)) with
  | none =>
    rw [List.find?_eq_none] at hfind
    exact absurd (by simp) (hfind fetch hmem)
  | some found =>
    have h1 : found ∈ s.running := List.mem_of_find?_eq_some hfind
    have h2 : found.promise = fetch.promise := by simpa using List.find?_some hfind
    rw [hs.unique found h1 fetch hmem h2]

theorem RoleFetcher.reachable_consistent (s : RoleFetcher) (h : s.Reachable) :
    s.Consistent := by
  obtain ⟨events, rfl⟩ := h
  exact RoleFetcher.consistent_run events _ RoleFetcher.consistent_init

theorem fetchUserRole_cache (profileIPFSHash : JsVal) (s : RoleFetcher) :
    (fetchUserRole profileIPFSHash s).2.ipfsCache = s.ipfsCache := by
  unfold fetchUserRole
  split
  · rfl
  · split
    · rfl
    · split
      · rfl
      · simp [tryGateways, ROLE_GATEWAYS]

theorem RoleFetcher.cache_persists (events : List RoleEvent) (s : RoleFetcher)
    (hs : s.Consistent) (hash : String) (value : RoleData)
    (hcache : s.ipfsCache.get hash = some value) :
    (s.run events).ipfsCache.get hash = some value := by
  induction events generalizing s with
  | nil => exact hcache
  | cons event rest ih =>
    refine ih (s.step event) (RoleFetcher.consistent_step s hs event) ?_
    cases event with
    | call profileIPFSHash =>
      simp only [RoleFetcher.step, fetchUserRole_cache]
      exact hcache
    | respond promise outcome =>
      simp only [RoleFetcher.step, gatewayResponds]
      cases hfind : s.running.find? (fun f => decide (f.promise = promise)) with
      | none => exact hcache
      | some fetch =>
        have hmem : fetch ∈ s.running := List.mem_of_find?_eq_some hfind
        have hne : hash ≠ fetch.hash := by
          intro heq
          have := hs.uncached fetch hmem
          rw [← heq, hcache] at this
          exact Option.noConfusion this
        cases outcome with
        | parsed profileData =>
          simpa [JsMap.get_set_of_ne _ _ _ _ hne] using hcache
        | failed =>
          cases hrem : fetch.remaining <;> simpa [tryGateways, hrem] using hcache

theorem RoleFetcher.run_joins (s : RoleFetcher) (hs : s.Consistent) (f : RoleFetch)
    (hf : f ∈ s.running) (n : Nat) :
    s.run (List.replicate n (.call (.str f.hash))) = s := by
  induction n with
  | zero => rfl
  | succ n ih =>
    simp only [List.replicate_succ, RoleFetcher.run, List.foldl_cons, RoleFetcher.step,
      fetchUserRole_join s hs f hf]
    exact ih

/-- C13: in every state the resolver reaches by calls and gateway responses, each content
address has at most one suspended fetch promise, and it is the one `fetchingPromises` holds
for that address. A call for an address that is being fetched awaits that promise and leaves
the whole state, the request log included, unchanged, and so do any number of such calls.
When the awaited gateway answers with a document, the promise resolves with the role data
built from it, and from then on every call for that address returns this role data from the
cache without changing the state (no request). -/
theorem role_fetch_single_flight (s : RoleFetcher) (hreach : s.Reachable) :
    (∀ f ∈ s.running, ∀ g ∈ s.running, f.hash = g.hash → f = g) ∧
    (∀ f ∈ s.running,
      s.fetchingPromises.get f.hash = some f.promise ∧
      s.valueOf f.promise = none ∧
      fetchUserRole (.str f.hash) s = (.awaiting f.promise, s) ∧
      (∀ n, s.run (List.replicate n (.call (.str f.hash))) = s) ∧
      ∀ profileData,
        (gatewayResponds f.promise (.parsed profileData) s).valueOf f.promise
          = some (some (roleResult profileData)) ∧
        ∀ later : List RoleEvent,
          fetchUserRole (.str f.hash)
              ((gatewayResponds f.promise (.parsed profileData) s).run later)
            = (.returned (some (roleResult profileData)),
               (gatewayResponds f.promise (.parsed profileData) s).run later)) := by
  have hs := RoleFetcher.reachable_consistent s hreach
  constructor
  · intro f hf g hg heq
    by_cases hp : f.promise = g.promise
    · exact hs.unique f hf g hg hp
    · exact absurd heq (RoleFetcher.hash_ne_of_promise_ne s hs f g hf hg hp)
  · intro f hf
    refine ⟨hs.registered f hf, hs.pending f hf, fetchUserRole_join s hs f hf,
      RoleFetcher.run_joins s hs f hf, ?_⟩
    intro profileData
    have hshape : gatewayResponds f.promise (.parsed profileData) s
        = { s with
            ipfsCache := s.ipfsCache.set f.hash (roleResult profileData)
            running := s.running.filter (fun g => decide (g.promise ≠ f.promise))
            settled := s.settled ++ [(f.promise, some (roleResult profileData))]
            fetchingPromises := s.fetchingPromises.delete f.hash } := by
      simp [gatewayResponds, RoleFetcher.find_running s hs f hf]
    constructor
    · rw [hshape]
      simp [RoleFetcher.valueOf, List.lookup_append, hs.pending f hf, List.lookup]
    · intro later
      have hcons := gatewayResponds_consistent s hs f.promise (.parsed profileData)
      have hcached : (gatewayResponds f.promise (.parsed profileData) s).ipfsCache.get f.hash
          = some (roleResult profileData) := by
        rw [hshape]
        exact JsMap.get_set_self _ _ _
      exact fetchUserRole_cached _ f.hash (hs.nonempty f hf) _
        (RoleFetcher.cache_persists later _ hcons f.hash _ hcached)

/-- C13, at a concrete run: after two calls for the same address one fetch promise is
suspended, and a third call awaits it without changing the state. -/
theorem role_fetch_single_flight_witness :
    (RoleFetcher.init.run [.call (.str sampleHash), .call (.str sampleHash)]).running.length = 1 ∧
    fetchUserRole (.str sampleHash)
        (RoleFetcher.init.run [.call (.str sampleHash), .call (.str sampleHash)])
      = (.awaiting 0, RoleFetcher.init.run [.call (.str sampleHash), .call (.str sampleHash)]) :=
  ⟨by decide,
   ((role_fetch_single_flight
      (RoleFetcher.init.run [.call (.str sampleHash), .call (.str sampleHash)])
      ⟨_, rfl⟩).2
      { promise := 0, hash := sampleHash,
        remaining := ["https://ipfs.io/ipfs/", "https://cloudflare-ipfs.com/ipfs/",
                      "https://dweb.link/ipfs/"] }
      (by decide)).2.2.1⟩

theorem RoleFetcher.run_append (s : RoleFetcher) (xs ys : List RoleEvent) :
    s.run (xs ++ ys) = (s.run xs).run ys := by
  simp [RoleFetcher.run, List.foldl_append]

theorem RoleFetcher.exhaust (remaining : List String) (s : RoleFetcher) (hs : s.Consistent)
    (fetch : RoleFetch) (hmem : fetch ∈ s.running) (hrem : fetch.remaining = remaining) :
    (s.run (List.replicate (remaining.length + 1) (.respond fetch.promise .failed))).valueOf
        fetch.promise = some none ∧
    (s.run (List.replicate (remaining.length + 1) (.respond fetch.promise .failed))).ipfsCache
      = s.ipfsCache ∧
    (s.run (List.replicate (remaining.length + 1)
        (.respond fetch.promise .failed))).fetchingPromises.get fetch.hash = none ∧
    (∀ f ∈ (s.run (List.replicate (remaining.length + 1)
        (.respond fetch.promise .failed))).running, f.hash ≠ fetch.hash) ∧
    (s.run (List.replicate (remaining.length + 1) (.respond fetch.promise .failed))).requests
      = s.requests ++ remaining.map (fun g => g ++ fetch.hash) := by
  induction remaining generalizing s fetch with
  | nil =>
    have hstep : s.run (List.replicate (0 + 1) (.respond fetch.promise .failed))
        = { s with
            running := s.running.filter (fun f => decide (f.promise ≠ fetch.promise))
            settled := s.settled ++ [(fetch.promise, none)]
            fetchingPromises := s.fetchingPromises.delete fetch.hash } := by
      simp [RoleFetcher.run, RoleFetcher.step, gatewayResponds,
        RoleFetcher.find_running s hs fetch hmem, tryGateways, hrem]
    simp only [List.length_nil]
    rw [hstep]
    refine ⟨?_, rfl, JsMap.get_delete_self _ _, ?_, by simp⟩
    · simp [RoleFetcher.valueOf, List.lookup_append, hs.pending fetch hmem, List.lookup]
    · intro f hf
      have hf' : f ∈ s.running ∧ f.promise ≠ fetch.promise := by
        simpa [List.mem_filter] using hf
      exact RoleFetcher.hash_ne_of_promise_ne s hs f fetch hf'.1 hmem hf'.2
  | cons gateway rest ih =>
    have hstep : s.step (.respond fetch.promise .failed)
        = { s with
            running := s.running.filter (fun f => decide (f.promise ≠ fetch.promise))
              ++ [{ promise := fetch.promise, hash := fetch.hash, remaining := rest }]
            requests := s.requests ++ [gateway ++ fetch.hash] } := by
      simp [RoleFetcher.step, gatewayResponds, RoleFetcher.find_running s hs fetch hmem,
        tryGateways, hrem]
    have hcons := RoleFetcher.consistent_replace s hs fetch hmem rest
      (s.requests ++ [gateway ++ fetch.hash])
    have hnext := ih _ hcons { promise := fetch.promise, hash := fetch.hash, remaining := rest }
      (by simp [List.mem_append]) rfl
    have hrun : s.run (List.replicate ((gateway :: rest).length + 1)
          (.respond fetch.promise .failed))
        = ({ s with
            running := s.running.filter (fun f => decide (f.promise ≠ fetch.promise))
              ++ [{ promise := fetch.promise, hash := fetch.hash, remaining := rest }]
            requests := s.requests ++ [gateway ++ fetch.hash] } : RoleFetcher).run
          (List.replicate (rest.length + 1) (.respond fetch.promise .failed)) := by
      rw [← hstep]
      simp [List.replicate_succ, RoleFetcher.run]
    rw [hrun]
    refine ⟨hnext.1, hnext.2.1, hnext.2.2.1, hnext.2.2.2.1, ?_⟩
    rw [hnext.2.2.2.2]
    simp

/-- C12: for a non-empty string address that is neither cached nor being fetched, in a
state reached by calls and gateway responses: `fetchUserRole` suspends on a new fetch
promise, and when each of the four gateway attempts fails, the promise resolves with `null`
(nothing is thrown), the cache is exactly what it was, so nothing is cached for the address,
`fetchingPromises` holds no entry for it, no fetch promise for it is left suspended, and the
four gateways have been requested in order. A call for an address that is already being
fetched awaits the suspended promise, and when the attempts that promise has left all fail
it resolves with `null` in the same way. -/
theorem role_fetch_all_gateways_fail (s : RoleFetcher) (hash : String)
    (hreach : s.Reachable) (hne : hash ≠ "")
    (hcache : s.ipfsCache.get hash = none) (hflight : s.fetchingPromises.get hash = none) :
    (fetchUserRole (.str hash) s).1 = .awaiting s.nextPromise ∧
    ((fetchUserRole (.str hash) s).2.run
        (List.replicate 4 (.respond s.nextPromise .failed))).valueOf s.nextPromise
      = some none ∧
    ((fetchUserRole (.str hash) s).2.run
        (List.replicate 4 (.respond s.nextPromise .failed))).ipfsCache = s.ipfsCache ∧
    ((fetchUserRole (.str hash) s).2.run
        (List.replicate 4 (.respond s.nextPromise .failed))).ipfsCache.get hash = none ∧
    ((fetchUserRole (.str hash) s).2.run
        (List.replicate 4 (.respond s.nextPromise .failed))).fetchingPromises.get hash
      = none ∧
    (∀ f ∈ ((fetchUserRole (.str hash) s).2.run
        (List.replicate 4 (.respond s.nextPromise .failed))).running, f.hash ≠ hash) ∧
    ((fetchUserRole (.str hash) s).2.run
        (List.replicate 4 (.respond s.nextPromise .failed))).requests
      = s.requests ++ ROLE_GATEWAYS.map (fun g => g ++ hash) ∧
    (∀ f ∈ s.running,
      fetchUserRole (.str f.hash) s = (.awaiting f.promise, s) ∧
      (s.run (List.replicate (f.remaining.length + 1)
          (.respond f.promise .failed))).valueOf f.promise = some none ∧
      (s.run (List.replicate (f.remaining.length + 1)
          (.respond f.promise .failed))).ipfsCache = s.ipfsCache ∧
      (s.run (List.replicate (f.remaining.length + 1)
          (.respond f.promise .failed))).fetchingPromises.get f.hash = none) := by
  have hs := RoleFetcher.reachable_consistent s hreach
  have hjoin : ∀ f ∈ s.running,
      fetchUserRole (.str f.hash) s = (.awaiting f.promise, s) ∧
      (s.run (List.replicate (f.remaining.length + 1)
          (.respond f.promise .failed))).valueOf f.promise = some none ∧
      (s.run (List.replicate (f.remaining.length + 1)
          (.respond f.promise .failed))).ipfsCache = s.ipfsCache ∧
      (s.run (List.replicate (f.remaining.length + 1)
          (.respond f.promise .failed))).fetchingPromises.get f.hash = none :=
    fun f hf =>
      ⟨fetchUserRole_join s hs f hf,
       (RoleFetcher.exhaust f.remaining s hs f hf rfl).1,
       (RoleFetcher.exhaust f.remaining s hs f hf rfl).2.1,
       (RoleFetcher.exhaust f.remaining s hs f hf rfl).2.2.1⟩
  have hstart := fetchUserRole_start s hash hne hcache hflight
  have hcons := fetchUserRole_consistent s hs (.str hash)
  rw [hstart] at hcons
  have h := RoleFetcher.exhaust
    ["https://ipfs.io/ipfs/", "https://cloudflare-ipfs.com/ipfs/", "https://dweb.link/ipfs/"]
    _ hcons
    { promise := s.nextPromise, hash := hash,
      remaining := ["https://ipfs.io/ipfs/", "https://cloudflare-ipfs.com/ipfs/",
                    "https://dweb.link/ipfs/"] }
    (by simp [List.mem_append]) rfl
  refine ⟨?_, ?_, ?_, ?_, ?_, ?_, ?_, hjoin⟩
  · rw [hstart]
  · rw [hstart]; exact h.1
  · rw [hstart]; exact h.2.1
  · rw [hstart]
    exact (congrArg (fun cache => JsMap.get cache hash) h.2.1).trans hcache
  · rw [hstart]; exact h.2.2.1
  · rw [hstart]; exact h.2.2.2.1
  · rw [hstart]
    exact h.2.2.2.2.trans (by simp [ROLE_GATEWAYS])

/-- C12, at a concrete input: a first call for `sampleHash` on a fresh provider, all four
gateways failing. -/
theorem role_fetch_all_gateways_fail_witness :
    ((fetchUserRole (.str sampleHash) RoleFetcher.init).2.run
        (List.replicate 4 (.respond 0 .failed))).valueOf 0 = some none ∧
    ((fetchUserRole (.str sampleHash) RoleFetcher.init).2.run
        (List.replicate 4 (.respond 0 .failed))).ipfsCache = [] ∧
    ((fetchUserRole (.str sampleHash) RoleFetcher.init).2.run
        (List.replicate 4 (.respond 0 .failed))).fetchingPromises.get sampleHash = none :=
  have h := role_fetch_all_gateways_fail RoleFetcher.init sampleHash ⟨[], rfl⟩ (by decide)
    rfl rfl
  ⟨h.2.1, h.2.2.1, h.2.2.2.2.1⟩

/-! ## The image loader: one race per key -/

theorem ImageLoaderState.fresh_init : ImageLoaderState.init.Fresh := by
  constructor <;> simp [ImageLoaderState.init]

theorem ImageLoaderState.fresh_step (s : ImageLoaderState) (hs : s.Fresh) (event : ImageEvent) :
    (s.step event).Fresh := by
  cases event with
  | load ipfsHash category =>
    simp only [ImageLoaderState.step, ImageLoaderState.loadImage]
    split
    · constructor
      · intro r hr; exact Nat.lt_succ_of_lt (hs.races r hr)
      · intro p hp; exact Nat.lt_succ_of_lt (hs.polling p hp)
      · intro caller hle
        have hle' : s.nextCaller + 1 ≤ caller := hle
        have hne : (caller == s.nextCaller) = false := by
          have : caller ≠ s.nextCaller := by omega
          simpa using this
        simp [List.lookup_append, hs.resolved caller (by omega), List.lookup, hne]
    · split
      · constructor
        · intro r hr; exact Nat.lt_succ_of_lt (hs.races r hr)
        · intro p hp
          rcases List.mem_append.mp hp with hp' | hp'
          · exact Nat.lt_succ_of_lt (hs.polling p hp')
          · have hp'' := List.mem_singleton.mp hp'
            subst hp''; exact Nat.lt_succ_self _
        · intro caller hle
          have hle' : s.nextCaller + 1 ≤ caller := hle
          exact hs.resolved caller (by omega)
      · constructor
        · intro r hr
          rcases List.mem_append.mp hr with hr' | hr'
          · exact Nat.lt_succ_of_lt (hs.races r hr')
          · have hr'' := List.mem_singleton.mp hr'
            subst hr''; exact Nat.lt_succ_self _
        · intro p hp; exact Nat.lt_succ_of_lt (hs.polling p hp)
        · intro caller hle
          have hle' : s.nextCaller + 1 ≤ caller := hle
          exact hs.resolved caller (by omega)
  | settle caller url =>
    simp only [ImageLoaderState.step, ImageLoaderState.raceSettles]
    cases hfind : s.races.find? (fun r => decide (r.caller = caller)) with
    | none => exact hs
    | some load =>
      have hmem : load ∈ s.races := List.mem_of_find?_eq_some hfind
      have hcaller : load.caller = caller := by simpa using List.find?_some hfind
      have hlt := hs.races load hmem
      constructor
      · intro r hr
        exact hs.races r (List.mem_of_mem_filter hr)
      · exact hs.polling
      · intro c hle
        have hle' : s.nextCaller ≤ c := hle
        have hne : (c == caller) = false := by
          have : c ≠ caller := by omega
          simpa using this
        simp [List.lookup_append, hs.resolved c hle', List.lookup, hne]
  | tick caller =>
    simp only [ImageLoaderState.step, ImageLoaderState.poll]
    cases hfind : s.polling.find? (fun p => decide (p.caller = caller)) with
    | none => exact hs
    | some waiting =>
      have hmem : waiting ∈ s.polling := List.mem_of_find?_eq_some hfind
      have hcaller : waiting.caller = caller := by simpa using List.find?_some hfind
      have hlt := hs.polling waiting hmem
      cases hget : s.cache.get waiting.cacheKey with
      | none => simpa [hget] using hs
      | some url =>
        simp only [hget]
        constructor
        · exact hs.races
        · intro p hp
          exact hs.polling p (List.mem_of_mem_filter hp)
        · intro c hle
          have hle' : s.nextCaller ≤ c := hle
          have hne : (c == caller) = false := by
            have : c ≠ caller := by omega
            simpa using this
          simp [List.lookup_append, hs.resolved c hle', List.lookup, hne]

theorem ImageLoaderState.fresh_run (events : List ImageEvent) (s : ImageLoaderState)
    (hs : s.Fresh) : (s.run events).Fresh := by
  induction events generalizing s with
  | nil => exact hs
  | cons event rest ih => exact ih (s.step event) (ImageLoaderState.fresh_step s hs event)

theorem ImageLoaderState.reachable_fresh (s : ImageLoaderState) (h : s.Reachable) :
    s.Fresh := by
  obtain ⟨events, rfl⟩ := h
  exact ImageLoaderState.fresh_run events _ ImageLoaderState.fresh_init

theorem find_pollsFrom (cacheKey : String) (n : Nat) (caller i : Nat) (hi : i < n) :
    (pollsFrom caller cacheKey n).find? (fun p => decide (p.caller = caller + i))
      = some { caller := caller + i, cacheKey := cacheKey } := by
  induction n generalizing caller i with
  | zero => omega
  | succ n ih =>
    cases i with
    | zero => simp [pollsFrom]
    | succ i =>
      have hne : ¬ caller = caller + (i + 1) := by omega
      have hrec := ih (caller + 1) i (by omega)
      have harith : caller + 1 + i = caller + (i + 1) := by omega
      rw [harith] at hrec
      simp [pollsFrom, hne, hrec]

theorem ImageLoaderState.run_joiners (ipfsHash category : JsVal) (n : Nat)
    (t : ImageLoaderState)
    (hcache : t.cache.get (ipfsHash.toStr ++ "-" ++ category.toStr) = none)
    (hloading : (ipfsHash.toStr ++ "-" ++ category.toStr) ∈ t.loading) :
    t.run (List.replicate n (.load ipfsHash category))
      = { t with
          polling := t.polling ++
            pollsFrom t.nextCaller (ipfsHash.toStr ++ "-" ++ category.toStr) n
          nextCaller := t.nextCaller + n } := by
  induction n generalizing t with
  | zero => simp [ImageLoaderState.run, pollsFrom]
  | succ n ih =>
    have hstep : t.step (.load ipfsHash category)
        = { t with
            polling := t.polling ++
              [{ caller := t.nextCaller,
                 cacheKey := ipfsHash.toStr ++ "-" ++ category.toStr }]
            nextCaller := t.nextCaller + 1 } := by
      simp [ImageLoaderState.step, ImageLoaderState.loadImage, hcache, hloading]
    have hrun : t.run (List.replicate (n + 1) (.load ipfsHash category))
        = (t.step (.load ipfsHash category)).run
            (List.replicate n (.load ipfsHash category)) := by
      simp [List.replicate_succ, ImageLoaderState.run]
    rw [hrun, hstep]
    rw [ih { t with
             polling := t.polling ++
               [{ caller := t.nextCaller,
                  cacheKey := ipfsHash.toStr ++ "-" ++ category.toStr }]
             nextCaller := t.nextCaller + 1 } hcache hloading]
    simp [pollsFrom, Nat.add_assoc, Nat.add_comm 1 n]

theorem find_filter_other (polling : List ImagePoll) (c d : Nat) (h : c ≠ d) :
    (polling.filter (fun p => decide (p.caller ≠ c))).find? (fun p => decide (p.caller = d))
      = polling.find? (fun p => decide (p.caller = d)) := by
  have hpred : (fun a : ImagePoll =>
        decide (decide (a.caller ≠ c) = true ∧ decide (a.caller = d) = true))
      = (fun p => decide (p.caller = d)) := by
    funext a
    by_cases hd : a.caller = d
    · have hc : a.caller ≠ c := fun hc => h (hc.symm.trans hd)
      rw [decide_eq_true hc, decide_eq_true hd]
      rfl
    · rw [decide_eq_false hd]
      simp
  rw [List.find?_filter, hpred]

theorem ImageLoaderState.poll_resolved_persists (t : ImageLoaderState) (c d : Nat)
    (value : JsVal) (h : t.resolved.lookup d = some value) :
    (t.poll c).resolved.lookup d = some value := by
  unfold ImageLoaderState.poll
  split
  · exact h
  · split
    · simp [List.lookup_append, h]
    · exact h

theorem ImageLoaderState.poll_settled (t : ImageLoaderState) (cacheKey : String) (url : JsVal)
    (c d : Nat) (hcache : t.cache.get cacheKey = some url)
    (hd : (t.polling.find? (fun p => decide (p.caller = d))
            = some { caller := d, cacheKey := cacheKey } ∧ t.resolved.lookup d = none) ∨
          t.resolved.lookup d = some url) :
    (t.poll c).cache.get cacheKey = some url ∧
    (((t.poll c).polling.find? (fun p => decide (p.caller = d))
        = some { caller := d, cacheKey := cacheKey } ∧ (t.poll c).resolved.lookup d = none) ∨
      (t.poll c).resolved.lookup d = some url) ∧
    (c = d → (t.poll c).resolved.lookup d = some url) := by
  rcases hd with ⟨hfind, hnone⟩ | hdone
  · by_cases hcd : c = d
    · subst hcd
      have hpoll : t.poll c
          = { t with
              resolved := t.resolved ++ [(c, url)]
              polling := t.polling.filter (fun p => decide (p.caller ≠ c)) } := by
        simp [ImageLoaderState.poll, hfind, hcache]
      rw [hpoll]
      have hlook : (t.resolved ++ [(c, url)]).lookup c = some url := by
        simp [List.lookup_append, hnone, List.lookup]
      exact ⟨hcache, Or.inr hlook, fun _ => hlook⟩
    · refine ⟨?_, ?_, fun h => absurd h hcd⟩
      · unfold ImageLoaderState.poll
        split
        · exact hcache
        · split <;> exact hcache
      · left
        unfold ImageLoaderState.poll
        split
        · exact ⟨hfind, hnone⟩
        · split
          · have hne : (d == c) = false := by
              have : d ≠ c := fun h => hcd h.symm
              simpa using this
            refine ⟨?_, ?_⟩
            · rw [find_filter_other t.polling c d hcd]
              exact hfind
            · simp [List.lookup_append, hnone, List.lookup, hne]
          · exact ⟨hfind, hnone⟩
  · refine ⟨?_, Or.inr (ImageLoaderState.poll_resolved_persists t c d url hdone),
      fun _ => ImageLoaderState.poll_resolved_persists t c d url hdone⟩
    unfold ImageLoaderState.poll
    split
    · exact hcache
    · split <;> exact hcache

theorem ImageLoaderState.ticks_keep_resolved (ticks : List Nat) (t : ImageLoaderState)
    (d : Nat) (value : JsVal) (h : t.resolved.lookup d = some value) :
    (t.run (ticks.map ImageEvent.tick)).resolved.lookup d = some value := by
  induction ticks generalizing t with
  | nil => exact h
  | cons c rest ih =>
    exact ih (t.poll c) (ImageLoaderState.poll_resolved_persists t c d value h)

theorem ImageLoaderState.ticks_resolve (ticks : List Nat) (t : ImageLoaderState)
    (cacheKey : String) (url : JsVal) (d : Nat) (hcache : t.cache.get cacheKey = some url)
    (hd : (t.polling.find? (fun p => decide (p.caller = d))
            = some { caller := d, cacheKey := cacheKey } ∧ t.resolved.lookup d = none) ∨
          t.resolved.lookup d = some url)
    (hmem : d ∈ ticks) :
    (t.run (ticks.map ImageEvent.tick)).resolved.lookup d = some url := by
  induction ticks generalizing t with
  | nil => simp at hmem
  | cons c rest ih =>
    have hstep := ImageLoaderState.poll_settled t cacheKey url c d hcache hd
    by_cases hcd : c = d
    · exact ImageLoaderState.ticks_keep_resolved rest (t.poll c) d url (hstep.2.2 hcd)
    · have hrest : d ∈ rest := by
        rcases List.mem_cons.mp hmem with h | h
        · exact absurd h.symm hcd
        · exact h
      exact ih (t.poll c) hstep.1 hstep.2.1 hrest

/-- C14: in a state the loader reaches by `loadImage` calls, settling races and timer ticks,
take a key that is neither cached nor loading. The first `loadImage(H, C)` starts a gateway
race, and any number `n` of further `loadImage(H, C)` calls made while it is pending start
none: the log of `getCORSSafeImageUrl` calls grows by exactly the one entry `(H, C)`. A
timer tick of a waiting call before the race settles changes nothing. When the race settles
with a URL, the first caller returns that URL, and each waiting caller returns the same URL
at its next timer tick, in whatever order the waiting callers tick. -/
theorem image_loader_single_race (s : ImageLoaderState) (hreach : s.Reachable)
    (ipfsHash category : JsVal) (n : Nat) (url : JsVal)
    (hcache : s.cache.get (ipfsHash.toStr ++ "-" ++ category.toStr) = none)
    (hloading : (ipfsHash.toStr ++ "-" ++ category.toStr) ∉ s.loading) :
    ((s.loadImage ipfsHash category).run
        (List.replicate n (.load ipfsHash category))).started
      = s.started ++ [(ipfsHash, category)] ∧
    (((s.loadImage ipfsHash category).run
        (List.replicate n (.load ipfsHash category))).raceSettles s.nextCaller
          (.ok url)).resolved.lookup s.nextCaller = some url ∧
    ∀ i, i < n →
      ((s.loadImage ipfsHash category).run
          (List.replicate n (.load ipfsHash category))).poll (s.nextCaller + 1 + i)
        = (s.loadImage ipfsHash category).run (List.replicate n (.load ipfsHash category)) ∧
      ((((s.loadImage ipfsHash category).run
          (List.replicate n (.load ipfsHash category))).raceSettles s.nextCaller
            (.ok url)).poll (s.nextCaller + 1 + i)).resolved.lookup (s.nextCaller + 1 + i)
        = some url ∧
      ∀ ticks : List Nat, (s.nextCaller + 1 + i) ∈ ticks →
        ((((s.loadImage ipfsHash category).run
            (List.replicate n (.load ipfsHash category))).raceSettles s.nextCaller
              (.ok url)).run (ticks.map ImageEvent.tick)).resolved.lookup
            (s.nextCaller + 1 + i)
          = some url := by
  have hs := ImageLoaderState.reachable_fresh s hreach
  have hfirst : s.loadImage ipfsHash category
      = { s with
          loading := s.loading ++ [ipfsHash.toStr ++ "-" ++ category.toStr]
          races := s.races ++
            [{ caller := s.nextCaller, cacheKey := ipfsHash.toStr ++ "-" ++ category.toStr,
               ipfsHash := ipfsHash, category := category }]
          started := s.started ++ [(ipfsHash, category)]
          nextCaller := s.nextCaller + 1 } := by
    simp [ImageLoaderState.loadImage, hcache, hloading]
  have hjoined := ImageLoaderState.run_joiners ipfsHash category n
    (s.loadImage ipfsHash category) (by rw [hfirst]; exact hcache)
    (by rw [hfirst]; simp)
  rw [hjoined, hfirst]
  have hraces : s.races.find? (fun r => decide (r.caller = s.nextCaller)) = none := by
    rw [List.find?_eq_none]
    intro r hr
    have := hs.races r hr
    simp only [decide_eq_true_eq]
    omega
  have hpolls : ∀ i, s.polling.find? (fun p => decide (p.caller = s.nextCaller + 1 + i))
      = none := by
    intro i
    rw [List.find?_eq_none]
    intro p hp
    have := hs.polling p hp
    simp only [decide_eq_true_eq]
    omega
  have hold := hs.resolved s.nextCaller (Nat.le_refl _)
  refine ⟨rfl, ?_, ?_⟩
  · simp [ImageLoaderState.raceSettles, List.find?_append, hraces, List.lookup_append, hold,
      List.lookup]
  · intro i hi
    have hfind := find_pollsFrom (ipfsHash.toStr ++ "-" ++ category.toStr) n
      (s.nextCaller + 1) i hi
    have holdi := hs.resolved (s.nextCaller + 1 + i) (by omega)
    have hne : (s.nextCaller + 1 + i == s.nextCaller) = false := by
      have : s.nextCaller + 1 + i ≠ s.nextCaller := by omega
      simpa using this
    refine ⟨?_, ?_, ?_⟩
    · simp [ImageLoaderState.poll, List.find?_append, hpolls i, hfind, hcache]
    · simp [ImageLoaderState.raceSettles, ImageLoaderState.poll, List.find?_append, hraces,
        hpolls i, hfind, JsMap.get_set_self, List.lookup_append, holdi, List.lookup, hne]
    · intro ticks hmem
      refine ImageLoaderState.ticks_resolve ticks _
        (ipfsHash.toStr ++ "-" ++ category.toStr) url (s.nextCaller + 1 + i) ?_ ?_ hmem
      · simp [ImageLoaderState.raceSettles, List.find?_append, hraces, JsMap.get_set_self]
      · left
        simp [ImageLoaderState.raceSettles, List.find?_append, hraces, hpolls i, hfind,
          List.lookup_append, holdi, List.lookup, hne]

/-- C14, at a concrete input: three calls for the same image on a new loader start one race,
and the third caller returns the URL of that race at its tick. -/
theorem image_loader_single_race_witness :
    ((ImageLoaderState.init.loadImage (.str sampleHash) (.str "Livestock")).run
        (List.replicate 2 (.load (.str sampleHash) (.str "Livestock")))).started
      = [(.str sampleHash, .str "Livestock")] ∧
    ((((ImageLoaderState.init.loadImage (.str sampleHash) (.str "Livestock")).run
        (List.replicate 2 (.load (.str sampleHash) (.str "Livestock")))).raceSettles 0
          (.ok (.str ("https://ipfs.io/ipfs/" ++ sampleHash)))).poll 2).resolved.lookup 2
      = some (.str ("https://ipfs.io/ipfs/" ++ sampleHash)) :=
  have h := image_loader_single_race ImageLoaderState.init ⟨[], rfl⟩ (.str sampleHash)
    (.str "Livestock") 2 (.str ("https://ipfs.io/ipfs/" ++ sampleHash)) rfl (by decide)
  ⟨h.1, (h.2.2 1 (by decide)).2.1⟩

/-! ## The component `CORSSafeImage`: one race per component -/

theorem loadEffect_fresh_valid (props : ImageProps)
    (hvalid : isValidIPFSHash props.ipfsHash = true) :
    (loadEffect props ImageComponent.fresh).status
      = .racing (getImageUrlSync props.ipfsHash (categoryOrDefault props.category)) := by
  have hne : JsVal.null ≠ props.ipfsHash := by
    intro h
    rw [← h] at hvalid
    simp [isValidIPFSHash, JsVal.truthy] at hvalid
  simp [loadEffect, ImageComponent.fresh, hvalid, hne]

theorem racesStarted_fresh (props : ImageProps)
    (hvalid : isValidIPFSHash props.ipfsHash = true) (n : Nat) :
    racesStarted props (List.replicate n ImageComponent.fresh) = n := by
  induction n with
  | zero => rfl
  | succ n ih =>
    unfold racesStarted at ih ⊢
    simp [List.replicate_succ, List.filter, loadEffect_fresh_valid props hvalid, ih]

/-- C15, the code at the failing input: two `CORSSafeImage` components mounted with the same
valid address and category each pass their own guard and each call `getCORSSafeImageUrl`,
so two gateway races start, not one. -/
theorem two_components_two_races :
    isValidIPFSHash (.str sampleHash) = true ∧
    racesStarted { ipfsHash := .str sampleHash, category := .str "Livestock",
                   fallbackSrc := .undefined }
      [ImageComponent.fresh, ImageComponent.fresh] = 2 := by
  refine ⟨by decide, ?_⟩
  exact racesStarted_fresh _ (by decide) 2

/-! ## The registration check -/

theorem checkUserRegistration_skip (call : CheckCall) (s : Web3State)
    (h : s.profileFetching = true ∨ s.lastCheckedAccount = call.address) :
    checkUserRegistration call s = ⟨.done, s, []⟩ := by
  unfold checkUserRegistration
  split
  · rfl
  · rcases h with h | h <;> simp [h]

theorem checkAll_skip (calls : List CheckCall) (s : Web3State)
    (h : ∀ call ∈ calls, s.profileFetching = true ∨ s.lastCheckedAccount = call.address) :
    checkAll calls s = (s, []) := by
  unfold checkAll
  induction calls with
  | nil => rfl
  | cons call rest ih =>
    have hcall := checkUserRegistration_skip call s (h call (List.mem_cons_self _ _))
    simp only [List.foldl_cons, hcall, List.append_nil]
    exact ih (fun c hc => h c (List.mem_cons_of_mem _ hc))

theorem finallyBlock_lastChecked (s : Web3State) :
    (finallyBlock s).lastCheckedAccount = s.lastCheckedAccount := rfl

theorem completeCheck_lastChecked (lib : Lib) (profile : OnChainProfile)
    (roleData : Option RoleData) (s : Web3State) :
    (completeCheck lib profile roleData s).state.lastCheckedAccount = s.lastCheckedAccount := by
  unfold completeCheck
  split
  · rfl
  · split <;> rfl

theorem checkUserRegistration_started (call : CheckCall) (s : Web3State)
    (h : (checkUserRegistration call s).status = .awaitRegistered) :
    checkUserRegistration call s
      = ⟨.awaitRegistered, { s with profileFetching := true, checkingRegistration := true },
          [.isUserRegistered call.address]⟩ := by
  unfold checkUserRegistration at h ⊢
  split_ifs at h ⊢
  rfl

/-- The guard of the check: a check that gets past its guards issues exactly one
`isUserRegistered` read and sets the pending flag. While the pending flag is set, every further call (for this address
or any other) returns at once with no effect and the state unchanged, and so does any number
of such calls in a row. The read that resolves while the provider is mounted records the
address as last checked, the rest of the check keeps that record, and from then on every
call for that address again returns at once with no effect and the state unchanged. -/
theorem registration_check_deduplicated (lib : Lib) (call : CheckCall) (s : Web3State) :
    ((checkUserRegistration call s).status = .awaitRegistered →
      (checkUserRegistration call s).effects = [.isUserRegistered call.address] ∧
      (checkUserRegistration call s).state.profileFetching = true ∧
      ∀ calls : List CheckCall,
        checkAll calls (checkUserRegistration call s).state
          = ((checkUserRegistration call s).state, [])) ∧
    (s.mounted = true → ∀ registered,
      (afterRegistered call (.ok registered) s).state.lastCheckedAccount = call.address) ∧
    (∀ response,
      (afterProfile lib call response s).state.lastCheckedAccount = s.lastCheckedAccount) ∧
    (∀ profile roleData,
      (afterRole lib profile roleData s).state.lastCheckedAccount = s.lastCheckedAccount) ∧
    (s.lastCheckedAccount = call.address →
      ∀ calls : List CheckCall, (∀ c ∈ calls, c.address = call.address) →
        checkAll calls s = (s, [])) := by
  refine ⟨?_, ?_, ?_, ?_, ?_⟩
  · intro hstatus
    rw [checkUserRegistration_started call s hstatus]
    refine ⟨rfl, rfl, ?_⟩
    intro calls
    exact checkAll_skip calls _ (fun _ _ => Or.inl rfl)
  · intro hm registered
    cases registered <;> simp [afterRegistered, hm, finallyBlock]
  · intro response
    cases response with
    | error e => simp [afterProfile, catchBlock, finallyBlock]
    | ok profile =>
      unfold afterProfile
      simp only
      split
      · rfl
      · split
        · rfl
        · exact completeCheck_lastChecked _ _ _ _
  · intro profile roleData
    exact completeCheck_lastChecked _ _ _ _
  · intro hlast calls hcalls
    exact checkAll_skip calls s (fun c hc => Or.inr (by rw [hcalls c hc]; exact hlast))

/-- The guard at a concrete input: a first check for `0xabc` starts one read; three more
calls made while the pending flag is set do nothing. -/
theorem registration_check_deduplicated_witness :
    (checkUserRegistration (sampleCheck "0xabc") Web3State.init).effects
      = [.isUserRegistered (.str "0xabc")] ∧
    checkAll [sampleCheck "0xabc", sampleCheck "0xabc", sampleCheck "0xabc"]
        (checkUserRegistration (sampleCheck "0xabc") Web3State.init).state
      = ((checkUserRegistration (sampleCheck "0xabc") Web3State.init).state, []) :=
  have h := (registration_check_deduplicated sampleLib (sampleCheck "0xabc")
    Web3State.init).1 rfl
  ⟨h.1, h.2.2 _⟩

theorem completeCheck_mounted_ok (lib : Lib) (profile : OnChainProfile)
    (roleData : Option RoleData) (s : Web3State) (newProfile : UserProfile)
    (hm : s.mounted = true) (hok : assembleProfile lib profile roleData = .ok newProfile) :
    completeCheck lib profile roleData s
      = ⟨.done,
          { s with userProfile := some newProfile, checkingRegistration := false,
                   profileFetching := false },
          []⟩ := by
  simp [completeCheck, hm, hok, finallyBlock]

theorem assembleProfile_fields (lib : Lib) (profile : OnChainProfile)
    (roleData : Option RoleData) (newProfile : UserProfile)
    (hok : assembleProfile lib profile roleData = .ok newProfile) :
    newProfile.name = profile.name ∧
    newProfile.profileIPFSHash = profile.profileIPFSHash ∧
    profile.registeredAt.map toString = some newProfile.registeredAt ∧
    profile.projectCount.map toString = some newProfile.projectCount ∧
    profile.totalInvested.map (fun v => lib.formatUnits v 6) = some newProfile.totalInvested ∧
    profile.totalRaised.map (fun v => lib.formatUnits v 6) = some newProfile.totalRaised ∧
    newProfile.role = jsOr (roleField roleData (fun d => d.role)) (.str "investor") ∧
    newProfile.bio = jsOr (roleField roleData (fun d => d.bio)) (.str "") ∧
    newProfile.location = jsOr (roleField roleData (fun d => d.location)) (.str "") ∧
    newProfile.experience = jsOr (roleField roleData (fun d => d.experience)) (.str "") := by
  unfold assembleProfile at hok
  cases h1 : profile.registeredAt with
  | none => simp [h1] at hok
  | some registeredAt =>
    cases h2 : profile.projectCount with
    | none => simp [h1, h2] at hok
    | some projectCount =>
      cases h3 : profile.totalInvested with
      | none => simp [h1, h2, h3] at hok
      | some totalInvested =>
        cases h4 : profile.totalRaised with
        | none => simp [h1, h2, h3, h4] at hok
        | some totalRaised =>
          simp only [h1, h2, h3, h4, Except.ok.injEq] at hok
          subst hok
          simp

theorem completeCheck_effects (lib : Lib) (profile : OnChainProfile)
    (roleData : Option RoleData) (s : Web3State) :
    (completeCheck lib profile roleData s).effects = [] := by
  unfold completeCheck
  split
  · rfl
  · split <;> rfl

theorem afterProfile_no_fetch (lib : Lib) (call : CheckCall) (profile : OnChainProfile)
    (s : Web3State) (hm : s.mounted = true)
    (h : ¬ (profile.profileIPFSHash ≠ "" ∧ JsVal.str profile.profileIPFSHash ≠ s.lastProfileHash)) :
    afterProfile lib call (.ok profile) s
      = completeCheck lib profile (heldRoleData call.userProfile) s := by
  simp only [afterProfile, hm, Bool.not_true, if_neg h]
  simp

/-- The refetch rule: with the provider mounted, the continuation after the profile
read calls `fetchUserRole` exactly when the on-chain pointer is non-empty and differs from
the last-resolved pointer. When the pointer is unchanged no off-chain fetch is issued, and
the assembled profile takes role, bio, location and experience from the user profile held by
the callback if one is held and has a role; with no profile held the role is `investor` and
bio, location and experience are empty strings. -/
theorem role_refetch_rule (lib : Lib) (call : CheckCall) (profile : OnChainProfile)
    (s : Web3State) (hm : s.mounted = true) :
    ((afterProfile lib call (.ok profile) s).effects
        = [.fetchUserRole profile.profileIPFSHash] ↔
      (profile.profileIPFSHash ≠ "" ∧ JsVal.str profile.profileIPFSHash ≠ s.lastProfileHash)) ∧
    (JsVal.str profile.profileIPFSHash = s.lastProfileHash →
      (afterProfile lib call (.ok profile) s).effects = [] ∧
      (∀ held newProfile, call.userProfile = some held → held.role.truthy = true →
        assembleProfile lib profile (heldRoleData (some held)) = .ok newProfile →
        (afterProfile lib call (.ok profile) s).state.userProfile = some newProfile ∧
        newProfile.role = held.role ∧
        newProfile.bio = jsOr held.bio (.str "") ∧
        newProfile.location = jsOr held.location (.str "") ∧
        newProfile.experience = jsOr held.experience (.str "")) ∧
      (∀ newProfile, call.userProfile = none →
        assembleProfile lib profile none = .ok newProfile →
        (afterProfile lib call (.ok profile) s).state.userProfile = some newProfile ∧
        newProfile.role = .str "investor" ∧
        newProfile.bio = .str "" ∧
        newProfile.location = .str "" ∧
        newProfile.experience = .str "")) := by
  constructor
  · by_cases h : profile.profileIPFSHash ≠ "" ∧
        JsVal.str profile.profileIPFSHash ≠ s.lastProfileHash
    · simp [afterProfile, hm, h]
    · rw [afterProfile_no_fetch lib call profile s hm h, completeCheck_effects]
      simp [h]
  · intro hsame
    have h : ¬ (profile.profileIPFSHash ≠ "" ∧
        JsVal.str profile.profileIPFSHash ≠ s.lastProfileHash) := fun h => h.2 hsame
    rw [afterProfile_no_fetch lib call profile s hm h]
    refine ⟨completeCheck_effects _ _ _ _, ?_, ?_⟩
    · intro held newProfile hheld hrole hok
      rw [hheld, completeCheck_mounted_ok lib profile _ s newProfile hm hok]
      have hf := assembleProfile_fields lib profile _ newProfile hok
      refine ⟨rfl, ?_, ?_, ?_, ?_⟩
      · rw [hf.2.2.2.2.2.2.1]
        simp [heldRoleData, hrole, roleField, jsOr]
      · rw [hf.2.2.2.2.2.2.2.1]
        simp [heldRoleData, hrole, roleField]
      · rw [hf.2.2.2.2.2.2.2.2.1]
        simp [heldRoleData, hrole, roleField]
      · rw [hf.2.2.2.2.2.2.2.2.2]
        simp [heldRoleData, hrole, roleField]
    · intro newProfile hnone hok
      rw [hnone]
      simp only [heldRoleData]
      rw [completeCheck_mounted_ok lib profile none s newProfile hm hok]
      have hf := assembleProfile_fields lib profile none newProfile hok
      refine ⟨rfl, ?_, ?_, ?_, ?_⟩
      · rw [hf.2.2.2.2.2.2.1]; simp [roleField, jsOr, JsVal.truthy]
      · rw [hf.2.2.2.2.2.2.2.1]; simp [roleField, jsOr, JsVal.truthy]
      · rw [hf.2.2.2.2.2.2.2.2.1]; simp [roleField, jsOr, JsVal.truthy]
      · rw [hf.2.2.2.2.2.2.2.2.2]; simp [roleField, jsOr, JsVal.truthy]

/-- The refetch rule at a concrete input: a check made while the farmer's profile is held
and the pointer is unchanged issues no fetch. -/
theorem role_refetch_rule_witness :
    (afterProfile sampleLib { sampleCheck "0xabc" with userProfile := farmerChecked.userProfile }
      (.ok (sampleOnChain sampleHash)) farmerChecked).effects = [] ∧
    (afterProfile sampleLib { sampleCheck "0xabc" with userProfile := farmerChecked.userProfile }
      (.ok (sampleOnChain "QmOther")) farmerChecked).effects = [.fetchUserRole "QmOther"] :=
  ⟨((role_refetch_rule sampleLib
      { sampleCheck "0xabc" with userProfile := farmerChecked.userProfile }
      (sampleOnChain sampleHash) farmerChecked (by decide)).2 (by decide)).1,
   (role_refetch_rule sampleLib
      { sampleCheck "0xabc" with userProfile := farmerChecked.userProfile }
      (sampleOnChain "QmOther") farmerChecked (by decide)).1.mpr (by decide)⟩

theorem jsOr_jsOr_self (a b : JsVal) : jsOr (jsOr a b) b = jsOr a b := by
  unfold jsOr
  by_cases ha : a.truthy = true
  · simp [ha]
  · simp [ha]

/-- C18 as stated fails: a profile document without `role` and `userType`, fetched by the
first check of `0xabc`, gives the role `investor` but the assembled profile keeps the bio,
location and experience of the document. -/
theorem off_chain_nothing_not_all_defaults :
    bioOnlyJson.role = .undefined ∧ bioOnlyJson.userType = .undefined ∧
    (afterRole sampleLib (sampleOnChain sampleHash) (some (roleResult bioOnlyJson))
        awaitingRole).state.userProfile.map (fun p => (p.role, p.bio, p.location, p.experience))
      = some (.str "investor", .str "Rice grower", .str "Rangpur", .str "5 years") := by
  refine ⟨rfl, rfl, by decide⟩

/-- C18 as the code has it: with the provider mounted, the assembled profile takes name,
pointer, registeredAt, projectCount, totalInvested and totalRaised from the on-chain record
(the two counts as decimal strings, the two amounts formatted with 6 decimals) and role, bio,
location and experience from the role data, each defaulting on its own when it is falsy:
the role to `investor`, the others to the empty string. When `fetchUserRole` returned `null`
(all gateways failed), and when the pointer is empty and no profile is held, all four take
their defaults. For a fetched document the role is its `role`, else its `userType`, else
`investor`, and bio, location and experience are its own values or the empty string. -/
theorem profile_assembly (lib : Lib) (call : CheckCall) (profile : OnChainProfile)
    (s : Web3State) (hm : s.mounted = true) :
    (∀ roleData newProfile, assembleProfile lib profile roleData = .ok newProfile →
      (afterRole lib profile roleData s).state.userProfile = some newProfile ∧
      newProfile.name = profile.name ∧
      newProfile.profileIPFSHash = profile.profileIPFSHash ∧
      profile.registeredAt.map toString = some newProfile.registeredAt ∧
      profile.projectCount.map toString = some newProfile.projectCount ∧
      profile.totalInvested.map (fun v => lib.formatUnits v 6) = some newProfile.totalInvested ∧
      profile.totalRaised.map (fun v => lib.formatUnits v 6) = some newProfile.totalRaised ∧
      newProfile.role = jsOr (roleField roleData (fun d => d.role)) (.str "investor") ∧
      newProfile.bio = jsOr (roleField roleData (fun d => d.bio)) (.str "") ∧
      newProfile.location = jsOr (roleField roleData (fun d => d.location)) (.str "") ∧
      newProfile.experience = jsOr (roleField roleData (fun d => d.experience)) (.str "")) ∧
    (∀ newProfile, assembleProfile lib profile none = .ok newProfile →
      newProfile.role = .str "investor" ∧ newProfile.bio = .str "" ∧
      newProfile.location = .str "" ∧ newProfile.experience = .str "") ∧
    (∀ newProfile, profile.profileIPFSHash = "" → call.userProfile = none →
      assembleProfile lib profile none = .ok newProfile →
      (afterProfile lib call (.ok profile) s).effects = [] ∧
      (afterProfile lib call (.ok profile) s).state.userProfile = some newProfile) ∧
    (∀ profileData newProfile,
      assembleProfile lib profile (some (roleResult profileData)) = .ok newProfile →
      newProfile.role = jsOr (jsOr profileData.role profileData.userType) (.str "investor") ∧
      newProfile.bio = jsOr profileData.bio (.str "") ∧
      newProfile.location = jsOr profileData.location (.str "") ∧
      newProfile.experience = jsOr profileData.experience (.str "")) := by
  refine ⟨?_, ?_, ?_, ?_⟩
  · intro roleData newProfile hok
    have hf := assembleProfile_fields lib profile roleData newProfile hok
    refine ⟨?_, hf⟩
    unfold afterRole
    rw [completeCheck_mounted_ok lib profile roleData
      { s with lastProfileHash := .str profile.profileIPFSHash } newProfile hm hok]
  · intro newProfile hok
    have hf := assembleProfile_fields lib profile none newProfile hok
    refine ⟨?_, ?_, ?_, ?_⟩
    · rw [hf.2.2.2.2.2.2.1]; simp [roleField, jsOr, JsVal.truthy]
    · rw [hf.2.2.2.2.2.2.2.1]; simp [roleField, jsOr, JsVal.truthy]
    · rw [hf.2.2.2.2.2.2.2.2.1]; simp [roleField, jsOr, JsVal.truthy]
    · rw [hf.2.2.2.2.2.2.2.2.2]; simp [roleField, jsOr, JsVal.truthy]
  · intro newProfile hempty hnone hok
    have h : ¬ (profile.profileIPFSHash ≠ "" ∧
        JsVal.str profile.profileIPFSHash ≠ s.lastProfileHash) := fun h => h.1 hempty
    rw [afterProfile_no_fetch lib call profile s hm h, hnone]
    simp only [heldRoleData]
    rw [completeCheck_mounted_ok lib profile none s newProfile hm hok]
    exact ⟨rfl, rfl⟩
  · intro profileData newProfile hok
    have hf := assembleProfile_fields lib profile _ newProfile hok
    refine ⟨?_, ?_, ?_, ?_⟩
    · rw [hf.2.2.2.2.2.2.1]; simp [roleField, roleResult, jsOr_jsOr_self]
    · rw [hf.2.2.2.2.2.2.2.1]; simp [roleField, roleResult, jsOr_jsOr_self]
    · rw [hf.2.2.2.2.2.2.2.2.1]; simp [roleField, roleResult, jsOr_jsOr_self]
    · rw [hf.2.2.2.2.2.2.2.2.2]; simp [roleField, roleResult, jsOr_jsOr_self]

/-- C18, at a concrete input: the farmer's document and the on-chain record of `0xabc`. -/
theorem profile_assembly_witness :
    (afterRole sampleLib (sampleOnChain sampleHash) (some (roleResult farmerJson))
        awaitingRole).state.userProfile
      = some { name := "Asha", profileIPFSHash := sampleHash, registeredAt := "1700000000",
               projectCount := "2", totalInvested := "0", totalRaised := "5000000",
               role := .str "farmer", bio := .str "Rice grower", location := .str "Rangpur",
               experience := .str "5 years" } :=
  ((profile_assembly sampleLib (sampleCheck "0xabc") (sampleOnChain sampleHash) awaitingRole
    (by decide)).1 (some (roleResult farmerJson)) _ rfl).1

/-- C19: with the provider mounted, when the `isUserRegistered` read rejects, when the
`getUserProfile` read rejects, when the assembly of the profile throws (after an off-chain
fetch or without one), or when a step before the first read throws, the call returns
normally (nothing is propagated) and afterwards `isRegistered` is false, `userProfile` is
null, `checkingRegistration` is false and the pending flag is cleared. -/
theorem registration_check_error (lib : Lib) (call : CheckCall) (s : Web3State) (e : JsError)
    (hm : s.mounted = true) :
    afterRegistered call (.error e) s
      = ⟨.done, { s with isRegistered := false, userProfile := none,
                         checkingRegistration := false, profileFetching := false }, []⟩ ∧
    afterProfile lib call (.error e) s
      = ⟨.done, { s with isRegistered := false, userProfile := none,
                         checkingRegistration := false, profileFetching := false }, []⟩ ∧
    (∀ profile, assembleProfile lib profile (heldRoleData call.userProfile) = .error e →
      ¬ (profile.profileIPFSHash ≠ "" ∧ JsVal.str profile.profileIPFSHash ≠ s.lastProfileHash) →
      afterProfile lib call (.ok profile) s
        = ⟨.done, { s with isRegistered := false, userProfile := none,
                           checkingRegistration := false, profileFetching := false }, []⟩) ∧
    (∀ profile roleData, assembleProfile lib profile roleData = .error e →
      afterRole lib profile roleData s
        = ⟨.done, { s with isRegistered := false, userProfile := none,
                           checkingRegistration := false, profileFetching := false,
                           lastProfileHash := .str profile.profileIPFSHash }, []⟩) ∧
    ((checkUserRegistration call s).status = .done →
      (checkUserRegistration call s).state ≠ s →
      checkUserRegistration call s
        = ⟨.done, { s with isRegistered := false, userProfile := none,
                           checkingRegistration := false, profileFetching := false }, []⟩) := by
  refine ⟨?_, ?_, ?_, ?_, ?_⟩
  · simp [afterRegistered, catchBlock, finallyBlock, hm]
  · simp [afterProfile, catchBlock, finallyBlock, hm]
  · intro profile hthrow hsame
    rw [afterProfile_no_fetch lib call profile s hm hsame]
    simp [completeCheck, hm, hthrow, catchBlock, finallyBlock]
  · intro profile roleData hthrow
    simp [afterRole, completeCheck, hm, hthrow, catchBlock, finallyBlock]
  · intro hstatus hchanged
    unfold checkUserRegistration at hstatus hchanged ⊢
    split_ifs at hstatus hchanged ⊢
    · exact absurd rfl hchanged
    · exact absurd rfl hchanged
    · simp [catchBlock, finallyBlock, hm]

/-- C19, at a concrete input: the `getUserProfile` read of the first check rejects. -/
theorem registration_check_error_witness :
    afterProfile sampleLib (sampleCheck "0xabc") (.error { message := "network error" })
        (afterRegistered (sampleCheck "0xabc") (.ok true)
          (checkUserRegistration (sampleCheck "0xabc") Web3State.init).state).state
      = ⟨.done,
          { isRegistered := false, userProfile := none, checkingRegistration := false,
            profileFetching := false, lastCheckedAccount := .str "0xabc",
            lastProfileHash := .null, mounted := true },
          []⟩ :=
  (registration_check_error sampleLib (sampleCheck "0xabc")
    (afterRegistered (sampleCheck "0xabc") (.ok true)
      (checkUserRegistration (sampleCheck "0xabc") Web3State.init).state).state
    { message := "network error" } (by decide)).2.1

theorem continuation_after_unmount (lib : Lib) (call : CheckCall) (s : Web3State)
    (hm : s.mounted = false) :
    (∀ response, afterRegistered call response s
      = ⟨.done, { s with profileFetching := false }, []⟩) ∧
    (∀ response, afterProfile lib call response s
      = ⟨.done, { s with profileFetching := false }, []⟩) ∧
    (∀ profile roleData, afterRole lib profile roleData s
      = ⟨.done, { s with profileFetching := false,
                         lastProfileHash := .str profile.profileIPFSHash }, []⟩) := by
  refine ⟨?_, ?_, ?_⟩
  · intro response
    cases response <;> simp [afterRegistered, catchBlock, finallyBlock, hm]
  · intro response
    cases response <;> simp [afterProfile, catchBlock, finallyBlock, hm]
  · intro profile roleData
    simp [afterRole, completeCheck, finallyBlock, hm]

/-- C20, the code at the failing input: the provider is torn down while the first check of
`0xabc` is suspended at `fetchUserRole`; when the fetch resolves, the continuation raises
nothing and leaves `isRegistered`, `userProfile`, `checkingRegistration` and the last-checked
account alone, but it overwrites the last-resolved pointer, which was null, with the
pointer it fetched. -/
theorem role_continuation_after_unmount_writes_pointer :
    (unmountProvider awaitingRole).mounted = false ∧
    (unmountProvider awaitingRole).lastProfileHash = .null ∧
    (afterRole sampleLib (sampleOnChain sampleHash) (some (roleResult farmerJson))
        (unmountProvider awaitingRole)).status = .done ∧
    (afterRole sampleLib (sampleOnChain sampleHash) (some (roleResult farmerJson))
        (unmountProvider awaitingRole)).state
      = { unmountProvider awaitingRole with lastProfileHash := .str sampleHash } := by
  refine ⟨by decide, by decide, by decide, by decide⟩

/-! ## The investment pipeline: failures -/

theorem investStep_error_refs (L : Ledger) (projectId amountUSDC : JsVal) (amount : Int)
    (r1 : Refs) (pre : List Effect) (e : JsError)
    (h : (investStep L projectId amountUSDC amount r1 pre).value = .error e) :
    (investStep L projectId amountUSDC amount r1 pre).refs = r1 := by
  cases h1 : L.investInProject projectId amount with
  | error e1 => simp [investStep, h1]
  | ok tx =>
    cases h2 : tx.waitResult with
    | error e2 => simp [investStep, h1, h2]
    | ok receipt => simp [investStep, h1, h2] at h

theorem investInProjectBody_error_refs (lib : Lib) (c : Ctx) (L : Ledger)
    (projectId amountUSDC : JsVal) (r : Refs) (e : JsError)
    (h : (investInProjectBody lib c L projectId amountUSDC r).value = .error e) :
    (investInProjectBody lib c L projectId amountUSDC r).refs = { r with loading := true } := by
  cases h1 : amountUSDC.toStringMethod with
  | error e1 => simp [investInProjectBody, h1]
  | ok text =>
    cases h2 : lib.parseUnits text 6 with
    | error e2 => simp [investInProjectBody, h1, h2]
    | ok amount =>
      cases h3 : L.balanceOf c.account with
      | error e3 => simp [investInProjectBody, h1, h2, h3]
      | ok balance =>
        by_cases h4 : balance < amount
        · simp [investInProjectBody, h1, h2, h3, h4]
        · cases h5 : L.allowance c.account c.addresses.investmentManager with
          | error e5 => simp [investInProjectBody, h1, h2, h3, h4, h5]
          | ok allowance =>
            by_cases h6 : allowance < amount
            · cases h7 : L.approve c.addresses.investmentManager amount with
              | error e7 => simp [investInProjectBody, h1, h2, h3, h4, h5, h6, h7]
              | ok approveTx =>
                cases h8 : approveTx.waitResult with
                | error e8 => simp [investInProjectBody, h1, h2, h3, h4, h5, h6, h7, h8]
                | ok receipt =>
                  simp only [investInProjectBody, h1, h2, h3, h4, h5, h6, h7, h8, if_true,
                    if_false] at h ⊢
                  exact investStep_error_refs _ _ _ _ _ _ e h
            · simp only [investInProjectBody, h1, h2, h3, h4, h5, h6, if_false] at h ⊢
              exact investStep_error_refs _ _ _ _ _ _ e h

/-- C26: with the gate open and the amount parsed, a failure at any step of
`investInProject` ends the call there. Whatever the failing step, the call throws, every
cache cell is left as it was and the loading flag is reset to false. Step by step, the
error thrown is the error of the failing step and the contract calls issued stop at that
step, each call being issued once: a failed balance read is the only call; a failed allowance
read follows the balance read alone; a rejected approval, or an approval whose confirmation
fails, is followed by no investment transaction; a rejected investment, or an investment
whose confirmation fails, is the last call. -/
theorem invest_failure_aborts (lib : Lib) (c : Ctx) (L : Ledger)
    (projectId amountUSDC : JsVal) (r : Refs) (text : String) (amount : Int)
    (hready : c.contractsReady = true) (hmgr : c.contracts.investmentManager.isSome = true)
    (husdc : c.contracts.usdc.isSome = true) (hconn : c.isConnected = true)
    (htext : amountUSDC.toStringMethod = .ok text) (hparse : lib.parseUnits text 6 = .ok amount) :
    (∀ e, (investInProject lib c L projectId amountUSDC r).value = .error e →
      (investInProject lib c L projectId amountUSDC r).refs = { r with loading := false }) ∧
    (∀ e, L.balanceOf c.account = .error e →
      (investInProject lib c L projectId amountUSDC r).value = .error e ∧
      callsOf (investInProject lib c L projectId amountUSDC r).effects
        = [.balanceOf c.account]) ∧
    (∀ balance, L.balanceOf c.account = .ok balance → amount ≤ balance →
      (∀ e, L.allowance c.account c.addresses.investmentManager = .error e →
        (investInProject lib c L projectId amountUSDC r).value = .error e ∧
        callsOf (investInProject lib c L projectId amountUSDC r).effects
          = [.balanceOf c.account, .allowance c.account c.addresses.investmentManager]) ∧
      (∀ allowance, L.allowance c.account c.addresses.investmentManager = .ok allowance →
        (allowance < amount →
          (∀ e, L.approve c.addresses.investmentManager amount = .error e →
            (investInProject lib c L projectId amountUSDC r).value = .error e ∧
            callsOf (investInProject lib c L projectId amountUSDC r).effects
              = [.balanceOf c.account, .allowance c.account c.addresses.investmentManager,
                 .approve c.addresses.investmentManager amount]) ∧
          (∀ tx, L.approve c.addresses.investmentManager amount = .ok tx →
            (∀ e, tx.waitResult = .error e →
              (investInProject lib c L projectId amountUSDC r).value = .error e ∧
              callsOf (investInProject lib c L projectId amountUSDC r).effects
                = [.balanceOf c.account, .allowance c.account c.addresses.investmentManager,
                   .approve c.addresses.investmentManager amount, .wait tx.hash]) ∧
            (∀ receipt, tx.waitResult = .ok receipt →
              (∀ e, L.investInProject projectId amount = .error e →
                (investInProject lib c L projectId amountUSDC r).value = .error e ∧
                callsOf (investInProject lib c L projectId amountUSDC r).effects
                  = [.balanceOf c.account, .allowance c.account c.addresses.investmentManager,
                     .approve c.addresses.investmentManager amount, .wait tx.hash,
                     .investInProject projectId amount]) ∧
              (∀ investTx e, L.investInProject projectId amount = .ok investTx →
                investTx.waitResult = .error e →
                (investInProject lib c L projectId amountUSDC r).value = .error e ∧
                callsOf (investInProject lib c L projectId amountUSDC r).effects
                  = [.balanceOf c.account, .allowance c.account c.addresses.investmentManager,
                     .approve c.addresses.investmentManager amount, .wait tx.hash,
                     .investInProject projectId amount, .wait investTx.hash])))) ∧
        (amount ≤ allowance →
          (∀ e, L.investInProject projectId amount = .error e →
            (investInProject lib c L projectId amountUSDC r).value = .error e ∧
            callsOf (investInProject lib c L projectId amountUSDC r).effects
              = [.balanceOf c.account, .allowance c.account c.addresses.investmentManager,
                 .investInProject projectId amount]) ∧
          (∀ investTx e, L.investInProject projectId amount = .ok investTx →
            investTx.waitResult = .error e →
            (investInProject lib c L projectId amountUSDC r).value = .error e ∧
            callsOf (investInProject lib c L projectId amountUSDC r).effects
              = [.balanceOf c.account, .allowance c.account c.addresses.investmentManager,
                 .investInProject projectId amount, .wait investTx.hash])))) := by
  have hm : c.contracts.investmentManager.isNone = false := by
    cases h : c.contracts.investmentManager <;> simp_all
  have hu : c.contracts.usdc.isNone = false := by
    cases h : c.contracts.usdc <;> simp_all
  have hinv : investInProject lib c L projectId amountUSDC r
      = finishMutation "Investment Failed" (investInProjectBody lib c L projectId amountUSDC r) := by
    simp [investInProject, hready, hm, hu, hconn]
  rw [hinv]
  simp only [finishMutation_value, finishMutation_effects_calls, finishMutation_refs]
  refine ⟨?_, ?_, ?_⟩
  · intro e he
    rw [investInProjectBody_error_refs lib c L projectId amountUSDC r e he]
  · intro e he
    simp [investInProjectBody, htext, hparse, he, callsOf]
  · intro balance hbal hle
    have hnlt : ¬ balance < amount := not_lt.mpr hle
    refine ⟨?_, ?_⟩
    · intro e he
      simp [investInProjectBody, htext, hparse, hbal, hnlt, he, callsOf]
    · intro allowance hallow
      refine ⟨?_, ?_⟩
      · intro hlt
        refine ⟨?_, ?_⟩
        · intro e he
          simp [investInProjectBody, htext, hparse, hbal, hnlt, hallow, hlt, he, callsOf]
        · intro tx htx
          refine ⟨?_, ?_⟩
          · intro e he
            simp [investInProjectBody, htext, hparse, hbal, hnlt, hallow, hlt, htx, he, callsOf]
          · intro receipt hrec
            refine ⟨?_, ?_⟩
            · intro e he
              simp [investInProjectBody, investStep, htext, hparse, hbal, hnlt, hallow, hlt,
                htx, hrec, he, callsOf, callsOf_append]
            · intro investTx e hi he
              simp [investInProjectBody, investStep, htext, hparse, hbal, hnlt, hallow, hlt,
                htx, hrec, hi, he, callsOf, callsOf_append]
      · intro hge
        have hnlt2 : ¬ allowance < amount := not_lt.mpr hge
        refine ⟨?_, ?_⟩
        · intro e he
          simp [investInProjectBody, investStep, htext, hparse, hbal, hnlt, hallow, hnlt2, he,
            callsOf, callsOf_append]
        · intro investTx e hi he
          simp [investInProjectBody, investStep, htext, hparse, hbal, hnlt, hallow, hnlt2, hi,
            he, callsOf, callsOf_append]

/-- C26, at concrete inputs: on a ledger that rejects the approval, a request of 5 USDC with
allowance 0 throws the rejection after the two reads and the approval, with no investment
transaction, the warm caches untouched and the loading flag false. -/
theorem invest_failure_aborts_witness :
    (investInProject sampleLib readyCtx
        { sampleLedger 10000000 0 3 with
          approve := fun _ _ => .error { message := "user rejected transaction" } }
        (.str "1") (.str "5") (warmRefs 0)).value
      = .error { message := "user rejected transaction" } ∧
    callsOf (investInProject sampleLib readyCtx
        { sampleLedger 10000000 0 3 with
          approve := fun _ _ => .error { message := "user rejected transaction" } }
        (.str "1") (.str "5") (warmRefs 0)).effects
      = [.balanceOf (.str "0xabc"), .allowance (.str "0xabc") (.str "0xmanager"),
         .approve (.str "0xmanager") 5000000] ∧
    (investInProject sampleLib readyCtx
        { sampleLedger 10000000 0 3 with
          approve := fun _ _ => .error { message := "user rejected transaction" } }
        (.str "1") (.str "5") (warmRefs 0)).refs = warmRefs 0 :=
  have h := invest_failure_aborts sampleLib readyCtx
    { sampleLedger 10000000 0 3 with
      approve := fun _ _ => .error { message := "user rejected transaction" } }
    (.str "1") (.str "5") (warmRefs 0) "5" 5000000 rfl rfl rfl rfl rfl rfl
  have h4 := ((((h.2.2 10000000 rfl (by decide)).2 0 rfl).1 (by decide)).1
    { message := "user rejected transaction" } rfl)
  ⟨h4.1, h4.2, h.1 _ h4.1⟩

/-! ## The wallet session: connecting -/

theorem finishConnect_error_state (agent : Agent) (first : String) (s1 : WalletState)
    (pre : List WalletEffect) (e : WalletError)
    (h : (finishConnect agent first s1 pre).value = .error e) :
    (finishConnect agent first s1 pre).state = s1 := by
  cases h1 : agent.web3Provider with
  | error e1 => simp [finishConnect, h1]
  | ok web3Provider =>
    cases h2 : agent.network with
    | error e2 => simp [finishConnect, h1, h2]
    | ok networkChainId => simp [finishConnect, h1, h2] at h

theorem finishConnect_effects (agent : Agent) (first : String) (s1 : WalletState)
    (pre : List WalletEffect) :
    ∃ tail, (finishConnect agent first s1 pre).effects = pre ++ tail ∧
      tail.all (fun e => !e.isRequest) = true := by
  cases h1 : agent.web3Provider with
  | error e1 => exact ⟨[.newProvider], by simp [finishConnect, h1], by decide⟩
  | ok web3Provider =>
    cases h2 : agent.network with
    | error e2 => exact ⟨[.newProvider, .getNetwork], by simp [finishConnect, h1, h2], by decide⟩
    | ok networkChainId =>
      exact ⟨[.newProvider, .getNetwork, .setIsConnected true,
          .toast { title := "Wallet Connected",
                   description := "Connected to " ++ shortAddress first,
                   status := "success" }],
        by simp [finishConnect, h1, h2], by simp [WalletEffect.isRequest]⟩

theorem connectWalletBody_error_state (ethereum : Option Agent) (s : WalletState)
    (e : WalletError) (h : (connectWalletBody ethereum s).value = .error e) :
    (connectWalletBody ethereum s).state = { s with isConnecting := true } := by
  cases ethereum with
  | none => simp [connectWalletBody]
  | some agent =>
    cases h1 : agent.requestAccounts with
    | error e1 => simp [connectWalletBody, h1]
    | ok accounts =>
      match accounts, h1 with
      | none, h1 => simp [connectWalletBody, h1]
      | some [], h1 => simp [connectWalletBody, h1]
      | some (first :: rest), h1 =>
        cases h2 : agent.chainId with
        | error e2 => simp [connectWalletBody, h1, h2]
        | ok chain =>
          by_cases h3 : chain = EXPECTED_CHAIN_ID
          · simp only [connectWalletBody, h1, h2, h3, ne_eq, not_true_eq_false, if_false] at h ⊢
            exact finishConnect_error_state _ _ _ _ e h
          · cases h4 : (switchToAmoyNetwork agent).value with
            | error e4 => simp [connectWalletBody, h1, h2, h3, h4]
            | ok u =>
              simp only [connectWalletBody, h1, h2, h3, h4, ne_eq, not_false_eq_true,
                if_true] at h ⊢
              exact finishConnect_error_state _ _ _ _ e h

theorem connectWallet_value_of_body_error (ethereum : Option Agent) (s : WalletState)
    (e : WalletError) (hidle : s.isConnecting = false)
    (h : (connectWalletBody ethereum s).value = .error e) :
    (connectWallet ethereum s).value = .error { message := connectErrorMessage e } := by
  simp [connectWallet, hidle, h]

theorem connectWallet_error_state (ethereum : Option Agent) (s : WalletState) (e : JsError)
    (hidle : s.isConnecting = false) (h : (connectWallet ethereum s).value = .error e) :
    (connectWallet ethereum s).state = s := by
  cases hb : (connectWalletBody ethereum s).value with
  | ok account => simp [connectWallet, hidle, hb] at h
  | error error =>
    have hs := connectWalletBody_error_state ethereum s error hb
    simp only [connectWallet, hidle, hb, hs]
    cases s
    simp_all

theorem connectWallet_effects (ethereum : Option Agent) (s : WalletState)
    (hidle : s.isConnecting = false) :
    ∃ tail, (connectWallet ethereum s).effects = (connectWalletBody ethereum s).effects ++ tail ∧
      tail.all (fun e => !e.isRequest) = true := by
  cases hb : (connectWalletBody ethereum s).value with
  | ok account =>
    exact ⟨[WalletEffect.setIsConnecting false], by simp [connectWallet, hidle, hb], by decide⟩
  | error error =>
    exact ⟨[WalletEffect.toast { title := "Connection Failed",
                                 description := connectErrorMessage error, status := "error" },
            WalletEffect.setIsConnecting false],
      by simp [connectWallet, hidle, hb], by simp [WalletEffect.isRequest]⟩

/-- C22, as the code has it: in a `connectWallet` call that finds the agent on a chain other
than `0x13882`, the requests sent are the account request, the chain read and one
`wallet_switchEthereumChain` request, followed by one `wallet_addEthereumChain` request
exactly when the switch failed with code 4902; no further request is sent in that call (the
switch is not requested a second time), so the creation of provider and signer and the
marking of the session as connected come after them, and the call resolves with an account
only if the switch succeeded or, after a 4902 failure, the add request succeeded. -/
theorem connect_switches_network (agent : Agent) (s : WalletState) (first chain : String)
    (rest : List String) (hidle : s.isConnecting = false)
    (hacc : agent.requestAccounts = .ok (some (first :: rest)))
    (hchain : agent.chainId = .ok chain) (hne : chain ≠ EXPECTED_CHAIN_ID) :
    (∃ tail, (connectWallet (some agent) s).effects
        = [.setIsConnecting true, .request "eth_requestAccounts", .request "eth_chainId",
           .request "wallet_switchEthereumChain"]
          ++ (match agent.switchChain with
              | .ok _ => []
              | .error e =>
                if e.code = some 4902 then [.request "wallet_addEthereumChain"] else [])
          ++ tail ∧
      tail.all (fun e => !e.isRequest) = true) ∧
    (∀ account, (connectWallet (some agent) s).value = .ok account →
      agent.switchChain = .ok () ∨
      ∃ e, agent.switchChain = .error e ∧ e.code = some 4902 ∧ agent.addChain = .ok ()) := by
  have key : ∀ pre : List WalletEffect,
      (∃ tail, (connectWalletBody (some agent) s).effects = pre ++ tail ∧
        tail.all (fun e => !e.isRequest) = true) →
      ∃ tail, (connectWallet (some agent) s).effects = pre ++ tail ∧
        tail.all (fun e => !e.isRequest) = true := by
    intro pre ⟨tail, h1, h2⟩
    obtain ⟨tail2, h3, h4⟩ := connectWallet_effects (some agent) s hidle
    refine ⟨tail ++ tail2, by rw [h3, h1, List.append_assoc], ?_⟩
    rw [List.all_append, h2, h4]; rfl
  constructor
  · apply key
    cases hs : agent.switchChain with
    | ok u =>
      obtain ⟨tail, h1, h2⟩ := finishConnect_effects agent first { s with isConnecting := true }
        ([.setIsConnecting true, .request "eth_requestAccounts", .request "eth_chainId"]
          ++ [.request "wallet_switchEthereumChain"])
      refine ⟨tail, ?_, h2⟩
      simp only [connectWalletBody, hacc, hchain, hne, switchToAmoyNetwork, hs, ne_eq,
        not_false_eq_true, if_true]
      rw [h1]
      simp
    | error e =>
      by_cases hcode : e.code = some 4902
      · cases ha : agent.addChain with
        | ok u =>
          obtain ⟨tail, h1, h2⟩ := finishConnect_effects agent first
            { s with isConnecting := true }
            ([.setIsConnecting true, .request "eth_requestAccounts", .request "eth_chainId"]
              ++ [.request "wallet_switchEthereumChain", .request "wallet_addEthereumChain"])
          refine ⟨tail, ?_, h2⟩
          simp only [connectWalletBody, hacc, hchain, hne, switchToAmoyNetwork, hs, hcode, ha,
            ne_eq, not_false_eq_true, if_true]
          rw [h1]
          simp
        | error e2 =>
          refine ⟨[], ?_, rfl⟩
          simp [connectWalletBody, hacc, hchain, hne, switchToAmoyNetwork, hs, hcode, ha]
      · refine ⟨[], ?_, rfl⟩
        simp [connectWalletBody, hacc, hchain, hne, switchToAmoyNetwork, hs, hcode]
  · intro account hv
    cases hs : agent.switchChain with
    | ok u => exact Or.inl rfl
    | error e =>
      right
      by_cases hcode : e.code = some 4902
      · cases ha : agent.addChain with
        | ok u => exact ⟨e, rfl, hcode, rfl⟩
        | error e2 =>
          simp [connectWallet, hidle, connectWalletBody, hacc, hchain, hne, switchToAmoyNetwork,
            hs, hcode, ha] at hv
      · simp [connectWallet, hidle, connectWalletBody, hacc, hchain, hne, switchToAmoyNetwork,
          hs, hcode] at hv

/-- C22, at a concrete input: an agent on chain `0x1` whose switch request succeeds is sent
the account request, the chain read and one switch request, and nothing after them. -/
theorem connect_switches_network_witness :
    (∃ tail, (connectWallet (some (sampleAgent "0x1" none)) WalletState.init).effects
        = [.setIsConnecting true, .request "eth_requestAccounts", .request "eth_chainId",
           .request "wallet_switchEthereumChain"]
          ++ (match (sampleAgent "0x1" none).switchChain with
              | .ok _ => []
              | .error e =>
                if e.code = some 4902 then [.request "wallet_addEthereumChain"] else [])
          ++ tail ∧
      tail.all (fun e => !e.isRequest) = true) :=
  (connect_switches_network (sampleAgent "0x1" none) WalletState.init "0xabc" "0x1" [] rfl rfl
    rfl (by decide)).1

/-- C22, the claim as written fails: on chain `0x1`, with the switch request failing with
code 4902 and the add request succeeding, `connectWallet` goes from the add request straight
to the creation of the provider; the switch request is sent once, before the add request,
and the session ends connected. -/
theorem connect_adds_network_without_second_switch :
    (connectWallet (some (sampleAgent "0x1" (some 4902))) WalletState.init).effects
      = [.setIsConnecting true, .request "eth_requestAccounts", .request "eth_chainId",
         .request "wallet_switchEthereumChain", .request "wallet_addEthereumChain",
         .newProvider, .getNetwork, .setIsConnected true,
         .toast { title := "Wallet Connected", description := "Connected to 0xabc...",
                  status := "success" },
         .setIsConnecting false] ∧
    (connectWallet (some (sampleAgent "0x1" (some 4902))) WalletState.init).state.isConnected
      = true := by
  constructor <;> decide

/-- C23: a `connectWallet` call made while no attempt is under way throws whenever a step
fails, and every call that throws leaves the wallet state exactly as it was (`isConnected`,
`account`, `chainId`, `provider` and `signer` unchanged, `isConnecting` false again). The
failing steps are: the agent is absent; the account request is rejected (code 4001 gives
`Connection rejected by user`, code -32002 the pending message); no account is returned; the
chain read fails; the switch to the expected chain fails (with a code other than 4902, or
with 4902 and a failing add request); the provider cannot be created or the network read
fails. -/
theorem connect_failure_stays_disconnected (ethereum : Option Agent) (s : WalletState)
    (hidle : s.isConnecting = false) :
    (∀ e, (connectWallet ethereum s).value = .error e →
      (connectWallet ethereum s).state = s ∧
      (connectWallet ethereum s).state.isConnecting = false) ∧
    (ethereum = none →
      (connectWallet ethereum s).value
        = .error { message := "Please install MetaMask to use this application" }) ∧
    (∀ agent, ethereum = some agent →
      (∀ e, agent.requestAccounts = .error e →
        (connectWallet ethereum s).value = .error { message := connectErrorMessage e }) ∧
      (agent.requestAccounts = .ok none ∨ agent.requestAccounts = .ok (some []) →
        (connectWallet ethereum s).value
          = .error { message := "No accounts found. Please make sure MetaMask is unlocked." }) ∧
      (∀ first rest, agent.requestAccounts = .ok (some (first :: rest)) →
        (∀ e, agent.chainId = .error e →
          (connectWallet ethereum s).value = .error { message := connectErrorMessage e }) ∧
        (∀ chain, agent.chainId = .ok chain →
          (chain ≠ EXPECTED_CHAIN_ID →
            (∀ e, agent.switchChain = .error e → e.code ≠ some 4902 →
              (connectWallet ethereum s).value
                = .error { message := connectErrorMessage e }) ∧
            (∀ e e2, agent.switchChain = .error e → e.code = some 4902 →
              agent.addChain = .error e2 →
              (connectWallet ethereum s).value
                = .error { message := "Failed to add Amoy network to MetaMask" })) ∧
          (chain = EXPECTED_CHAIN_ID ∨ (switchToAmoyNetwork agent).value = .ok () →
            (∀ e, agent.web3Provider = .error e →
              (connectWallet ethereum s).value
                = .error { message := connectErrorMessage e }) ∧
            (∀ web3Provider e, agent.web3Provider = .ok web3Provider →
              agent.network = .error e →
              (connectWallet ethereum s).value
                = .error { message := connectErrorMessage e }))))) ∧
    (∀ message, connectErrorMessage { code := some 4001, message := message }
        = "Connection rejected by user") ∧
    connectErrorMessage { code := some (-32002), message := "Already processing" }
        = "Connection request already pending. Please check MetaMask." := by
  refine ⟨?_, ?_, ?_, ?_, ?_⟩
  · intro e he
    have hs := connectWallet_error_state ethereum s e hidle he
    exact ⟨hs, by rw [hs, hidle]⟩
  · intro hnone
    subst hnone
    rw [connectWallet_value_of_body_error none s
      { code := none, message := "Please install MetaMask to use this application" } hidle
      (by simp [connectWalletBody])]
    have hm : connectErrorMessage
        { code := none, message := "Please install MetaMask to use this application" }
        = "Please install MetaMask to use this application" := by decide
    rw [hm]
  · intro agent hagent
    subst hagent
    refine ⟨?_, ?_, ?_⟩
    · intro e he
      exact connectWallet_value_of_body_error _ s e hidle (by simp [connectWalletBody, he])
    · intro h
      have hm : connectErrorMessage
          { code := none,
            message := "No accounts found. Please make sure MetaMask is unlocked." }
          = "No accounts found. Please make sure MetaMask is unlocked." := by decide
      rcases h with h | h
      · rw [connectWallet_value_of_body_error (some agent) s
          { code := none,
            message := "No accounts found. Please make sure MetaMask is unlocked." } hidle
          (by simp [connectWalletBody, h]), hm]
      · rw [connectWallet_value_of_body_error (some agent) s
          { code := none,
            message := "No accounts found. Please make sure MetaMask is unlocked." } hidle
          (by simp [connectWalletBody, h]), hm]
    · intro first rest hacc
      refine ⟨?_, ?_⟩
      · intro e he
        exact connectWallet_value_of_body_error _ s e hidle
          (by simp [connectWalletBody, hacc, he])
      · intro chain hchain
        refine ⟨?_, ?_⟩
        · intro hne
          refine ⟨?_, ?_⟩
          · intro e he hcode
            exact connectWallet_value_of_body_error _ s e hidle
              (by simp [connectWalletBody, hacc, hchain, hne, switchToAmoyNetwork, he, hcode])
          · intro e e2 he hcode ha
            have hm : connectErrorMessage
                { code := none, message := "Failed to add Amoy network to MetaMask" }
                = "Failed to add Amoy network to MetaMask" := by decide
            rw [connectWallet_value_of_body_error (some agent) s
              { code := none, message := "Failed to add Amoy network to MetaMask" } hidle
              (by simp [connectWalletBody, hacc, hchain, hne, switchToAmoyNetwork, he, hcode,
                ha]), hm]
        · intro hsw
          have hbody : ∀ e, (∀ pre, (finishConnect agent first { s with isConnecting := true }
                pre).value = .error e) →
              (connectWalletBody (some agent) s).value = .error e := by
            intro e hf
            by_cases h3 : chain = EXPECTED_CHAIN_ID
            · simp only [connectWalletBody, hacc, hchain, h3, ne_eq, not_true_eq_false,
                if_false]
              exact hf _
            · rcases hsw with hsw | hsw
              · exact absurd hsw h3
              · simp only [connectWalletBody, hacc, hchain, h3, hsw, ne_eq, not_false_eq_true,
                  if_true]
                exact hf _
          refine ⟨?_, ?_⟩
          · intro e he
            exact connectWallet_value_of_body_error _ s e hidle
              (hbody e (fun pre => by simp [finishConnect, he]))
          · intro web3Provider e hp he
            exact connectWallet_value_of_body_error _ s e hidle
              (hbody e (fun pre => by simp [finishConnect, hp, he]))
  · intro message
    simp [connectErrorMessage]
  · decide

/-- C23, at a concrete input: with no agent present, a call on the initial (disconnected)
wallet state throws the install message and leaves that state as it was. -/
theorem connect_failure_stays_disconnected_witness :
    (connectWallet none WalletState.init).value
      = .error { message := "Please install MetaMask to use this application" } ∧
    (connectWallet none WalletState.init).state = WalletState.init :=
  have h := connect_failure_stays_disconnected none WalletState.init rfl
  ⟨h.2.1 rfl, (h.1 _ (h.2.1 rfl)).1⟩

/-! ## The binding initialisation -/

theorem buildContracts_ok (env : BindingEnv) (signer : Nat) (newContracts : Contracts)
    (h : buildContracts env signer = .ok newContracts) :
    newContracts
      = { projectFactory := some { address := env.addresses.projectFactory, signer := signer }
          investmentManager :=
            some { address := env.addresses.investmentManager, signer := signer }
          usdc := some { address := env.addresses.usdc, signer := signer } } := by
  unfold buildContracts at h
  cases h1 : env.construct "projectFactory" env.addresses.projectFactory signer with
  | some e => simp [h1] at h
  | none =>
    cases h2 : env.construct "investmentManager" env.addresses.investmentManager signer with
    | some e => simp [h1, h2] at h
    | none =>
      cases h3 : env.construct "usdc" env.addresses.usdc signer with
      | some e => simp [h1, h2, h3] at h
      | none =>
        simp [h1, h2, h3] at h
        exact h.symm

/-- C24: one run of the initialisation effect (none being under way). With a `provider` and
`signer` identical to the recorded pair the run changes nothing. With a differing pair: if
provider and signer are present, the project-factory address is configured and the three
constructions succeed, the three bindings are built for that signer, the pair is recorded,
readiness is set false and one settle timer is scheduled; if the provider or the signer is
absent or the address is not configured, the bindings are cleared to the empty object,
readiness is set false and the recorded pair is reset, with no timer scheduled. -/
theorem init_effect_run (env : BindingEnv) (provider signer : Option Nat) (h : BindingState)
    (hidle : h.initializing = false) :
    (h.lastProvider = provider → h.lastSigner = signer →
      initEffect env provider signer h = ⟨h, []⟩) ∧
    (¬ (h.lastProvider = provider ∧ h.lastSigner = signer) →
      (provider = none ∨ signer = none ∨ env.addresses.projectFactory.truthy = false →
        (initEffect env provider signer h).state
          = { h with
              contracts := { projectFactory := none, investmentManager := none, usdc := none }
              contractsReady := false
              lastProvider := none
              lastSigner := none } ∧
        (initEffect env provider signer h).toasts = []) ∧
      (∀ web3Provider web3Signer newContracts, provider = some web3Provider →
        signer = some web3Signer → env.addresses.projectFactory.truthy = true →
        buildContracts env web3Signer = .ok newContracts →
        (initEffect env provider signer h).state
          = { h with
              contracts :=
                { projectFactory :=
                    some { address := env.addresses.projectFactory, signer := web3Signer }
                  investmentManager :=
                    some { address := env.addresses.investmentManager, signer := web3Signer }
                  usdc := some { address := env.addresses.usdc, signer := web3Signer } }
              contractsReady := false
              lastProvider := some web3Provider
              lastSigner := some web3Signer
              timers := h.timers + 1 } ∧
        (initEffect env provider signer h).toasts = [])) := by
  refine ⟨?_, ?_⟩
  · intro hp hs
    simp [initEffect, hidle, hp, hs]
  · intro hdiff
    refine ⟨?_, ?_⟩
    · intro hcase
      cases provider with
      | none => simp [initEffect, hidle, hdiff, clearBindings]
      | some web3Provider =>
        cases signer with
        | none => simp [initEffect, hidle, hdiff, clearBindings]
        | some web3Signer =>
          rcases hcase with hc | hc | hc
          · simp at hc
          · simp at hc
          · simp [initEffect, hidle, hdiff, hc, clearBindings]
    · intro web3Provider web3Signer newContracts hp hs haddr hbuild
      subst hp hs
      have hnew := buildContracts_ok env web3Signer newContracts hbuild
      subst hnew
      simp only [initEffect, hidle, hdiff, haddr, hbuild, if_true, if_false]
      cases h
      simp_all

/-- C24, at a concrete input: the first run with provider 1 and signer 1 on a new hook
builds the three bindings for signer 1 and leaves readiness false until the timer fires. -/
theorem init_effect_run_witness :
    (initEffect sampleEnv (some 1) (some 1) BindingState.init).state
      = { BindingState.init with
          contracts :=
            { projectFactory := some { address := .str "0xfactory", signer := 1 }
              investmentManager := some { address := .str "0xmanager", signer := 1 }
              usdc := some { address := .str "0xusdc", signer := 1 } }
          contractsReady := false
          lastProvider := some 1
          lastSigner := some 1
          timers := BindingState.init.timers + 1 } ∧
    (initEffect sampleEnv (some 1) (some 1) BindingState.init).toasts = [] :=
  (init_effect_run sampleEnv (some 1) (some 1) BindingState.init rfl).2 (by decide) |>.2
    1 1 _ rfl rfl rfl rfl

theorem buildContracts_error_of_throw (env : BindingEnv) (signer : Nat)
    (h : (env.construct "projectFactory" env.addresses.projectFactory signer).isSome = true ∨
      (env.construct "investmentManager" env.addresses.investmentManager signer).isSome = true ∨
      (env.construct "usdc" env.addresses.usdc signer).isSome = true) :
    ∃ e, buildContracts env signer = .error e := by
  unfold buildContracts
  cases h1 : env.construct "projectFactory" env.addresses.projectFactory signer with
  | some e => exact ⟨e, rfl⟩
  | none =>
    cases h2 : env.construct "investmentManager" env.addresses.investmentManager signer with
    | some e => exact ⟨e, rfl⟩
    | none =>
      cases h3 : env.construct "usdc" env.addresses.usdc signer with
      | some e => exact ⟨e, rfl⟩
      | none => simp [h1, h2, h3] at h

/-- C25, as the code has it: when a construction throws in a run of the initialisation
effect (present provider and signer differing from the recorded pair, address configured),
the run sets readiness false and shows the failure toast, and leaves everything else as it
was: the bindings held before the run are kept (they are not cleared), the recorded pair is
not updated and no timer is scheduled. The effect does not run again while the hook is
re-rendered with the same provider and signer. -/
theorem init_failure_keeps_bindings (env : BindingEnv) (h : BindingState)
    (web3Provider web3Signer : Nat) (e : JsError) (hidle : h.initializing = false)
    (hdiff : ¬ (h.lastProvider = some web3Provider ∧ h.lastSigner = some web3Signer))
    (haddr : env.addresses.projectFactory.truthy = true)
    (hthrow : buildContracts env web3Signer = .error e) :
    (initEffect env (some web3Provider) (some web3Signer) h).state
      = { h with contractsReady := false } ∧
    (initEffect env (some web3Provider) (some web3Signer) h).toasts
      = [{ title := "Contract Initialization Failed",
           description := "Please check your network connection and try again.",
           status := "error" }] ∧
    (∀ hook : BindingHook, hook.state = h →
      BindingHook.render env (some web3Provider) (some web3Signer)
          (BindingHook.render env (some web3Provider) (some web3Signer) hook)
        = BindingHook.render env (some web3Provider) (some web3Signer) hook) := by
  refine ⟨?_, ?_, ?_⟩
  · simp only [initEffect, hidle, hdiff, haddr, hthrow, if_true, if_false]
    cases h
    simp_all
  · simp [initEffect, hidle, hdiff, haddr, hthrow]
  · intro hook _
    by_cases hd : hook.deps = some (some web3Provider, some web3Signer)
    · simp [BindingHook.render, hd]
    · simp [BindingHook.render, hd]

/-- C25, at a concrete input: after a successful run for provider 1 and signer 1, a run for
provider 2 and signer 2 in which the constructor throws keeps the state of the first run,
with readiness false. -/
theorem init_failure_keeps_bindings_witness :
    (initEffect sampleEnv (some 2) (some 2)
        (initEffect sampleEnv (some 1) (some 1) BindingState.init).state).state
      = { (initEffect sampleEnv (some 1) (some 1) BindingState.init).state with
          contractsReady := false } :=
  (init_failure_keeps_bindings sampleEnv
    (initEffect sampleEnv (some 1) (some 1) BindingState.init).state 2 2
    { message := "invalid signer or provider" } rfl (by decide) rfl rfl).1

/-- C25, the claim as written fails: the failed run for signer 2 does not clear the bindings;
the three bindings built for signer 1 are still in the `contracts` state afterwards, with
the pair of provider 1 and signer 1 still recorded. -/
theorem failed_init_keeps_earlier_bindings :
    ((BindingHook.init.render sampleEnv (some 1) (some 1)).render sampleEnv (some 2)
        (some 2)).state
      = { contracts :=
            { projectFactory := some { address := .str "0xfactory", signer := 1 }
              investmentManager := some { address := .str "0xmanager", signer := 1 }
              usdc := some { address := .str "0xusdc", signer := 1 } }
          contractsReady := false, initializing := false, lastProvider := some 1,
          lastSigner := some 1, timers := 1 } ∧
    ((BindingHook.init.render sampleEnv (some 1) (some 1)).render sampleEnv (some 2)
        (some 2)).toasts
      = [{ title := "Contract Initialization Failed",
           description := "Please check your network connection and try again.",
           status := "error" }] := by
  constructor <;> decide

/-- C27, the code at the failing input: bindings are built for provider 1 and signer 1, the
wallet disconnects within the settle delay (a render with no provider and no signer clears
the bindings), and the pending timer fires: readiness is true while no binding is present
and no pair is recorded. With a failed run for signer 2 in place of the disconnect, the
timer marks the bindings of signer 1 ready. -/
theorem stale_timer_sets_readiness :
    (((BindingHook.init.render sampleEnv (some 1) (some 1)).render sampleEnv none none).timer).state
      = { contracts := { projectFactory := none, investmentManager := none, usdc := none }
          contractsReady := true, initializing := false, lastProvider := none,
          lastSigner := none, timers := 0 } ∧
    (((BindingHook.init.render sampleEnv (some 1) (some 1)).render sampleEnv (some 2)
        (some 2)).timer).state
      = { contracts :=
            { projectFactory := some { address := .str "0xfactory", signer := 1 }
              investmentManager := some { address := .str "0xmanager", signer := 1 }
              usdc := some { address := .str "0xusdc", signer := 1 } }
          contractsReady := true, initializing := false, lastProvider := some 1,
          lastSigner := some 1, timers := 0 } := by
  constructor <;> decide

/-! ## The wallet session: account changes -/

theorem handleAccountsChanged_mounted (account : String) (accounts : List String)
    (p : ProviderState) :
    (handleAccountsChanged account accounts p).state.registration.mounted
      = p.registration.mounted := by
  cases accounts with
  | nil => rfl
  | cons first rest =>
    by_cases h : first = account
    · simp [handleAccountsChanged, h]
    · simp [handleAccountsChanged, h]

/-- The account listener: when the wallet reports the account `a2` while `a1` is the active
one, the listener
`handleAccountsChanged` sets the account to `a2`, `isRegistered` to false, `userProfile` to
null and the two account-scoped memo cells (last-checked account, last-resolved pointer) to
null, in one synchronous step that issues no read; nothing of what those four cells held for
`a1` enters the resulting state. When no check is pending, the registration read for `a2`
is issued by the registration effect of the next render, from that reset state. -/
theorem account_switch_resets (a1 a2 : String) (others : List String) (p : ProviderState)
    (contracts : Contracts) (hne : a2 ≠ a1) :
    (handleAccountsChanged a1 (a2 :: others) p).state
      = { wallet := { p.wallet with account := a2 }
          registration :=
            { p.registration with
              isRegistered := false, userProfile := none, lastCheckedAccount := .null,
              lastProfileHash := .null } } ∧
    (handleAccountsChanged a1 (a2 :: others) p).toasts
      = [{ title := "Account Changed", description := "Switched to " ++ shortAddress a2,
           status := "info" }] ∧
    (∀ isRegistered userProfile lastChecked lastHash,
      (handleAccountsChanged a1 (a2 :: others)
          { p with
            registration :=
              { p.registration with
                isRegistered := isRegistered, userProfile := userProfile,
                lastCheckedAccount := lastChecked, lastProfileHash := lastHash } }).state
        = (handleAccountsChanged a1 (a2 :: others) p).state) ∧
    (p.wallet.account = a1 → p.wallet.isConnected = true → a2 ≠ "" →
      contracts.projectFactory.isSome = true → p.registration.mounted = true →
      p.registration.profileFetching = false →
      appEffect (some (appDeps contracts p)) contracts
          (handleAccountsChanged a1 (a2 :: others) p).state
        = ⟨.awaitRegistered,
            { p.registration with
              isRegistered := false, userProfile := none, lastCheckedAccount := .null,
              lastProfileHash := .null, profileFetching := true,
              checkingRegistration := true },
            [.isUserRegistered (.str a2)]⟩) := by
  refine ⟨?_, ?_, ?_, ?_⟩
  · simp [handleAccountsChanged, hne]
  · simp [handleAccountsChanged, hne]
  · intro isRegistered userProfile lastChecked lastHash
    simp [handleAccountsChanged, hne]
  · intro hacc hconn hnonempty hfactory hmounted hidle
    have hdeps : appDeps contracts p
        ≠ appDeps contracts
            { wallet := { p.wallet with account := a2 }
              registration :=
                { p.registration with
                  isRegistered := false, userProfile := none, lastCheckedAccount := .null,
                  lastProfileHash := .null } } := by
      intro h
      have h2 := congrArg AppDeps.account h
      simp only [appDeps] at h2
      exact hne (hacc ▸ h2.symm)
    have hstate : (handleAccountsChanged a1 (a2 :: others) p).state
        = { wallet := { p.wallet with account := a2 }
            registration :=
              { p.registration with
                isRegistered := false, userProfile := none, lastCheckedAccount := .null,
                lastProfileHash := .null } } := by
      simp [handleAccountsChanged, hne]
    rw [hstate]
    unfold appEffect
    rw [if_neg (fun h => hdeps (Option.some.inj h))]
    have hpf : contracts.projectFactory ≠ none := by
      intro h
      simp [h] at hfactory
    simp [appEffectBody, hconn, hnonempty, hfactory, checkUserRegistration, JsVal.truthy,
      JsVal.isString, hmounted, hidle, hpf]

/-- The account listener at a concrete input: the session connected as `0xabc` with nothing
pending switches
to `0xdef`; the following registration effect issues the read for `0xdef` from the reset
state. -/
theorem account_switch_resets_witness :
    (handleAccountsChanged "0xabc" ["0xdef"] (connectedAs "0xabc")).state
      = { wallet := { (connectedAs "0xabc").wallet with account := "0xdef" }
          registration :=
            { (connectedAs "0xabc").registration with
              isRegistered := false, userProfile := none, lastCheckedAccount := .null,
              lastProfileHash := .null } } ∧
    appEffect (some (appDeps sampleContracts (connectedAs "0xabc"))) sampleContracts
        (handleAccountsChanged "0xabc" ["0xdef"] (connectedAs "0xabc")).state
      = ⟨.awaitRegistered,
          { (connectedAs "0xabc").registration with
            isRegistered := false, userProfile := none, lastCheckedAccount := .null,
            lastProfileHash := .null, profileFetching := true, checkingRegistration := true },
          [.isUserRegistered (.str "0xdef")]⟩ :=
  have h := account_switch_resets "0xabc" "0xdef" [] (connectedAs "0xabc") sampleContracts
    (by decide)
  ⟨h.1, h.2.2.2 rfl rfl (by decide) rfl rfl rfl⟩

/-! ## The registration check and account changes -/

/-- The continuations of `checkUserRegistration` look at the liveness flag only, never at
the active account. After the listener `handleAccountsChanged`
has run on a mounted provider during a suspended check (with a new account, or with the
empty list, which disconnects), the continuation of the `isUserRegistered` read still sets
`isRegistered` and the last-checked account from the read and the address of the suspended
call, and the continuation of the role fetch still sets `userProfile` and the last-resolved
pointer from the profile of that address. -/
theorem stale_check_result_applied (lib : Lib) (call : CheckCall) (account : String)
    (accounts : List String) (p : ProviderState) (hm : p.registration.mounted = true) :
    (∀ registered,
      (afterRegistered call (.ok registered)
          (handleAccountsChanged account accounts p).state.registration).state.isRegistered
        = registered ∧
      (afterRegistered call (.ok registered)
          (handleAccountsChanged account accounts p).state.registration).state.lastCheckedAccount
        = call.address) ∧
    (∀ profile roleData newProfile, assembleProfile lib profile roleData = .ok newProfile →
      (afterRole lib profile roleData
          (handleAccountsChanged account accounts p).state.registration).state.userProfile
        = some newProfile ∧
      (afterRole lib profile roleData
          (handleAccountsChanged account accounts p).state.registration).state.lastProfileHash
        = .str profile.profileIPFSHash) := by
  have hq : (handleAccountsChanged account accounts p).state.registration.mounted = true := by
    rw [handleAccountsChanged_mounted, hm]
  generalize (handleAccountsChanged account accounts p).state.registration = q at hq
  refine ⟨?_, ?_⟩
  · intro registered
    cases registered <;> simp [afterRegistered, hq, finallyBlock]
  · intro profile roleData newProfile hassemble
    simp [afterRole, completeCheck, hq, hassemble, finallyBlock]

/-- The same at a concrete input: the wallet switches from `0xabc` to `0xdef` while the
check of
`0xabc` is suspended; the read then resolving `true` sets `isRegistered` and records
`0xabc` as checked. -/
theorem stale_check_result_applied_witness :
    (afterRegistered firstCall (.ok true)
        (handleAccountsChanged "0xabc" ["0xdef"] checkingFirst).state.registration).state.isRegistered
      = true ∧
    (afterRegistered firstCall (.ok true)
        (handleAccountsChanged "0xabc" ["0xdef"] checkingFirst).state.registration).state.lastCheckedAccount
      = firstCall.address :=
  (stale_check_result_applied sampleLib firstCall "0xabc" ["0xdef"] checkingFirst rfl).1 true

/-- C28, the code at the failing input: with the check of the registered account `0xabc`
suspended at its first read, the wallet switches to `0xdef`; when the reads of `0xabc`
resolve, the provider, whose active account is `0xdef`, is marked registered, records
`0xabc` as the last-checked account, and holds the profile and the pointer of `0xabc`. -/
theorem stale_check_overwrites_new_account :
    switchedMidCheck.wallet.account = "0xdef" ∧
    (firstCheckSettled true).state.isRegistered = true ∧
    (firstCheckSettled true).state.lastCheckedAccount = .str "0xabc" ∧
    firstCheckDone.isRegistered = true ∧
    firstCheckDone.userProfile.map (fun u => (u.name, u.role)) = some ("Asha", .str "farmer") ∧
    firstCheckDone.lastCheckedAccount = .str "0xabc" ∧
    firstCheckDone.lastProfileHash = .str sampleHash := by
  refine ⟨?_, ?_, ?_, ?_, ?_, ?_, ?_⟩ <;> decide

/-- C29, the code at the failing input: while the check of `0xabc` is suspended the wallet
switches to `0xdef`; the registration effect of the next render requests the check of
`0xdef`, which returns at the guard without a read; the read of `0xabc` then resolves
`false`, which ends that check without changing the held profile; the dependencies of the
registration effect are what they were at its last run, so it does not run again, although
its body would now issue the read for `0xdef`. No read for `0xdef` is issued and the
provider stays with `0xabc` as the last-checked account. -/
theorem skipped_check_is_not_rerun :
    appEffect (some (appDeps sampleContracts checkingFirst)) sampleContracts switchedMidCheck
      = ⟨.done, switchedMidCheck.registration, []⟩ ∧
    (firstCheckSettled false).effects = [] ∧
    (firstCheckSettled false).status = .done ∧
    appEffect (some (appDeps sampleContracts switchedMidCheck)) sampleContracts
        { switchedMidCheck with registration := (firstCheckSettled false).state }
      = ⟨.done, (firstCheckSettled false).state, []⟩ ∧
    (appEffectBody sampleContracts
        { switchedMidCheck with registration := (firstCheckSettled false).state }).effects
      = [.isUserRegistered (.str "0xdef")] ∧
    (firstCheckSettled false).state.profileFetching = false ∧
    (firstCheckSettled false).state.lastCheckedAccount = .str "0xabc" := by
  refine ⟨?_, ?_, ?_, ?_, ?_, ?_, ?_⟩ <;> decide

/-! ## The component `CORSSafeImage`: a prop change during the race -/

/-- C30, the code at the failing input: a component starts the race for `sampleHash`; its
`ipfsHash` prop changes to `otherHash` while the race is pending, and the run of the load
effect for the new prop returns at the guard; when the race settles, whatever its outcome,
no load is in flight, and the component shows the first-gateway URL of `sampleHash` and
records `sampleHash` as loaded. -/
theorem hash_change_during_race_keeps_old_url :
    (loadEffect (sampleImage sampleHash) ImageComponent.fresh).status
      = .racing (.str "https://ipfs.io/ipfs/QmYwAPJzv5CZsnA625s3Xf2nemtYgPpHdWEz79ojWnPbdG") ∧
    (loadEffect (sampleImage otherHash)
        (loadEffect (sampleImage sampleHash) ImageComponent.fresh).component).status
      = .skipped ∧
    ∀ outcome,
      afterRace (sampleImage sampleHash) false
          (.str "https://ipfs.io/ipfs/QmYwAPJzv5CZsnA625s3Xf2nemtYgPpHdWEz79ojWnPbdG") outcome
          (loadEffect (sampleImage otherHash)
            (loadEffect (sampleImage sampleHash) ImageComponent.fresh).component).component
        = { imageSrc :=
              .str "https://ipfs.io/ipfs/QmYwAPJzv5CZsnA625s3Xf2nemtYgPpHdWEz79ojWnPbdG"
            isLoading := true, hasError := false, loadingRef := false,
            lastHashRef := .str sampleHash } := by
  refine ⟨by decide, by decide, ?_⟩
  intro outcome
  have h : (loadEffect (sampleImage otherHash)
      (loadEffect (sampleImage sampleHash) ImageComponent.fresh).component).component
      = { imageSrc :=
            .str "https://ipfs.io/ipfs/QmYwAPJzv5CZsnA625s3Xf2nemtYgPpHdWEz79ojWnPbdG"
          isLoading := true, hasError := false, loadingRef := true,
          lastHashRef := .null } := by decide
  rw [h]
  cases outcome <;> simp [afterRace, sampleImage]

/-! ## Checks that overlap a disconnect or an account change -/

/-- C16, the code at the failing input: the check of `0xabc` has issued its
`isUserRegistered` read and is suspended at it, the pending flag set; the wallet
disconnects, which clears the pending flag and the last-checked account while the read is
still in flight, and connects again as `0xabc`; the registration effect of the following
render calls the check for `0xabc`, and that call issues a second `isUserRegistered` read
for `0xabc` instead of returning at the guard. -/
theorem reconnect_repeats_pending_read :
    appEffect none sampleContracts (connectedAs "0xabc")
      = ⟨.awaitRegistered, checkingFirst.registration, [.isUserRegistered (.str "0xabc")]⟩ ∧
    checkingFirst.registration.profileFetching = true ∧
    (disconnectWallet checkingFirst).state.registration.profileFetching = false ∧
    (disconnectWallet checkingFirst).state.registration.lastCheckedAccount = .null ∧
    (reconnect (sampleAgent EXPECTED_CHAIN_ID none) checkingFirst).wallet.account = "0xabc" ∧
    (reconnect (sampleAgent EXPECTED_CHAIN_ID none) checkingFirst).wallet.isConnected = true ∧
    (effectAfterReconnect (sampleAgent EXPECTED_CHAIN_ID none) checkingFirst).status
      = .awaitRegistered ∧
    (effectAfterReconnect (sampleAgent EXPECTED_CHAIN_ID none) checkingFirst).effects
      = [.isUserRegistered (.str "0xabc")] := by
  refine ⟨?_, ?_, ?_, ?_, ?_, ?_, ?_, ?_⟩ <;> decide

/-- C17, the code at the failing input: the first check of the registered account `0xabc`
is suspended at `fetchUserRole`; the wallet disconnects and connects again as `0xabc`, and
the second check starts with a callback that holds no profile; its `isUserRegistered` read
resolves; the role fetch of the first check then resolves with the farmer's document, which
records the pointer as resolved and stores the role `farmer` (the registration effect runs
again and returns at the guard); when the `getUserProfile` read of the second check
resolves, the pointer is unchanged, no off-chain fetch is issued, and the assembled profile
has the role `investor` and empty bio, location and experience. -/
theorem unchanged_pointer_with_stale_closure :
    secondCheckStarted.status = .awaitRegistered ∧
    (reconnect (sampleAgent EXPECTED_CHAIN_ID none) fetchingRole).registration.userProfile
      = none ∧
    secondCheckRegistered.effects = [.getUserProfile (.str "0xabc")] ∧
    firstRoleResolved.lastProfileHash = .str sampleHash ∧
    firstRoleResolved.userProfile.map (fun p => (p.role, p.bio, p.location, p.experience))
      = some (.str "farmer", .str "Rice grower", .str "Rangpur", .str "5 years") ∧
    appEffect
        (some (appDeps sampleContracts (reconnect (sampleAgent EXPECTED_CHAIN_ID none) fetchingRole)))
        sampleContracts
        { reconnect (sampleAgent EXPECTED_CHAIN_ID none) fetchingRole with
          registration := firstRoleResolved }
      = ⟨.done, firstRoleResolved, []⟩ ∧
    secondCheckDone.effects = [] ∧
    secondCheckDone.state.lastProfileHash = .str sampleHash ∧
    secondCheckDone.state.userProfile.map (fun p => (p.role, p.bio, p.location, p.experience))
      = some (.str "investor", .str "", .str "", .str "") := by
  refine ⟨?_, ?_, ?_, ?_, ?_, ?_, ?_, ?_, ?_⟩ <;> decide

/-- C21, the code at the failing input: the wallet switches from `0xabc` to `0xdef` while
the check of the registered account `0xabc` is suspended. The listener resets the four
cells, and the registration effect of the next render requests the check of `0xdef`, which
returns at the guard without a read. The reads of `0xabc` then resolve and write the
registration, profile, last-checked account and pointer of `0xabc`; the registration effect
runs again, and the `isUserRegistered` read for `0xdef` is issued from that state, not from
the reset one. -/
theorem read_after_switch_starts_from_old_account :
    switchedMidCheck.registration
      = { isRegistered := false, userProfile := none, checkingRegistration := true,
          profileFetching := true, lastCheckedAccount := .null, lastProfileHash := .null,
          mounted := true } ∧
    (appEffect (some (appDeps sampleContracts checkingFirst)) sampleContracts
        switchedMidCheck).effects = [] ∧
    (appEffect (some (appDeps sampleContracts switchedMidCheck)) sampleContracts
        { switchedMidCheck with registration := firstCheckDone }).effects
      = [.isUserRegistered (.str "0xdef")] ∧
    (appEffect (some (appDeps sampleContracts switchedMidCheck)) sampleContracts
        { switchedMidCheck with registration := firstCheckDone }).state
      = { isRegistered := true
          userProfile :=
            some { name := "Asha", profileIPFSHash := sampleHash, registeredAt := "1700000000",
                   projectCount := "2", totalInvested := "0", totalRaised := "5000000",
                   role := .str "farmer", bio := .str "Rice grower",
                   location := .str "Rangpur", experience := .str "5 years" }
          checkingRegistration := true, profileFetching := true,
          lastCheckedAccount := .str "0xabc", lastProfileHash := .str sampleHash,
          mounted := true } := by
  refine ⟨?_, ?_, ?_, ?_⟩ <;> decide

end AgroYield
